import Mathlib

/-
  Verification of the clownresampler audio sample-rate converter
  (single-file C89 library, src/clownresampler.h) against its
  natural-language specification.

  Shallow embedding conventions:
  * The compile-time configuration uses the library defaults:
    CLOWNRESAMPLER_KERNEL_RADIUS = 3, CLOWNRESAMPLER_KERNEL_RESOLUTION = 0x400,
    CLOWNRESAMPLER_MAXIMUM_CHANNELS = 16.
  * The unsigned 32-bit machine type cc_u32f is modelled as Nat with an
    explicit wrap (% 2^32) on every operation that can exceed 32 bits,
    matching the arithmetic model stipulated by the specification
    ("without requiring 64-bit intermediates").
  * size_t quantities (positions, indices, radii) are modelled as plain Nat;
    every subtraction performed on them in the C source is proved (or
    checked at the concrete inputs used) not to underflow, so truncated
    Nat subtraction agrees with the source.
  * Signed sample arithmetic (cc_s32f) is modelled as Int, with Int.tdiv for
    the C division (truncation toward zero).
  * The Lanczos kernel table (built once by ClownResampler_Precompute from
    double-precision floats) is treated as an opaque parameter
    (table : Nat -> Int); none of the claims verified here depend on its
    contents, only on the indices used to address it.
  * Caller callbacks are modelled as pure state-passing functions; the
    unbounded C loops become fuel-indexed recursions (none = fuel ran out).
-/

/-- CLOWNRESAMPLER_KERNEL_RADIUS (default configuration). -/
def CLOWNRESAMPLER_KERNEL_RADIUS : Nat := 3

/-- CLOWNRESAMPLER_KERNEL_RESOLUTION (default configuration, 0x400). -/
def CLOWNRESAMPLER_KERNEL_RESOLUTION : Nat := 1024

/-- CLOWNRESAMPLER_MAXIMUM_CHANNELS (default configuration). -/
def CLOWNRESAMPLER_MAXIMUM_CHANNELS : Nat := 16

/-- CLOWNRESAMPLER_FIXED_POINT_FRACTIONAL_SIZE, that is 1 <<< 16. -/
def CLOWNRESAMPLER_FIXED_POINT_FRACTIONAL_SIZE : Nat := 65536

/-- Number of entries of the Lanczos kernel table:
    CLOWNRESAMPLER_KERNEL_RADIUS * 2 * CLOWNRESAMPLER_KERNEL_RESOLUTION. -/
def lanczosKernelTableSize : Nat :=
  CLOWNRESAMPLER_KERNEL_RADIUS * 2 * CLOWNRESAMPLER_KERNEL_RESOLUTION

/-- Wrap to the 32-bit unsigned range (one C arithmetic operation on cc_u32f). -/
def wrap32 (x : Nat) : Nat := x % 2 ^ 32

/-- CLOWNRESAMPLER_TO_FIXED_POINT_FROM_INTEGER(x) = x * 65536. -/
def toFixedFromInteger (x : Nat) : Nat :=
  x * CLOWNRESAMPLER_FIXED_POINT_FRACTIONAL_SIZE

/-- CLOWNRESAMPLER_TO_INTEGER_FROM_FIXED_POINT_FLOOR(x) = x / 65536. -/
def toIntegerFromFixedFloor (x : Nat) : Nat :=
  x / CLOWNRESAMPLER_FIXED_POINT_FRACTIONAL_SIZE

/-- CLOWNRESAMPLER_TO_INTEGER_FROM_FIXED_POINT_CEILING(x) = (x + 65535) / 65536. -/
def toIntegerFromFixedCeiling (x : Nat) : Nat :=
  (x + (CLOWNRESAMPLER_FIXED_POINT_FRACTIONAL_SIZE - 1)) /
    CLOWNRESAMPLER_FIXED_POINT_FRACTIONAL_SIZE

/-- CLOWNRESAMPLER_FIXED_POINT_MULTIPLY(a, b) = a * b / 65536 on size_t operands. -/
def fixedPointMultiply (a b : Nat) : Nat :=
  a * b / CLOWNRESAMPLER_FIXED_POINT_FRACTIONAL_SIZE

/-- CLOWNRESAMPLER_FIXED_POINT_MULTIPLY on signed (cc_s32f) operands:
    C division truncates toward zero, which is Int.tdiv. -/
def fixedPointMultiplyS (a b : Int) : Int :=
  Int.tdiv (a * b) 65536

/-- ClownResampler_CalculateRatio from src/clownresampler.h.
    Splits a into 16-bit chunks and performs schoolbook long division by b,
    producing the 16.16 fixed-point quotient a * 65536 / b.  All cc_u32f
    operations wrap at 2^32 (explicit wrap32 on each operation that can
    exceed 32 bits for 32-bit inputs).  The bitwise OR into middle is the
    source's; since middle < 65536 and the other operand is a multiple of
    65536, it coincides with addition (proved below, not assumed). -/
def ClownResampler_CalculateRatio (a b : Nat) : Nat :=
  if a = 0 ∨ b = 0 then 0
  else
    let upper := a / CLOWNRESAMPLER_FIXED_POINT_FRACTIONAL_SIZE
    let middle := a % CLOWNRESAMPLER_FIXED_POINT_FRACTIONAL_SIZE
    let middle1 := middle ||| wrap32 (upper % b * CLOWNRESAMPLER_FIXED_POINT_FRACTIONAL_SIZE)
    let upper1 := upper / b
    let lower := wrap32 (middle1 % b * CLOWNRESAMPLER_FIXED_POINT_FRACTIONAL_SIZE)
    let middle2 := middle1 / b
    let lower1 := lower / b
    wrap32 (wrap32 (wrap32 (upper1 * (CLOWNRESAMPLER_FIXED_POINT_FRACTIONAL_SIZE * 2)) +
      wrap32 (middle2 * (CLOWNRESAMPLER_FIXED_POINT_FRACTIONAL_SIZE * 1))) + lower1)

/-- ClownResampler_LowLevel_State (positions and derived 16.16 quantities). -/
structure ClownResampler_LowLevel_State where
  channels : Nat
  position_integer : Nat
  position_fractional : Nat
  increment : Nat
  sample_normaliser : Int
  stretched_kernel_radius : Nat
  integer_stretched_kernel_radius : Nat
  stretched_kernel_radius_delta : Nat
  kernel_step_size : Nat
deriving DecidableEq, Repr

/-- ClownResampler_LowLevel_Adjust: recomputes the six derived fields from
    the three sample rates, leaving channels and the position untouched. -/
def ClownResampler_LowLevel_Adjust (resampler : ClownResampler_LowLevel_State)
    (input_sample_rate output_sample_rate low_pass_filter_sample_rate : Nat) :
    ClownResampler_LowLevel_State :=
  let output_to_input_ratio := ClownResampler_CalculateRatio input_sample_rate output_sample_rate
  let actual_low_pass_sample_rate :=
    min input_sample_rate (min output_sample_rate low_pass_filter_sample_rate)
  let kernel_scale := ClownResampler_CalculateRatio input_sample_rate actual_low_pass_sample_rate
  let inverse_kernel_scale := ClownResampler_CalculateRatio actual_low_pass_sample_rate input_sample_rate
  let stretched_kernel_radius := CLOWNRESAMPLER_KERNEL_RADIUS * kernel_scale
  let integer_stretched_kernel_radius := toIntegerFromFixedCeiling stretched_kernel_radius
  { resampler with
    increment := output_to_input_ratio
    stretched_kernel_radius := stretched_kernel_radius
    integer_stretched_kernel_radius := integer_stretched_kernel_radius
    stretched_kernel_radius_delta :=
      toFixedFromInteger integer_stretched_kernel_radius - stretched_kernel_radius
    kernel_step_size := fixedPointMultiply CLOWNRESAMPLER_KERNEL_RESOLUTION inverse_kernel_scale
    sample_normaliser := Int.ofNat (inverse_kernel_scale >>> (16 - 15)) }

/-- ClownResampler_LowLevel_Init: stores the channel count, zeroes the
    position and computes the derived fields via Adjust.  (The C function
    asserts channels <= CLOWNRESAMPLER_MAXIMUM_CHANNELS; theorems carry that
    bound as a hypothesis.) -/
def ClownResampler_LowLevel_Init (channels input_sample_rate output_sample_rate
    low_pass_filter_sample_rate : Nat) : ClownResampler_LowLevel_State :=
  ClownResampler_LowLevel_Adjust
    { channels := channels
      position_integer := 0
      position_fractional := 0
      increment := 0
      sample_normaliser := 0
      stretched_kernel_radius := 0
      integer_stretched_kernel_radius := 0
      stretched_kernel_radius_delta := 0
      kernel_step_size := 0 }
    input_sample_rate output_sample_rate low_pass_filter_sample_rate

/-- The min_relative bound computed at the top of ClownResampler_ComputeFrame. -/
def minRelative (resampler : ClownResampler_LowLevel_State) (position_fractional : Nat) : Nat :=
  toIntegerFromFixedCeiling (position_fractional + resampler.stretched_kernel_radius_delta)

/-- The max_relative bound computed at the top of ClownResampler_ComputeFrame. -/
def maxRelative (resampler : ClownResampler_LowLevel_State) (position_fractional : Nat) : Nat :=
  toIntegerFromFixedFloor (position_fractional + resampler.stretched_kernel_radius)

/-- The min sample index of the convolution loop of ClownResampler_ComputeFrame. -/
def convolutionMin (resampler : ClownResampler_LowLevel_State)
    (position_integer position_fractional : Nat) : Nat :=
  (position_integer + minRelative resampler position_fractional) * resampler.channels

/-- The max sample bound of the convolution loop of ClownResampler_ComputeFrame. -/
def convolutionMax (resampler : ClownResampler_LowLevel_State)
    (position_integer position_fractional : Nat) : Nat :=
  (position_integer + resampler.integer_stretched_kernel_radius +
    maxRelative resampler position_fractional) * resampler.channels

/-- The kernel_start index of ClownResampler_ComputeFrame.  The C subtraction
    TO_FIXED(min_relative) - position_fractional is on size_t; it never
    underflows when position_fractional < 65536 (lemma kernelStart_sub_safe),
    so truncated Nat subtraction agrees with the source. -/
def kernelStart (resampler : ClownResampler_LowLevel_State) (position_fractional : Nat) : Nat :=
  fixedPointMultiply resampler.kernel_step_size
    (toFixedFromInteger (minRelative resampler position_fractional) - position_fractional)

/-- Number of iterations of the convolution loop of ClownResampler_ComputeFrame
    (the loop steps sample_index by channels from min while below max, so it
    runs (max - min) / channels = rad + max_relative - min_relative times). -/
def convolutionSteps (resampler : ClownResampler_LowLevel_State)
    (position_fractional : Nat) : Nat :=
  resampler.integer_stretched_kernel_radius + maxRelative resampler position_fractional -
    minRelative resampler position_fractional

/-- ClownResampler_ComputeFrame: accumulates, for every channel, the
    kernel-weighted samples of the convolution window, then normalises with
    the 17.15 multiplier.  Faithful unrolling of the C loops: iteration j
    reads sample min + j*channels + c and kernel entry
    kernel_start + j*kernel_step_size. -/
def ClownResampler_ComputeFrame (resampler : ClownResampler_LowLevel_State)
    (table : Nat → Int) (input_buffer : Nat → Int)
    (position_integer position_fractional : Nat) : List Int :=
  let mn := convolutionMin resampler position_integer position_fractional
  let kstart := kernelStart resampler position_fractional
  let steps := convolutionSteps resampler position_fractional
  (List.range resampler.channels).map (fun current_channel =>
    let acc := (List.range steps).foldl (fun acc j =>
      acc + fixedPointMultiplyS
        (input_buffer (mn + j * resampler.channels + current_channel))
        (table (kstart + j * resampler.kernel_step_size))) 0
    Int.tdiv (acc * resampler.sample_normaliser) (2 ^ 15))

/-- ClownResampler_LowLevel_Resample as a fuel-indexed recursion (the C loop
    is unbounded; none means the fuel ran out).  The output callback carries
    an explicit state sigma (the C user_data).  The result is the final
    resampler state, the value left in *total_input_frames, the final
    callback state and the C return value (true = input exhausted,
    false = output terminated). -/
def ClownResampler_LowLevel_Resample {σ : Type} (fuel : Nat)
    (resampler : ClownResampler_LowLevel_State) (table : Nat → Int)
    (input_buffer : Nat → Int) (total_input_frames : Nat)
    (output_callback : σ → List Int → Bool × σ) (s : σ) :
    Option (ClownResampler_LowLevel_State × Nat × σ × Bool) :=
  match fuel with
  | 0 => none
  | fuel + 1 =>
    if total_input_frames ≤ resampler.position_integer then
      some ({ resampler with
          position_integer := resampler.position_integer - total_input_frames },
        0, s, true)
    else
      let samples := ClownResampler_ComputeFrame resampler table input_buffer
        resampler.position_integer resampler.position_fractional
      let pf := resampler.position_fractional + resampler.increment
      let r1 := { resampler with
        position_integer := resampler.position_integer + toIntegerFromFixedFloor pf
        position_fractional := pf % CLOWNRESAMPLER_FIXED_POINT_FRACTIONAL_SIZE }
      match output_callback s samples with
      | (true, s1) =>
        ClownResampler_LowLevel_Resample fuel r1 table input_buffer
          total_input_frames output_callback s1
      | (false, s1) =>
        let delta := min r1.position_integer total_input_frames
        some ({ r1 with position_integer := r1.position_integer - delta },
          total_input_frames - delta, s1, false)

/-- ClownResampler_HighLevel_State.  The two C pointers into input_buffer are
    modelled as sample offsets (the spec itself recommends offsets for
    reimplementations). -/
structure ClownResampler_HighLevel_State where
  low_level : ClownResampler_LowLevel_State
  input_buffer : List Int
  input_buffer_start : Nat
  input_buffer_end : Nat
  maximum_integer_stretched_kernel_radius : Nat
  leading_padding_frames_needed : Nat
  trailing_padding_frames_remaining : Nat
deriving DecidableEq, Repr

/-- Capacity of the fixed high-level input buffer, 0x1000 samples. -/
def inputBufferCapacity : Nat := 4096

/-- Write a run of samples into the buffer at a sample offset (a C pointer
    write); elements outside the run are kept. -/
def writeSamples (buffer : List Int) (offset : Nat) (data : List Int) : List Int :=
  buffer.take offset ++ data ++ buffer.drop (offset + data.length)

/-- ClownResampler_HighLevel_Init.  buffer0 is the arbitrary initial content
    of the uninitialised C array input_buffer[0x1000]; Init zero-fills the
    leading maximum-radius samples and points both pointers just past them. -/
def ClownResampler_HighLevel_Init (buffer0 : List Int)
    (channels input_sample_rate output_sample_rate low_pass_filter_sample_rate : Nat) :
    ClownResampler_HighLevel_State :=
  let low_level := ClownResampler_LowLevel_Init channels input_sample_rate
    output_sample_rate low_pass_filter_sample_rate
  let maximum := low_level.integer_stretched_kernel_radius
  { low_level := low_level
    input_buffer := writeSamples buffer0 0 (List.replicate (maximum * low_level.channels) 0)
    input_buffer_start := maximum * low_level.channels
    input_buffer_end := maximum * low_level.channels
    maximum_integer_stretched_kernel_radius := maximum
    leading_padding_frames_needed := maximum
    trailing_padding_frames_remaining := maximum }

/-- ClownResampler_HighLevel_Adjust: re-runs the low-level Adjust on the
    embedded state.  The two CLOWNRESAMPLER_ASSERT conditions are evaluated
    afterwards, on the already-mutated state; they are modelled separately by
    highLevelAdjustAssertions. -/
def ClownResampler_HighLevel_Adjust (resampler : ClownResampler_HighLevel_State)
    (input_sample_rate output_sample_rate low_pass_filter_sample_rate : Nat) :
    ClownResampler_HighLevel_State :=
  { resampler with
    low_level := ClownResampler_LowLevel_Adjust resampler.low_level input_sample_rate
      output_sample_rate low_pass_filter_sample_rate }

/-- The assertion conditions ClownResampler_HighLevel_Adjust checks after the
    mutation: the new radius must not exceed the maximum snapshotted at Init,
    and twice the new radius must stay below the buffer capacity in frames. -/
def highLevelAdjustAssertions (resampler : ClownResampler_HighLevel_State) : Bool :=
  decide (resampler.low_level.integer_stretched_kernel_radius ≤
      resampler.maximum_integer_stretched_kernel_radius) &&
  decide (resampler.low_level.integer_stretched_kernel_radius * 2 <
      inputBufferCapacity / resampler.low_level.channels)

/-- The leading-padding loop at the top of ClownResampler_HighLevel_Resample.
    The producer is a state-passing callback returning whole frames (its
    contract: at most the requested number).  The boolean is true when the
    producer returned zero frames, upon which the C function returns cc_true. -/
def highLevelLeadingLoop {ι : Type} (fuel : Nat)
    (resampler : ClownResampler_HighLevel_State)
    (input_callback : ι → Nat → List (List Int) × ι) (is : ι) :
    Option (ClownResampler_HighLevel_State × ι × Bool) :=
  match fuel with
  | 0 => none
  | fuel + 1 =>
    if resampler.leading_padding_frames_needed = 0 then some (resampler, is, false)
    else
      let maximum_radius_in_samples := resampler.maximum_integer_stretched_kernel_radius *
        resampler.low_level.channels
      let offset := maximum_radius_in_samples * 2 -
        resampler.leading_padding_frames_needed * resampler.low_level.channels
      let fr := input_callback is resampler.leading_padding_frames_needed
      if fr.1.length = 0 then some (resampler, fr.2, true)
      else
        highLevelLeadingLoop fuel
          { resampler with
            input_buffer := writeSamples resampler.input_buffer offset fr.1.flatten
            leading_padding_frames_needed :=
              resampler.leading_padding_frames_needed - fr.1.length }
          input_callback fr.2

/-- The body of the main do-while loop of ClownResampler_HighLevel_Resample
    after the (possible) refill: call the low-level resampler on the
    unconsumed region (offset back by the radius so it sees the padding),
    advance the start pointer by the consumed frames, and either loop or
    return cc_false. -/
def highLevelMainStep {ι σ : Type}
    (recur : ClownResampler_HighLevel_State → ι → σ →
      Option (ClownResampler_HighLevel_State × ι × σ × Bool))
    (llfuel : Nat) (r : ClownResampler_HighLevel_State) (table : Nat → Int)
    (output_callback : σ → List Int → Bool × σ) (is : ι) (os : σ) :
    Option (ClownResampler_HighLevel_State × ι × σ × Bool) :=
  let radius_in_samples := r.low_level.integer_stretched_kernel_radius * r.low_level.channels
  let input_frames := (r.input_buffer_end - r.input_buffer_start) / r.low_level.channels
  match ClownResampler_LowLevel_Resample llfuel r.low_level table
      (fun idx => r.input_buffer.getD (r.input_buffer_start - radius_in_samples + idx) 0)
      input_frames output_callback os with
  | none => none
  | some (ll1, remaining, os1, exhausted) =>
    let r2 := { r with
      low_level := ll1
      input_buffer_start := r.input_buffer_end - remaining * r.low_level.channels }
    if exhausted then recur r2 is os1
    else some (r2, is, os1, false)

/-- The main do-while loop of ClownResampler_HighLevel_Resample: refill the
    buffer when the unconsumed region is empty (moving the two deadzones to
    the front and asking the producer for up to
    (capacity - 2 * maximum radius) frames), returning cc_true if the
    producer delivers nothing, then run the low-level engine. -/
def highLevelMainLoop {ι σ : Type} (fuel llfuel : Nat)
    (resampler : ClownResampler_HighLevel_State) (table : Nat → Int)
    (input_callback : ι → Nat → List (List Int) × ι)
    (output_callback : σ → List Int → Bool × σ) (is : ι) (os : σ) :
    Option (ClownResampler_HighLevel_State × ι × σ × Bool) :=
  match fuel with
  | 0 => none
  | fuel + 1 =>
    let maximum_radius_in_samples := resampler.maximum_integer_stretched_kernel_radius *
      resampler.low_level.channels
    if resampler.input_buffer_start = resampler.input_buffer_end then
      let moved := (resampler.input_buffer.drop
        (resampler.input_buffer_end - maximum_radius_in_samples)).take
          (maximum_radius_in_samples * 2)
      let buffer1 := writeSamples resampler.input_buffer 0 moved
      let fr := input_callback is
        ((inputBufferCapacity - maximum_radius_in_samples * 2) / resampler.low_level.channels)
      let r1 := { resampler with
        input_buffer := writeSamples buffer1 (maximum_radius_in_samples * 2) fr.1.flatten
        input_buffer_start := maximum_radius_in_samples
        input_buffer_end := maximum_radius_in_samples +
          fr.1.length * resampler.low_level.channels }
      if fr.1.length = 0 then some (r1, fr.2, os, true)
      else
        highLevelMainStep
          (fun r2 is2 os2 => highLevelMainLoop fuel llfuel r2 table input_callback
            output_callback is2 os2)
          llfuel r1 table output_callback fr.2 os
    else
      highLevelMainStep
        (fun r2 is2 os2 => highLevelMainLoop fuel llfuel r2 table input_callback
          output_callback is2 os2)
        llfuel resampler table output_callback is os

/-- ClownResampler_HighLevel_Resample: the leading-padding loop, then the
    main loop. -/
def ClownResampler_HighLevel_Resample {ι σ : Type} (fuel llfuel : Nat)
    (resampler : ClownResampler_HighLevel_State) (table : Nat → Int)
    (input_callback : ι → Nat → List (List Int) × ι)
    (output_callback : σ → List Int → Bool × σ) (is : ι) (os : σ) :
    Option (ClownResampler_HighLevel_State × ι × σ × Bool) :=
  match highLevelLeadingLoop fuel resampler input_callback is with
  | none => none
  | some (r1, is1, stop) =>
    if stop then some (r1, is1, os, true)
    else highLevelMainLoop fuel llfuel r1 table input_callback output_callback is1 os

/-- ClownResampler_PaddingCallback: delivers min(requested, trailing) frames
    of silence and decrements the trailing counter by exactly that amount
    (the counter is the callback state: only this callback touches it). -/
def ClownResampler_PaddingCallback (channels : Nat) (trailing total_frames : Nat) :
    List (List Int) × Nat :=
  let frames_to_do := min total_frames trailing
  (List.replicate frames_to_do (List.replicate channels 0), trailing - frames_to_do)

/-- ClownResampler_HighLevel_ResampleEnd: runs HighLevel_Resample with the
    internal padding callback (ClownResampler_OutputCallbackWrapper merely
    forwards the output callback, so it is not modelled separately); the
    final trailing counter is written back into the state. -/
def ClownResampler_HighLevel_ResampleEnd {σ : Type} (fuel llfuel : Nat)
    (resampler : ClownResampler_HighLevel_State) (table : Nat → Int)
    (output_callback : σ → List Int → Bool × σ) (os : σ) :
    Option (ClownResampler_HighLevel_State × σ × Bool) :=
  match ClownResampler_HighLevel_Resample fuel llfuel resampler table
      (fun trailing n => ClownResampler_PaddingCallback resampler.low_level.channels trailing n)
      output_callback resampler.trailing_padding_frames_remaining os with
  | none => none
  | some (r1, trailing1, os1, result) =>
    some ({ r1 with trailing_padding_frames_remaining := trailing1 }, os1, result)

/-- Output callback that always accepts, collecting the emitted frames. -/
def collectOutputCallback : List (List Int) → List Int → Bool × List (List Int) :=
  fun acc frame => (true, acc ++ [frame])

/-- Output callback that always refuses (an already-full output buffer). -/
def refuseOutputCallback : Unit → List Int → Bool × Unit :=
  fun _ _ => (false, ())

/-- An all-zero input region / kernel table, for concrete runs. -/
def zeroFn : Nat → Int := fun _ => 0

/-- Producer that immediately reports end of stream. -/
def emptyProducer : Unit → Nat → List (List Int) × Unit :=
  fun _ _ => ([], ())

/-- Producer delivering min(3, requested) copies of the mono frame [7]. -/
def monoProducer : Unit → Nat → List (List Int) × Unit :=
  fun _ n => (List.replicate (min n 3) [7], ())

/-- A 4096-sample zero buffer standing in for the uninitialised C array. -/
def zeroBuffer : List Int := List.replicate 4096 0

/-- Low-level state reached by initialising a mono resampler with rates
    (3, 2, 0) (a zero low-pass rate, which the claim C1 does not exclude)
    and resampling one chunk of one frame: the position advances by the
    increment 1.5, leaving position_fractional = 0x8000 while the stretched
    kernel radius is 0. -/
def c1ReachedState : ClownResampler_LowLevel_State :=
  match ClownResampler_LowLevel_Resample 3 (ClownResampler_LowLevel_Init 1 3 2 0)
      zeroFn zeroFn 1 collectOutputCallback [] with
  | some (r, _, _, _) => r
  | none => ClownResampler_LowLevel_Init 1 3 2 0

/-- High-level state used by the C8 counterexample: a resampler initialised
    with rates (1, 65537, 1) - whose increment is zero - after one
    HighLevel_Resample call stopped by the output callback, leaving
    unconsumed frames in the buffer. -/
def c8StuckState : ClownResampler_HighLevel_State :=
  match ClownResampler_HighLevel_Resample 5 5
      (ClownResampler_HighLevel_Init zeroBuffer 1 1 65537 1) zeroFn
      monoProducer refuseOutputCallback () () with
  | some (r, _, _, _) => r
  | none => ClownResampler_HighLevel_Init zeroBuffer 1 1 65537 1

/-- Buffer-window invariant of the high-level state (claim C10): both
    pointers stay between the two deadzones of the fixed buffer, the
    current radius never exceeds the maximum snapshotted at Init, the
    leading-padding counter never exceeds the maximum radius, and the
    buffer keeps its 0x1000-sample capacity. -/
def highLevelBufferInvariant (r : ClownResampler_HighLevel_State) : Prop :=
  r.maximum_integer_stretched_kernel_radius * r.low_level.channels ≤ r.input_buffer_start ∧
  r.input_buffer_start ≤ r.input_buffer_end ∧
  r.input_buffer_end + r.maximum_integer_stretched_kernel_radius * r.low_level.channels ≤
    inputBufferCapacity ∧
  r.low_level.integer_stretched_kernel_radius ≤ r.maximum_integer_stretched_kernel_radius ∧
  r.leading_padding_frames_needed ≤ r.maximum_integer_stretched_kernel_radius ∧
  r.input_buffer.length = inputBufferCapacity

/-- The input function of the reference (single, unchunked) low-level run:
    radS samples of leading silence, then the flattened input stream, then
    silence (the trailing padding is silence, and reads past it do not
    occur). -/
def refFn (flat : List Int) (radS : Nat) : Nat → Int :=
  fun idx => if idx < radS then 0 else flat.getD (idx - radS) 0

/-- A producer callback conforms to the streaming contract when, relative to
    a representation function giving the frames it has yet to deliver, every
    call delivers an initial segment of them, no longer than requested,
    consumes exactly what it delivered, and delivers at least one frame
    whenever one was requested and one remains. -/
def conformingProducer {ι : Type} (inCb : ι → Nat → List (List Int) × ι)
    (rep : ι → List (List Int)) : Prop :=
  ∀ s n, (inCb s n).1 = (rep s).take (inCb s n).1.length ∧
    (inCb s n).1.length ≤ n ∧
    rep (inCb s n).2 = (rep s).drop (inCb s n).1.length ∧
    (1 ≤ n → rep s ≠ [] → (inCb s n).1 ≠ [])

/-- A producer that delivers as many frames as requested on every call (the
    one-shot delivery pattern); its state is the number of frames already
    delivered. -/
def oneShotProducer (frames : List (List Int)) : Nat → Nat → List (List Int) × Nat :=
  fun d n => ((frames.drop d).take n, d + ((frames.drop d).take n).length)

/-- A producer that delivers at most one frame per call (the maximally
    chunked delivery pattern); its state is the number of frames already
    delivered. -/
def singleFrameProducer (frames : List (List Int)) : Nat → Nat → List (List Int) × Nat :=
  fun d n => ((frames.drop d).take (min n 1), d + ((frames.drop d).take (min n 1)).length)

/-- Four mono input frames used as the concrete stream of the streaming
    equivalence witness. -/
def c7Frames : List (List Int) := [[100], [-200], [300], [-400]]

/-- Content invariant of the high-level input buffer: the samples one
    maximum radius either side of the unconsumed window agree with the
    zero-padded global stream g, where cf frames of the stream were already
    consumed past the window start. -/
def bufContentInv (r : ClownResampler_HighLevel_State) (g : Nat → Int) (cf : Nat) : Prop :=
  ∀ k, k < (r.input_buffer_end - r.input_buffer_start) +
      2 * (r.maximum_integer_stretched_kernel_radius * r.low_level.channels) →
    r.input_buffer.getD (r.input_buffer_start -
      r.maximum_integer_stretched_kernel_radius * r.low_level.channels + k) 0 =
    g (cf * r.low_level.channels + k)

/-- Configuration sanity of a low-level state: at least one channel, an
    increment of at least one sub-sample step, a normalised fractional
    position, a radius equal to the maximum snapshotted at initialisation,
    and the ceiling relationship between the stretched radius and its
    integer form that ClownResampler_LowLevel_Adjust establishes. -/
def llConfigOk (ll : ClownResampler_LowLevel_State) (maxrad : Nat) : Prop :=
  1 ≤ ll.channels ∧ 1 ≤ ll.increment ∧ ll.position_fractional < 65536 ∧
  ll.integer_stretched_kernel_radius = maxrad ∧ 1 ≤ maxrad ∧
  ll.stretched_kernel_radius ≤ toFixedFromInteger ll.integer_stretched_kernel_radius ∧
  ll.stretched_kernel_radius_delta =
    toFixedFromInteger ll.integer_stretched_kernel_radius - ll.stretched_kernel_radius

/-- Post-state package of the reference simulation of the main loop: the
    final low-level state is that of the reference run, the window is empty,
    the padding bookkeeping is untouched, and both buffer invariants hold at
    the fully consumed count cfF. -/
def mainRefPost (r : ClownResampler_HighLevel_State) (g : Nat → Int) (cfF : Nat)
    (llR : ClownResampler_LowLevel_State) (r' : ClownResampler_HighLevel_State) : Prop :=
  r'.low_level = llR ∧
  r'.input_buffer_start = r'.input_buffer_end ∧
  r'.maximum_integer_stretched_kernel_radius = r.maximum_integer_stretched_kernel_radius ∧
  r'.leading_padding_frames_needed = r.leading_padding_frames_needed ∧
  r'.trailing_padding_frames_remaining = r.trailing_padding_frames_remaining ∧
  highLevelBufferInvariant r' ∧
  bufContentInv r' g cfF

/-! Arithmetic facts about ClownResampler_CalculateRatio. -/

lemma wrap32_le (x : Nat) : wrap32 x ≤ x := Nat.mod_le _ _

lemma wrap32_eq_of_lt {x : Nat} (h : x < 2 ^ 32) : wrap32 x = x := Nat.mod_eq_of_lt h

lemma calculateRatio_zero {a b : Nat} (h : a = 0 ∨ b = 0) :
    ClownResampler_CalculateRatio a b = 0 := by
  simp [ClownResampler_CalculateRatio, h]

/-- Closed form of the long division for 32-bit inputs: the bitwise OR is an
    addition (the operands occupy disjoint bit ranges) and the three partial
    wraps fuse into a single one. -/
lemma calculateRatio_closed (a b : Nat) (ha : a ≠ 0) (hb : b ≠ 0) (ha32 : a < 2 ^ 32) :
    ClownResampler_CalculateRatio a b =
      wrap32 (a / 65536 / b * 131072 +
        (a % 65536 + a / 65536 % b * 65536) / b * 65536 +
        wrap32 ((a % 65536 + a / 65536 % b * 65536) % b * 65536) / b) := by
  have hu : a / 65536 < 65536 := Nat.div_lt_of_lt_mul (by omega)
  have hub : a / 65536 % b * 65536 < 2 ^ 32 := by
    have h1 : a / 65536 % b ≤ a / 65536 := Nat.mod_le _ _
    have : a / 65536 % b < 65536 := Nat.lt_of_le_of_lt h1 hu
    omega
  have hm : a % 65536 < 65536 := Nat.mod_lt _ (by omega)
  have hlor : a % 65536 ||| wrap32 (a / 65536 % b * 65536) =
      a % 65536 + a / 65536 % b * 65536 := by
    rw [wrap32_eq_of_lt hub, Nat.lor_comm]
    have h2 : a / 65536 % b * 65536 = 2 ^ 16 * (a / 65536 % b) := by ring
    rw [h2, ← Nat.mul_add_lt_is_or (by omega : a % 65536 < 2 ^ 16)]
    omega
  simp only [ClownResampler_CalculateRatio, CLOWNRESAMPLER_FIXED_POINT_FRACTIONAL_SIZE,
    if_neg (by tauto : ¬(a = 0 ∨ b = 0))]
  rw [hlor]
  simp only [wrap32]
  omega

lemma calculateRatio_le (a b : Nat) (hb : 0 < b) (ha32 : a < 2 ^ 32) :
    ClownResampler_CalculateRatio a b ≤ a * 65536 / b := by
  rcases Nat.eq_zero_or_pos a with rfl | ha
  · simp [calculateRatio_zero (Or.inl rfl)]
  rw [calculateRatio_closed a b (by omega) (by omega) ha32]
  set u := a / 65536 with hu
  set m := a % 65536 with hm
  set mid := m + u % b * 65536 with hmid
  have key : a * 65536 = b * (u / b * 4294967296 + mid / b * 65536) + mid % b * 65536 := by
    have h1 : b * (u / b) + u % b = u := Nat.div_add_mod u b
    have h2 : b * (mid / b) + mid % b = mid := Nat.div_add_mod mid b
    have h3 : 65536 * u + m = a := Nat.div_add_mod a 65536
    calc a * 65536 = (65536 * u + m) * 65536 := by rw [h3]
      _ = (65536 * (b * (u / b) + u % b) + m) * 65536 := by rw [h1]
      _ = b * (u / b * 4294967296) + (m + u % b * 65536) * 65536 := by ring
      _ = b * (u / b * 4294967296) + (b * (mid / b) + mid % b) * 65536 := by
          rw [← hmid, h2]
      _ = b * (u / b * 4294967296 + mid / b * 65536) + mid % b * 65536 := by ring
  have hdiv : a * 65536 / b = u / b * 4294967296 + mid / b * 65536 + mid % b * 65536 / b := by
    rw [key, Nat.mul_add_div hb]
  calc wrap32 (u / b * 131072 + mid / b * 65536 + wrap32 (mid % b * 65536) / b)
      ≤ u / b * 131072 + mid / b * 65536 + wrap32 (mid % b * 65536) / b := wrap32_le _
    _ ≤ u / b * 4294967296 + mid / b * 65536 + mid % b * 65536 / b := by
        have hq0 : wrap32 (mid % b * 65536) / b ≤ mid % b * 65536 / b :=
          Nat.div_le_div_right (wrap32_le _)
        have hq2 : u / b * 131072 ≤ u / b * 4294967296 :=
          Nat.mul_le_mul_left _ (by omega)
        omega
    _ = a * 65536 / b := hdiv.symm

lemma calculateRatio_exact (a b : Nat) (hb : 0 < b) (ha32 : a < 2 ^ 32)
    (hfit : a < b * 65536) (hrem : a % b < 65536) :
    ClownResampler_CalculateRatio a b = a * 65536 / b := by
  rcases Nat.eq_zero_or_pos a with rfl | ha
  · simp [calculateRatio_zero (Or.inl rfl)]
  rw [calculateRatio_closed a b (by omega) (by omega) ha32]
  have hub : a / 65536 < b := Nat.div_lt_of_lt_mul (by omega)
  have e1 : a / 65536 / b = 0 := Nat.div_eq_of_lt hub
  have e2 : a / 65536 % b = a / 65536 := Nat.mod_eq_of_lt hub
  have e3 : a % 65536 + a / 65536 % b * 65536 = a := by
    rw [e2]
    have := Nat.div_add_mod a 65536
    omega
  rw [e1, e3]
  have hq1 : a / b < 65536 := Nat.div_lt_of_lt_mul (by omega)
  have hq0lt : a % b * 65536 < 2 ^ 32 := by omega
  rw [wrap32_eq_of_lt hq0lt]
  have hq0 : a % b * 65536 / b < 65536 := by
    apply Nat.div_lt_of_lt_mul
    have : a % b < b := Nat.mod_lt _ hb
    nlinarith
  have key : a * 65536 = b * (a / b * 65536) + a % b * 65536 := by
    have h1 : b * (a / b) + a % b = a := Nat.div_add_mod a b
    calc a * 65536 = (b * (a / b) + a % b) * 65536 := by rw [h1]
      _ = b * (a / b * 65536) + a % b * 65536 := by ring
  have hdiv : a * 65536 / b = a / b * 65536 + a % b * 65536 / b := by
    rw [key, Nat.mul_add_div hb]
  have houter : 0 * 131072 + a / b * 65536 + a % b * 65536 / b < 2 ^ 32 := by omega
  rw [wrap32_eq_of_lt houter, hdiv]
  omega

lemma calculateRatio_ge (a b : Nat) (hb : 0 < b) (hba : b ≤ a) (ha32 : a < 2 ^ 32)
    (hfit : a < b * 65536) : 65536 ≤ ClownResampler_CalculateRatio a b := by
  rw [calculateRatio_closed a b (by omega) (by omega) ha32]
  have hub : a / 65536 < b := Nat.div_lt_of_lt_mul (by omega)
  have e1 : a / 65536 / b = 0 := Nat.div_eq_of_lt hub
  have e2 : a / 65536 % b = a / 65536 := Nat.mod_eq_of_lt hub
  have e3 : a % 65536 + a / 65536 % b * 65536 = a := by
    rw [e2]
    have := Nat.div_add_mod a 65536
    omega
  rw [e1, e3]
  have hq1lo : 1 ≤ a / b := (Nat.one_le_div_iff hb).mpr hba
  have hq1 : a / b < 65536 := Nat.div_lt_of_lt_mul (by omega)
  have hq0 : wrap32 (a % b * 65536) / b < 65536 := by
    apply Nat.lt_of_le_of_lt (Nat.div_le_div_right (wrap32_le _))
    apply Nat.div_lt_of_lt_mul
    have : a % b < b := Nat.mod_lt _ hb
    nlinarith
  have houter : 0 * 131072 + a / b * 65536 + wrap32 (a % b * 65536) / b < 2 ^ 32 := by omega
  rw [wrap32_eq_of_lt houter]
  have h65 : 65536 ≤ a / b * 65536 := by
    conv_lhs => rw [← Nat.one_mul 65536]
    exact Nat.mul_le_mul_right _ hq1lo
  rw [Nat.zero_mul, Nat.zero_add]
  exact le_trans h65 (Nat.le_add_right _ _)

/-- Product bound used for kernel-index safety: the two floor ratios of a pair
    multiply to at most 2^32. -/
lemma div_mul_div_le_two_pow (i c : Nat) (hi : 0 < i) (hc : 0 < c) :
    i * 65536 / c * (c * 65536 / i) ≤ 2 ^ 32 := by
  have h1 : i * 65536 / c * c ≤ i * 65536 := Nat.div_mul_le_self _ _
  have h2 : c * 65536 / i * i ≤ c * 65536 := Nat.div_mul_le_self _ _
  have h3 : i * 65536 / c * (c * 65536 / i) * (c * i) ≤ 2 ^ 32 * (c * i) := by
    calc i * 65536 / c * (c * 65536 / i) * (c * i)
        = (i * 65536 / c * c) * (c * 65536 / i * i) := by ring
      _ ≤ (i * 65536) * (c * 65536) := Nat.mul_le_mul h1 h2
      _ = 2 ^ 32 * (c * i) := by ring
  exact Nat.le_of_mul_le_mul_right h3 (Nat.mul_pos hc hi)

/-! Claim C2: behaviour of ClownResampler_CalculateRatio. -/

/-- C2 counterexample.  The claim states that for any nonzero 32-bit inputs
    the function returns the exact 16.16 quotient a * 2^16 / b with all
    intermediates fitting the 32-bit type.  At a = 70000, b = 96000 the
    partial remainder is 70000 >= 2^16, so the intermediate
    remainder * 2^16 wraps past 2^32 and the result (3047) falls far short
    of the true quotient (47786). -/
theorem C2_counterexample :
    ClownResampler_CalculateRatio 70000 96000 ≠ 70000 * 65536 / 96000 := by decide

/-- C2 (amended): if either operand is zero the result is zero; otherwise,
    provided the quotient fits the 32-bit type (a < b * 2^16) and the final
    partial remainder a mod b is below 2^16 (so that no intermediate of the
    three-chunk long division wraps), the result is the exact 16.16
    fixed-point floor quotient a * 2^16 / b. -/
theorem C2_calculateRatio_spec (a b : Nat) (ha32 : a < 2 ^ 32) (hb32 : b < 2 ^ 32) :
    ((a = 0 ∨ b = 0) → ClownResampler_CalculateRatio a b = 0) ∧
    (0 < b → a < b * 65536 → a % b < 65536 →
      ClownResampler_CalculateRatio a b = a * 65536 / b) := by
  constructor
  · exact calculateRatio_zero
  · intro hb hfit hrem
    exact calculateRatio_exact a b hb ha32 hfit hrem

/-- C2 witness: the amended theorem applied at the concrete input (3, 2). -/
theorem C2_witness : ClownResampler_CalculateRatio 3 2 = 3 * 65536 / 2 :=
  (C2_calculateRatio_spec 3 2 (by decide) (by decide)).2 (by decide) (by decide) (by decide)

/-! Claim C5: postcondition of ClownResampler_LowLevel_Adjust. -/

/-- C5 counterexample.  The claim asserts (for all rates) that the kernel
    scale is at least 1, i.e. the stretched kernel radius is at least
    R * 1.0 in 16.16.  With input rate 0 (a degenerate rate the claim does
    not exclude) the scale computed by ClownResampler_CalculateRatio is 0 and
    the stretched radius collapses to 0. -/
theorem C5_counterexample :
    (ClownResampler_LowLevel_Adjust (ClownResampler_LowLevel_Init 1 1 1 1) 0 1 1).stretched_kernel_radius <
      CLOWNRESAMPLER_KERNEL_RADIUS * 65536 := by decide

/-- C5 (amended): the effective cutoff is min of the three rates; increment,
    stretched radius, its integer ceiling, the delta (always below 1.0 in
    16.16), the kernel step and the 17.15 normaliser are as claimed; and the
    kernel scale is at least 1 provided the rates are nonzero and the
    input-to-cutoff ratio does not overflow the 16.16 type. -/
theorem C5_adjust_postcondition (r : ClownResampler_LowLevel_State) (i o l : Nat)
    (hi32 : i < 2 ^ 32) :
    (ClownResampler_LowLevel_Adjust r i o l).increment = ClownResampler_CalculateRatio i o ∧
    (ClownResampler_LowLevel_Adjust r i o l).stretched_kernel_radius =
      CLOWNRESAMPLER_KERNEL_RADIUS * ClownResampler_CalculateRatio i (min i (min o l)) ∧
    (ClownResampler_LowLevel_Adjust r i o l).integer_stretched_kernel_radius =
      toIntegerFromFixedCeiling (ClownResampler_LowLevel_Adjust r i o l).stretched_kernel_radius ∧
    (ClownResampler_LowLevel_Adjust r i o l).stretched_kernel_radius_delta =
      toFixedFromInteger (ClownResampler_LowLevel_Adjust r i o l).integer_stretched_kernel_radius -
        (ClownResampler_LowLevel_Adjust r i o l).stretched_kernel_radius ∧
    (ClownResampler_LowLevel_Adjust r i o l).stretched_kernel_radius_delta <
      toFixedFromInteger 1 ∧
    (ClownResampler_LowLevel_Adjust r i o l).kernel_step_size =
      fixedPointMultiply CLOWNRESAMPLER_KERNEL_RESOLUTION
        (ClownResampler_CalculateRatio (min i (min o l)) i) ∧
    (ClownResampler_LowLevel_Adjust r i o l).sample_normaliser =
      Int.ofNat (ClownResampler_CalculateRatio (min i (min o l)) i / 2) ∧
    (0 < i → 0 < o → 0 < l → i < min i (min o l) * 65536 →
      65536 ≤ ClownResampler_CalculateRatio i (min i (min o l))) := by
  refine ⟨rfl, rfl, rfl, rfl, ?_, rfl, ?_, ?_⟩
  · show toFixedFromInteger (toIntegerFromFixedCeiling (CLOWNRESAMPLER_KERNEL_RADIUS *
      ClownResampler_CalculateRatio i (min i (min o l)))) -
        CLOWNRESAMPLER_KERNEL_RADIUS * ClownResampler_CalculateRatio i (min i (min o l)) <
      toFixedFromInteger 1
    generalize CLOWNRESAMPLER_KERNEL_RADIUS * ClownResampler_CalculateRatio i (min i (min o l)) = x
    simp only [toFixedFromInteger, toIntegerFromFixedCeiling,
      CLOWNRESAMPLER_FIXED_POINT_FRACTIONAL_SIZE]
    omega
  · show Int.ofNat (ClownResampler_CalculateRatio (min i (min o l)) i >>> (16 - 15)) =
      Int.ofNat (ClownResampler_CalculateRatio (min i (min o l)) i / 2)
    rw [Nat.shiftRight_eq_div_pow]
  · intro hi ho hl hfit
    have hc : 0 < min i (min o l) := by omega
    exact calculateRatio_ge i (min i (min o l)) hc (Nat.min_le_left _ _) hi32 hfit

/-- C5 witness: the amended theorem applied at rates (2, 3, 4) on an
    initialised state; in particular the kernel scale is at least 1 there. -/
theorem C5_witness :
    65536 ≤ ClownResampler_CalculateRatio 2 (min 2 (min 3 4)) :=
  (C5_adjust_postcondition (ClownResampler_LowLevel_Init 1 1 1 1) 2 3 4
    (by decide)).2.2.2.2.2.2.2 (by decide) (by decide) (by decide) (by decide)

/-! Claim C1: index safety of the per-frame convolution. -/

/-- Core index-safety bounds, in raw arithmetic.  scale and inv are the two
    16.16 ratios computed by Adjust (input/cutoff and cutoff/input); the
    remaining quantities are pinned to their defining formulas by equations
    so that the lemma can be instantiated with the state's fields. -/
lemma index_safety_core (scale inv pf pi T ch skr rad delta kss mr xr : Nat)
    (hskr : skr = 3 * scale) (hrad : rad = (skr + 65535) / 65536)
    (hdelta : delta = rad * 65536 - skr) (hkss : kss = 1024 * inv / 65536)
    (hmr : mr = (pf + delta + 65535) / 65536) (hxr : xr = (pf + skr) / 65536)
    (hscale : 65536 ≤ scale) (hprod : scale * inv ≤ 2 ^ 32)
    (hpf : pf < 65536) (hpi : pi < T) (hch : 1 ≤ ch) :
    mr ≤ rad ∧ xr ≤ rad ∧ pf ≤ mr * 65536 ∧
    (∀ j, j < rad + xr - mr → kss * (mr * 65536 - pf) / 65536 + j * kss < 6144) ∧
    (∀ j c, j < rad + xr - mr → c < ch →
      (pi + mr) * ch + j * ch + c < (T + 2 * rad) * ch) := by
  have hmrrad : mr ≤ rad := by omega
  have hxrrad : xr ≤ rad := by omega
  have hpfmr : pf ≤ mr * 65536 := by omega
  refine ⟨hmrrad, hxrrad, hpfmr, ?_, ?_⟩
  · intro j hj
    have e1 : kss * (mr * 65536 - pf) / 65536 + j * kss =
        kss * ((mr * 65536 - pf) + j * 65536) / 65536 := by
      have e2 : kss * ((mr * 65536 - pf) + j * 65536) =
          kss * (mr * 65536 - pf) + (j * kss) * 65536 := by ring
      rw [e2, Nat.add_mul_div_right _ _ (by norm_num : (0:Nat) < 65536)]
    rw [e1]
    rcases Nat.eq_zero_or_pos kss with hk0 | hk1
    · rw [hk0]
      simp
    · have hAj : (mr * 65536 - pf) + j * 65536 + 1 ≤ 2 * skr := by omega
      have hksscale : kss * scale ≤ 67108864 := by
        have h1 : kss * 65536 ≤ 1024 * inv := by
          rw [hkss]
          exact Nat.div_mul_le_self _ _
        have h3 : kss * scale * 65536 ≤ 67108864 * 65536 := by
          calc kss * scale * 65536 = kss * 65536 * scale := by ring
            _ ≤ 1024 * inv * scale := Nat.mul_le_mul_right _ h1
            _ = 1024 * (scale * inv) := by ring
            _ ≤ 1024 * 2 ^ 32 := Nat.mul_le_mul_left _ hprod
            _ = 67108864 * 65536 := by norm_num
        exact Nat.le_of_mul_le_mul_right h3 (by norm_num)
      have h4 : kss * ((mr * 65536 - pf) + j * 65536) + kss ≤ kss * (2 * skr) := by
        have h5 := Nat.mul_le_mul_left kss hAj
        calc kss * ((mr * 65536 - pf) + j * 65536) + kss
            = kss * ((mr * 65536 - pf) + j * 65536 + 1) := by ring
          _ ≤ kss * (2 * skr) := h5
      have h6 : kss * (2 * skr) = 6 * (kss * scale) := by
        rw [hskr]
        ring
      have hfin : kss * ((mr * 65536 - pf) + j * 65536) ≤ 402653183 := by
        linarith
      calc kss * ((mr * 65536 - pf) + j * 65536) / 65536 ≤ 402653183 / 65536 :=
            Nat.div_le_div_right hfin
        _ < 6144 := by norm_num
  · intro j c hj hc
    have hsum : pi + mr + j + 1 ≤ T + 2 * rad := by omega
    calc (pi + mr) * ch + j * ch + c < (pi + mr) * ch + j * ch + ch := by omega
      _ = (pi + mr + j + 1) * ch := by ring
      _ ≤ (T + 2 * rad) * ch := Nat.mul_le_mul_right _ hsum

/-- C1 counterexample.  The claim admits arbitrary rates; with rates
    (3, 2, 0) (zero low-pass rate) the stretched radius is 0 while the
    increment is 1.5, so after one output frame the reachable state has
    position_fractional = 0x8000 and the next ClownResampler_ComputeFrame
    computes min_relative = 1 > 0 = integer_stretched_kernel_radius: the
    in-code assertion on min_relative fires.  The first conjunct certifies
    that the run producing c1ReachedState indeed terminates. -/
theorem C1_counterexample :
    (ClownResampler_LowLevel_Resample 3 (ClownResampler_LowLevel_Init 1 3 2 0)
      zeroFn zeroFn 1 collectOutputCallback []).isSome = true ∧
    c1ReachedState.position_fractional = 32768 ∧
    ¬ (minRelative c1ReachedState c1ReachedState.position_fractional ≤
        c1ReachedState.integer_stretched_kernel_radius) := by decide

/-- C1 (amended): for a low-level resampler initialised with channels in
    [1, 16] and nonzero rates whose input rate stays below 2^16 times the
    effective cutoff, at every reachable position (position_fractional below
    1.0, position_integer below the remaining frame count) the two assertion
    bounds min_relative and max_relative hold, the kernel_start subtraction
    does not underflow, every kernel-table index stays below 2*R*N, and
    every sample index stays below (total_input_frames + 2*radius)*channels. -/
theorem C1_computeFrame_index_safety (channels i o l pi pf T : Nat)
    (r : ClownResampler_LowLevel_State)
    (hr : r = { ClownResampler_LowLevel_Init channels i o l with
                position_integer := pi, position_fractional := pf })
    (hch1 : 1 ≤ channels) (hch16 : channels ≤ CLOWNRESAMPLER_MAXIMUM_CHANNELS)
    (hi : 0 < i) (ho : 0 < o) (hl : 0 < l) (hi32 : i < 2 ^ 32)
    (hfit : i < min i (min o l) * 65536)
    (hpf : pf < 65536) (hpi : pi < T) :
    minRelative r pf ≤ r.integer_stretched_kernel_radius ∧
    maxRelative r pf ≤ r.integer_stretched_kernel_radius ∧
    pf ≤ toFixedFromInteger (minRelative r pf) ∧
    (∀ j, j < convolutionSteps r pf →
      kernelStart r pf + j * r.kernel_step_size < lanczosKernelTableSize) ∧
    (∀ j c, j < convolutionSteps r pf → c < channels →
      convolutionMin r pi pf + j * channels + c <
        (T + 2 * r.integer_stretched_kernel_radius) * channels) := by
  subst hr
  have hc : 0 < min i (min o l) := by omega
  have hcle : min i (min o l) ≤ i := Nat.min_le_left _ _
  have hc32 : min i (min o l) < 2 ^ 32 := lt_of_le_of_lt hcle hi32
  have hscale := calculateRatio_ge i (min i (min o l)) hc hcle hi32 hfit
  have hs_le := calculateRatio_le i (min i (min o l)) hc hi32
  have hinv_le := calculateRatio_le (min i (min o l)) i hi hc32
  have hprod : ClownResampler_CalculateRatio i (min i (min o l)) *
      ClownResampler_CalculateRatio (min i (min o l)) i ≤ 2 ^ 32 :=
    le_trans (Nat.mul_le_mul hs_le hinv_le) (div_mul_div_le_two_pow i (min i (min o l)) hi hc)
  exact index_safety_core (ClownResampler_CalculateRatio i (min i (min o l)))
    (ClownResampler_CalculateRatio (min i (min o l)) i) pf pi T channels
    _ _ _ _ _ _ rfl rfl rfl rfl rfl rfl hscale hprod hpf hpi hch1

/-- C1 witness: the amended safety theorem applied at channels = 1, rates
    (2, 3, 4), position (0, 0) and one remaining input frame. -/
theorem C1_witness :
    minRelative { ClownResampler_LowLevel_Init 1 2 3 4 with
        position_integer := 0, position_fractional := 0 } 0 ≤
      ClownResampler_LowLevel_State.integer_stretched_kernel_radius
        { ClownResampler_LowLevel_Init 1 2 3 4 with
          position_integer := 0, position_fractional := 0 } :=
  (C1_computeFrame_index_safety 1 2 3 4 0 0 1 _ rfl (by decide) (by decide) (by decide)
    (by decide) (by decide) (by decide) (by decide) (by decide) (by decide)).1

/-! Claims C3 and C4: termination postconditions of
    ClownResampler_LowLevel_Resample. -/

/-- C3 counterexample.  The claim says position_integer is reset to zero
    whenever the output callback stops the loop.  With rates (3, 1, 1) the
    increment is 3.0; on a two-frame input the first output frame advances
    position_integer to 3, overshooting the end.  When the callback then
    returns false the code subtracts only min(3, 2) = 2, so the function
    returns false with *total_input_frames = 0 but position_integer = 1. -/
theorem C3_counterexample :
    (ClownResampler_LowLevel_Resample 2 (ClownResampler_LowLevel_Init 1 3 1 1)
        zeroFn zeroFn 2 refuseOutputCallback ()).map
      (fun res => (res.1.position_integer, res.2.1, res.2.2.2)) =
      some (1, 0, false) := by decide

/-- C3 (amended): when ClownResampler_LowLevel_Resample returns false
    (output-terminated), there is a final position p (the position after the
    last emitted frame) such that *total_input_frames has been decreased by
    the clamped consumption min(p, remaining) and position_integer equals
    p - min(p, remaining): zero unless the position overshot the remaining
    input, in which case the overshoot is retained as carry. -/
theorem C3_output_terminated {σ : Type} (fuel : Nat)
    (r : ClownResampler_LowLevel_State) (table : Nat → Int)
    (input_buffer : Nat → Int) (T : Nat) (cb : σ → List Int → Bool × σ) (s : σ)
    (r' : ClownResampler_LowLevel_State) (T' : Nat) (s' : σ)
    (h : ClownResampler_LowLevel_Resample fuel r table input_buffer T cb s =
      some (r', T', s', false)) :
    ∃ p, T' = T - min p T ∧ r'.position_integer = p - min p T := by
  induction fuel generalizing r s with
  | zero => simp [ClownResampler_LowLevel_Resample] at h
  | succ fuel ih =>
    rw [ClownResampler_LowLevel_Resample] at h
    by_cases hT : T ≤ r.position_integer
    · rw [if_pos hT] at h
      simp at h
    · rw [if_neg hT] at h
      simp only at h
      rcases hcb : cb s (ClownResampler_ComputeFrame r table input_buffer
          r.position_integer r.position_fractional) with ⟨keep, s1⟩
      rw [hcb] at h
      cases keep
      · simp only [Option.some.injEq, Prod.mk.injEq] at h
        exact ⟨_, h.2.1.symm, by rw [← h.1]⟩
      · exact ih _ _ h

/-- C3 witness: the amended postcondition at the counterexample run, where
    the returned *total_input_frames is 0 and position_integer is 1
    (witnessed by the overshot position p = 3). -/
theorem C3_witness : ∃ p, (0 : Nat) = 2 - min p 2 ∧ (1 : Nat) = p - min p 2 :=
  C3_output_terminated 2 (ClownResampler_LowLevel_Init 1 3 1 1) zeroFn zeroFn 2
    refuseOutputCallback ()
    { channels := 1, position_integer := 1, position_fractional := 0, increment := 196608,
      sample_normaliser := 10922, stretched_kernel_radius := 589824,
      integer_stretched_kernel_radius := 9, stretched_kernel_radius_delta := 0,
      kernel_step_size := 341 }
    0 () (by decide)

/-- C4 (confirmed): whenever position_integer is at least *total_input_frames
    at the top of the loop (the theorem covers every loop-top state r), the
    function subtracts *total_input_frames from position_integer keeping the
    residual carry, zeroes *total_input_frames, and returns true without
    invoking the output callback (the callback state s is returned intact,
    so no output frame is produced). -/
theorem C4_input_exhaustion {σ : Type} (fuel : Nat)
    (r : ClownResampler_LowLevel_State) (table : Nat → Int)
    (input_buffer : Nat → Int) (T : Nat) (cb : σ → List Int → Bool × σ) (s : σ)
    (h : T ≤ r.position_integer) :
    ClownResampler_LowLevel_Resample (fuel + 1) r table input_buffer T cb s =
      some ({ r with position_integer := r.position_integer - T }, 0, s, true) := by
  rw [ClownResampler_LowLevel_Resample, if_pos h]

/-- C4 witness: with 0 input frames the function returns true immediately and
    produces 0 output frames (the collector stays empty). -/
theorem C4_witness :
    ClownResampler_LowLevel_Resample 1 (ClownResampler_LowLevel_Init 1 2 3 4)
      zeroFn zeroFn 0 collectOutputCallback [] =
      some (ClownResampler_LowLevel_Init 1 2 3 4, 0, [], true) :=
  C4_input_exhaustion 0 (ClownResampler_LowLevel_Init 1 2 3 4) zeroFn zeroFn 0
    collectOutputCallback [] (Nat.zero_le _)

/-! Facts about the buffers and the low-level resampler used by the
    high-level claims. -/

lemma writeSamples_length (buffer : List Int) (offset : Nat) (data : List Int)
    (h : offset + data.length ≤ buffer.length) :
    (writeSamples buffer offset data).length = buffer.length := by
  simp only [writeSamples, List.length_append, List.length_take, List.length_drop]
  omega

lemma flatten_length_of_forall (frames : List (List Int)) (ch : Nat)
    (h : ∀ f ∈ frames, f.length = ch) : frames.flatten.length = frames.length * ch := by
  induction frames with
  | nil => simp
  | cons f fs ih =>
    simp only [List.flatten_cons, List.length_append, List.length_cons]
    rw [h f (by simp), ih (fun g hg => h g (by simp [hg]))]
    ring

/-- ClownResampler_LowLevel_Resample only mutates the two position fields:
    every configuration field survives any terminating run. -/
lemma lowLevel_config_preserved {σ : Type} (fuel : Nat)
    (r : ClownResampler_LowLevel_State) (table : Nat → Int)
    (input_buffer : Nat → Int) (T : Nat) (cb : σ → List Int → Bool × σ) (s : σ)
    (r' : ClownResampler_LowLevel_State) (T' : Nat) (s' : σ) (b : Bool)
    (h : ClownResampler_LowLevel_Resample fuel r table input_buffer T cb s =
      some (r', T', s', b)) :
    r'.channels = r.channels ∧ r'.increment = r.increment ∧
    r'.sample_normaliser = r.sample_normaliser ∧
    r'.stretched_kernel_radius = r.stretched_kernel_radius ∧
    r'.integer_stretched_kernel_radius = r.integer_stretched_kernel_radius ∧
    r'.stretched_kernel_radius_delta = r.stretched_kernel_radius_delta ∧
    r'.kernel_step_size = r.kernel_step_size := by
  induction fuel generalizing r s with
  | zero => simp [ClownResampler_LowLevel_Resample] at h
  | succ fuel ih =>
    rw [ClownResampler_LowLevel_Resample] at h
    by_cases hT : T ≤ r.position_integer
    · rw [if_pos hT] at h
      simp only [Option.some.injEq, Prod.mk.injEq] at h
      rw [← h.1]
      exact ⟨rfl, rfl, rfl, rfl, rfl, rfl, rfl⟩
    · rw [if_neg hT] at h
      simp only at h
      rcases hcb : cb s (ClownResampler_ComputeFrame r table input_buffer
          r.position_integer r.position_fractional) with ⟨keep, s1⟩
      rw [hcb] at h
      cases keep
      · simp only [Option.some.injEq, Prod.mk.injEq] at h
        rw [← h.1]
        exact ⟨rfl, rfl, rfl, rfl, rfl, rfl, rfl⟩
      · have hres := ih _ _ h
        exact hres

/-- The value left in *total_input_frames never exceeds the value passed in. -/
lemma lowLevel_remaining_le {σ : Type} (fuel : Nat)
    (r : ClownResampler_LowLevel_State) (table : Nat → Int)
    (input_buffer : Nat → Int) (T : Nat) (cb : σ → List Int → Bool × σ) (s : σ)
    (r' : ClownResampler_LowLevel_State) (T' : Nat) (s' : σ) (b : Bool)
    (h : ClownResampler_LowLevel_Resample fuel r table input_buffer T cb s =
      some (r', T', s', b)) : T' ≤ T := by
  induction fuel generalizing r s with
  | zero => simp [ClownResampler_LowLevel_Resample] at h
  | succ fuel ih =>
    rw [ClownResampler_LowLevel_Resample] at h
    by_cases hT : T ≤ r.position_integer
    · rw [if_pos hT] at h
      simp only [Option.some.injEq, Prod.mk.injEq] at h
      omega
    · rw [if_neg hT] at h
      simp only at h
      rcases hcb : cb s (ClownResampler_ComputeFrame r table input_buffer
          r.position_integer r.position_fractional) with ⟨keep, s1⟩
      rw [hcb] at h
      cases keep
      · simp only [Option.some.injEq, Prod.mk.injEq] at h
        omega
      · exact ih _ _ h

/-- The low-level call made by the main loop preserves the buffer-window
    invariant, for any continuation that preserves it. -/
lemma mainStep_invariant {ι σ : Type}
    (recur : ClownResampler_HighLevel_State → ι → σ →
      Option (ClownResampler_HighLevel_State × ι × σ × Bool))
    (llfuel : Nat) (r : ClownResampler_HighLevel_State) (table : Nat → Int)
    (outCb : σ → List Int → Bool × σ) (is : ι) (os : σ)
    (res : ClownResampler_HighLevel_State × ι × σ × Bool)
    (hrec : ∀ r2 is2 os2 res2, highLevelBufferInvariant r2 →
      r2.low_level.channels = r.low_level.channels →
      recur r2 is2 os2 = some res2 → highLevelBufferInvariant res2.1)
    (hinv : highLevelBufferInvariant r)
    (h : highLevelMainStep recur llfuel r table outCb is os = some res) :
    highLevelBufferInvariant res.1 := by
  simp only [highLevelMainStep] at h
  rcases hll : ClownResampler_LowLevel_Resample llfuel r.low_level table
      (fun idx => r.input_buffer.getD (r.input_buffer_start -
        r.low_level.integer_stretched_kernel_radius * r.low_level.channels + idx) 0)
      ((r.input_buffer_end - r.input_buffer_start) / r.low_level.channels) outCb os with
    _ | ⟨ll1, remaining, os1, exhausted⟩
  · rw [hll] at h
    simp at h
  · rw [hll] at h
    have hcfg := lowLevel_config_preserved _ _ _ _ _ _ _ _ _ _ _ hll
    have hrem := lowLevel_remaining_le _ _ _ _ _ _ _ _ _ _ _ hll
    have hinv2 : highLevelBufferInvariant
        { r with
          low_level := ll1
          input_buffer_start := r.input_buffer_end - remaining * r.low_level.channels } := by
      obtain ⟨h1, h2, h3, h4, h5, h6⟩ := hinv
      have hmul : remaining * r.low_level.channels ≤
          (r.input_buffer_end - r.input_buffer_start) / r.low_level.channels *
            r.low_level.channels :=
        Nat.mul_le_mul_right _ hrem
      have hdm : (r.input_buffer_end - r.input_buffer_start) / r.low_level.channels *
          r.low_level.channels ≤ r.input_buffer_end - r.input_buffer_start :=
        Nat.div_mul_le_self _ _
      refine ⟨?_, ?_, ?_, ?_, ?_, ?_⟩ <;>
        dsimp only <;> (try simp only [hcfg.1, hcfg.2.2.2.2.1]) <;> omega
    cases exhausted
    · simp only [Bool.false_eq_true, if_false] at h
      rcases h with ⟨rfl⟩
      exact hinv2
    · simp only [if_true] at h
      exact hrec _ _ _ _ hinv2 hcfg.1 h

/-- The leading-padding loop preserves the buffer-window invariant and leaves
    the low-level state and both pointers untouched. -/
lemma leadingLoop_invariant {ι : Type} (fuel ch : Nat)
    (r : ClownResampler_HighLevel_State)
    (inCb : ι → Nat → List (List Int) × ι) (is : ι)
    (r' : ClownResampler_HighLevel_State) (is' : ι) (stop : Bool)
    (hlen : ∀ st n, (inCb st n).1.length ≤ n)
    (hshape : ∀ st n f, f ∈ (inCb st n).1 → f.length = ch)
    (hch : r.low_level.channels = ch)
    (hinv : highLevelBufferInvariant r)
    (h : highLevelLeadingLoop fuel r inCb is = some (r', is', stop)) :
    highLevelBufferInvariant r' ∧ r'.low_level = r.low_level ∧
    r'.input_buffer_start = r.input_buffer_start ∧
    r'.input_buffer_end = r.input_buffer_end ∧
    r'.maximum_integer_stretched_kernel_radius =
      r.maximum_integer_stretched_kernel_radius := by
  induction fuel generalizing r is with
  | zero => simp [highLevelLeadingLoop] at h
  | succ fuel ih =>
    rw [highLevelLeadingLoop] at h
    by_cases h0 : r.leading_padding_frames_needed = 0
    · rw [if_pos h0] at h
      simp only [Option.some.injEq, Prod.mk.injEq] at h
      obtain ⟨rfl, rfl, rfl⟩ := h
      exact ⟨hinv, rfl, rfl, rfl, rfl⟩
    · rw [if_neg h0] at h
      simp only at h
      by_cases hz : (inCb is r.leading_padding_frames_needed).1.length = 0
      · rw [if_pos hz] at h
        simp only [Option.some.injEq, Prod.mk.injEq] at h
        obtain ⟨rfl, rfl, rfl⟩ := h
        exact ⟨hinv, rfl, rfl, rfl, rfl⟩
      · rw [if_neg hz] at h
        obtain ⟨h1, h2, h3, h4, h5, h6⟩ := hinv
        have hflat : (inCb is r.leading_padding_frames_needed).1.flatten.length =
            (inCb is r.leading_padding_frames_needed).1.length * r.low_level.channels := by
          rw [hch]
          exact flatten_length_of_forall _ _ (fun f hf => hshape _ _ f hf)
        have hread : (inCb is r.leading_padding_frames_needed).1.length ≤
            r.leading_padding_frames_needed := hlen _ _
        have hoff : r.maximum_integer_stretched_kernel_radius * r.low_level.channels * 2 -
            r.leading_padding_frames_needed * r.low_level.channels +
            (inCb is r.leading_padding_frames_needed).1.flatten.length ≤
            inputBufferCapacity := by
          rw [hflat]
          have hmul : (inCb is r.leading_padding_frames_needed).1.length *
              r.low_level.channels ≤
              r.leading_padding_frames_needed * r.low_level.channels :=
            Nat.mul_le_mul_right _ hread
          have hlead : r.leading_padding_frames_needed * r.low_level.channels ≤
              r.maximum_integer_stretched_kernel_radius * r.low_level.channels :=
            Nat.mul_le_mul_right _ h5
          omega
        have hinv1 : highLevelBufferInvariant
            { r with
              input_buffer := writeSamples r.input_buffer
                (r.maximum_integer_stretched_kernel_radius * r.low_level.channels * 2 -
                  r.leading_padding_frames_needed * r.low_level.channels)
                (inCb is r.leading_padding_frames_needed).1.flatten
              leading_padding_frames_needed := r.leading_padding_frames_needed -
                (inCb is r.leading_padding_frames_needed).1.length } := by
          refine ⟨h1, h2, h3, h4, ?_, ?_⟩
          · dsimp only
            omega
          · dsimp only
            rw [writeSamples_length]
            · exact h6
            · omega
        have hres := ih _ _ (by exact hch) hinv1 h
        exact ⟨hres.1, hres.2.1, hres.2.2.1, hres.2.2.2.1, hres.2.2.2.2⟩

/-- The main loop of ClownResampler_HighLevel_Resample preserves the
    buffer-window invariant. -/
lemma mainLoop_invariant {ι σ : Type} (fuel llfuel ch : Nat)
    (r : ClownResampler_HighLevel_State) (table : Nat → Int)
    (inCb : ι → Nat → List (List Int) × ι) (outCb : σ → List Int → Bool × σ)
    (is : ι) (os : σ) (res : ClownResampler_HighLevel_State × ι × σ × Bool)
    (hlen : ∀ st n, (inCb st n).1.length ≤ n)
    (hshape : ∀ st n f, f ∈ (inCb st n).1 → f.length = ch)
    (hch : r.low_level.channels = ch)
    (hinv : highLevelBufferInvariant r)
    (h : highLevelMainLoop fuel llfuel r table inCb outCb is os = some res) :
    highLevelBufferInvariant res.1 := by
  induction fuel generalizing r is os res with
  | zero => simp [highLevelMainLoop] at h
  | succ fuel ih =>
    rw [highLevelMainLoop] at h
    by_cases hE : r.input_buffer_start = r.input_buffer_end
    · rw [if_pos hE] at h
      simp only at h
      obtain ⟨h1, h2, h3, h4, h5, h6⟩ := hinv
      have hflat : (inCb is ((inputBufferCapacity -
          r.maximum_integer_stretched_kernel_radius * r.low_level.channels * 2) /
            r.low_level.channels)).1.flatten.length =
          (inCb is ((inputBufferCapacity -
            r.maximum_integer_stretched_kernel_radius * r.low_level.channels * 2) /
              r.low_level.channels)).1.length * r.low_level.channels := by
        rw [hch]
        exact flatten_length_of_forall _ _ (fun f hf => hshape _ _ f hf)
      have hreq := hlen is ((inputBufferCapacity -
        r.maximum_integer_stretched_kernel_radius * r.low_level.channels * 2) /
          r.low_level.channels)
      have hreqmul : (inCb is ((inputBufferCapacity -
          r.maximum_integer_stretched_kernel_radius * r.low_level.channels * 2) /
            r.low_level.channels)).1.length * r.low_level.channels ≤
          inputBufferCapacity -
            r.maximum_integer_stretched_kernel_radius * r.low_level.channels * 2 := by
        calc (inCb is _).1.length * r.low_level.channels ≤
            (inputBufferCapacity -
              r.maximum_integer_stretched_kernel_radius * r.low_level.channels * 2) /
                r.low_level.channels * r.low_level.channels :=
              Nat.mul_le_mul_right _ hreq
          _ ≤ _ := Nat.div_mul_le_self _ _
      have hmoved : ((r.input_buffer.drop (r.input_buffer_end -
          r.maximum_integer_stretched_kernel_radius * r.low_level.channels)).take
            (r.maximum_integer_stretched_kernel_radius * r.low_level.channels * 2)).length ≤
          r.input_buffer.length := by
        simp only [List.length_take, List.length_drop]
        omega
      have hlen1 : (writeSamples r.input_buffer 0
          ((r.input_buffer.drop (r.input_buffer_end -
            r.maximum_integer_stretched_kernel_radius * r.low_level.channels)).take
              (r.maximum_integer_stretched_kernel_radius * r.low_level.channels * 2))).length =
          r.input_buffer.length := by
        rw [writeSamples_length]
        omega
      have hinv1 : highLevelBufferInvariant
          { r with
            input_buffer := writeSamples (writeSamples r.input_buffer 0
              ((r.input_buffer.drop (r.input_buffer_end -
                r.maximum_integer_stretched_kernel_radius * r.low_level.channels)).take
                  (r.maximum_integer_stretched_kernel_radius * r.low_level.channels * 2)))
              (r.maximum_integer_stretched_kernel_radius * r.low_level.channels * 2)
              (inCb is ((inputBufferCapacity -
                r.maximum_integer_stretched_kernel_radius * r.low_level.channels * 2) /
                  r.low_level.channels)).1.flatten
            input_buffer_start :=
              r.maximum_integer_stretched_kernel_radius * r.low_level.channels
            input_buffer_end :=
              r.maximum_integer_stretched_kernel_radius * r.low_level.channels +
                (inCb is ((inputBufferCapacity -
                  r.maximum_integer_stretched_kernel_radius * r.low_level.channels * 2) /
                    r.low_level.channels)).1.length * r.low_level.channels } := by
        refine ⟨?_, ?_, ?_, ?_, ?_, ?_⟩ <;> dsimp only
        · exact Nat.le_refl _
        · exact Nat.le_add_right _ _
        · omega
        · exact h4
        · exact h5
        · rw [writeSamples_length]
          · rw [hlen1]
            exact h6
          · rw [hlen1, hflat, h6]
            omega
      by_cases hz : (inCb is ((inputBufferCapacity -
          r.maximum_integer_stretched_kernel_radius * r.low_level.channels * 2) /
            r.low_level.channels)).1.length = 0
      · rw [if_pos hz] at h
        rcases h with ⟨rfl⟩
        exact hinv1
      · rw [if_neg hz] at h
        refine mainStep_invariant _ llfuel _ table outCb _ os res ?_ hinv1 h
        intro r2 is2 os2 res2 hinv2 hch2 hrun
        exact ih r2 is2 os2 res2 (by rw [hch2]; exact hch) hinv2 hrun
    · rw [if_neg hE] at h
      refine mainStep_invariant _ llfuel _ table outCb _ os res ?_ hinv h
      intro r2 is2 os2 res2 hinv2 hch2 hrun
      exact ih r2 is2 os2 res2 (by rw [hch2]; exact hch) hinv2 hrun

/-! Claim C10: high-level buffer-window invariant. -/

/-- C10 counterexample.  The claim asserts the window invariant after Init
    for every configuration, but ClownResampler_HighLevel_Init performs no
    capacity check at all: with rates (30000, 1, 1) the maximum radius is
    90000 frames, so both pointers are placed far beyond the 0x1000-sample
    buffer (in C, the zero-fill already overruns the array). -/
theorem C10_counterexample :
    ¬ ((ClownResampler_HighLevel_Init zeroBuffer 1 30000 1 1).input_buffer_end +
        (ClownResampler_HighLevel_Init zeroBuffer 1 30000 1 1).maximum_integer_stretched_kernel_radius *
          (ClownResampler_HighLevel_Init zeroBuffer 1 30000 1 1).low_level.channels ≤
      inputBufferCapacity) := by decide

/-- C10 (amended): provided twice the maximum radius fits the 0x1000-sample
    buffer (the condition ClownResampler_HighLevel_Adjust asserts), the
    window invariant holds after ClownResampler_HighLevel_Init, and it is
    preserved by every terminating ClownResampler_HighLevel_Resample call
    whose producer honours its contract; consequently the regions read by
    the low-level engine (one radius each side of the window) and written by
    the producer stay inside the fixed buffer. -/
theorem C10_buffer_window_invariant {ι σ : Type}
    (buffer0 : List Int) (channels i o l fuel llfuel : Nat) (table : Nat → Int)
    (inCb : ι → Nat → List (List Int) × ι) (outCb : σ → List Int → Bool × σ)
    (r : ClownResampler_HighLevel_State) (is : ι) (os : σ)
    (res : ClownResampler_HighLevel_State × ι × σ × Bool)
    (hbuf0 : buffer0.length = inputBufferCapacity)
    (hcap : (ClownResampler_HighLevel_Init buffer0 channels i o l).maximum_integer_stretched_kernel_radius *
      channels * 2 ≤ inputBufferCapacity)
    (hlen : ∀ st n, (inCb st n).1.length ≤ n)
    (hshape : ∀ st n f, f ∈ (inCb st n).1 → f.length = r.low_level.channels)
    (hinv : highLevelBufferInvariant r)
    (hrun : ClownResampler_HighLevel_Resample fuel llfuel r table inCb outCb is os =
      some res) :
    highLevelBufferInvariant (ClownResampler_HighLevel_Init buffer0 channels i o l) ∧
    highLevelBufferInvariant res.1 := by
  constructor
  · have hcap' : (ClownResampler_HighLevel_Init buffer0 channels i o l).maximum_integer_stretched_kernel_radius *
        (ClownResampler_HighLevel_Init buffer0 channels i o l).low_level.channels * 2 ≤
        inputBufferCapacity := hcap
    have hend : (ClownResampler_HighLevel_Init buffer0 channels i o l).input_buffer_end =
        (ClownResampler_HighLevel_Init buffer0 channels i o l).maximum_integer_stretched_kernel_radius *
          (ClownResampler_HighLevel_Init buffer0 channels i o l).low_level.channels := rfl
    refine ⟨Nat.le_refl _, Nat.le_refl _, ?_, Nat.le_refl _, Nat.le_refl _, ?_⟩
    · omega
    · show (writeSamples buffer0 0 (List.replicate
          ((ClownResampler_HighLevel_Init buffer0 channels i o l).maximum_integer_stretched_kernel_radius *
            (ClownResampler_HighLevel_Init buffer0 channels i o l).low_level.channels) 0)).length =
        inputBufferCapacity
      rw [writeSamples_length]
      · exact hbuf0
      · simp only [List.length_replicate]
        omega
  · rw [ClownResampler_HighLevel_Resample] at hrun
    rcases hld : highLevelLeadingLoop fuel r inCb is with _ | ⟨r1, is1, stop⟩
    · rw [hld] at hrun
      simp at hrun
    · rw [hld] at hrun
      have hl := leadingLoop_invariant fuel r.low_level.channels r inCb is r1 is1 stop
        hlen hshape rfl hinv hld
      cases stop
      · simp only [Bool.false_eq_true, if_false] at hrun
        exact mainLoop_invariant fuel llfuel r.low_level.channels r1 table inCb outCb
          is1 os res hlen hshape (by rw [hl.2.1]) hl.1 hrun
      · simp only [if_true] at hrun
        rcases hrun with ⟨rfl⟩
        exact hl.1

/-- C10 witness: the amended invariant theorem at a mono resampler with unit
    rates, an end-of-stream producer and one resample call. -/
theorem C10_witness :
    highLevelBufferInvariant (ClownResampler_HighLevel_Init zeroBuffer 1 1 1 1) ∧
    highLevelBufferInvariant
      ((ClownResampler_HighLevel_Init zeroBuffer 1 1 1 1, (), [], true) :
        ClownResampler_HighLevel_State × Unit × List (List Int) × Bool).1 :=
  C10_buffer_window_invariant zeroBuffer 1 1 1 1 1 1 zeroFn emptyProducer
    collectOutputCallback (ClownResampler_HighLevel_Init zeroBuffer 1 1 1 1) () []
    (ClownResampler_HighLevel_Init zeroBuffer 1 1 1 1, (), [], true)
    (by rw [zeroBuffer, List.length_replicate]; rfl) (by decide)
    (by intro st n; simp [emptyProducer])
    (by intro st n f hf; simp [emptyProducer] at hf)
    (by
      refine ⟨by decide, by decide, by decide, by decide, by decide, ?_⟩
      show (writeSamples zeroBuffer 0 (List.replicate 3 0)).length = inputBufferCapacity
      rw [writeSamples_length]
      · rw [zeroBuffer, List.length_replicate]
        rfl
      · rw [zeroBuffer, List.length_replicate, List.length_replicate]
        decide)
    rfl

/-! Claim C6: (non-)atomicity of ClownResampler_HighLevel_Adjust. -/

/-- C6 counterexample.  Adjusting an initialised state (maximum radius 3) to
    rates (100, 1, 1) requires radius 300: the assertion condition is
    violated, yet the embedded low-level state has already been mutated -
    the original state is not preserved and no error is reported. -/
theorem C6_counterexample :
    highLevelAdjustAssertions (ClownResampler_HighLevel_Adjust
      (ClownResampler_HighLevel_Init zeroBuffer 1 1 1 1) 100 1 1) = false ∧
    (ClownResampler_HighLevel_Adjust (ClownResampler_HighLevel_Init zeroBuffer 1 1 1 1)
        100 1 1).low_level ≠
      (ClownResampler_HighLevel_Init zeroBuffer 1 1 1 1).low_level := by
  constructor
  · decide
  · intro h
    have h2 := congrArg ClownResampler_LowLevel_State.increment h
    revert h2
    decide

/-- C6 (amended): ClownResampler_HighLevel_Adjust mutates the embedded
    low-level state unconditionally; the radius and capacity conditions are
    only assertions evaluated after the mutation, so on a violating
    configuration the function still replaces the low-level state (leaving
    every other field unchanged) and reports nothing. -/
theorem C6_adjust_not_atomic (r : ClownResampler_HighLevel_State) (i o l : Nat)
    (hviol : highLevelAdjustAssertions (ClownResampler_HighLevel_Adjust r i o l) = false) :
    ClownResampler_HighLevel_Adjust r i o l =
      { r with low_level := ClownResampler_LowLevel_Adjust r.low_level i o l } := rfl

/-- C6 witness: the amended theorem at the counterexample configuration. -/
theorem C6_witness :
    ClownResampler_HighLevel_Adjust (ClownResampler_HighLevel_Init zeroBuffer 1 1 1 1)
        100 1 1 =
      { ClownResampler_HighLevel_Init zeroBuffer 1 1 1 1 with
        low_level := ClownResampler_LowLevel_Adjust
          (ClownResampler_HighLevel_Init zeroBuffer 1 1 1 1).low_level 100 1 1 } :=
  C6_adjust_not_atomic (ClownResampler_HighLevel_Init zeroBuffer 1 1 1 1) 100 1 1
    (by decide)

/-! Claim C9: determinism. -/

/-- C9 (confirmed): resampling is a pure function of the initialisation
    parameters, the kernel table, the input data and the callbacks: two
    independently initialised resamplers (low-level and high-level) fed
    pointwise-identical inputs produce identical results, output streams
    included.  (The statement quantifies over two input functions and two
    producers that agree pointwise, so it also shows there is no other
    dependence.) -/
theorem C9_determinism {ι σ : Type} (channels i o l fuel llfuel T : Nat)
    (table : Nat → Int) (input1 input2 : Nat → Int)
    (inCb1 inCb2 : ι → Nat → List (List Int) × ι)
    (outCb : σ → List Int → Bool × σ) (s : σ) (is : ι) (buffer0 : List Int)
    (hinput : ∀ n, input1 n = input2 n)
    (hprod : ∀ st n, inCb1 st n = inCb2 st n) :
    ClownResampler_LowLevel_Resample fuel (ClownResampler_LowLevel_Init channels i o l)
        table input1 T outCb s =
      ClownResampler_LowLevel_Resample fuel (ClownResampler_LowLevel_Init channels i o l)
        table input2 T outCb s ∧
    ClownResampler_HighLevel_Resample fuel llfuel
        (ClownResampler_HighLevel_Init buffer0 channels i o l) table inCb1 outCb is s =
      ClownResampler_HighLevel_Resample fuel llfuel
        (ClownResampler_HighLevel_Init buffer0 channels i o l) table inCb2 outCb is s := by
  have h1 : input1 = input2 := funext hinput
  have h2 : inCb1 = inCb2 := funext (fun st => funext (fun n => hprod st n))
  rw [h1, h2]
  exact ⟨rfl, rfl⟩

/-- C9 witness: both resampling runs coincide at a concrete configuration. -/
theorem C9_witness :
    ClownResampler_LowLevel_Resample 1 (ClownResampler_LowLevel_Init 1 2 3 4)
        zeroFn zeroFn 0 collectOutputCallback [] =
      ClownResampler_LowLevel_Resample 1 (ClownResampler_LowLevel_Init 1 2 3 4)
        zeroFn zeroFn 0 collectOutputCallback [] ∧
    ClownResampler_HighLevel_Resample 1 1
        (ClownResampler_HighLevel_Init zeroBuffer 1 2 3 4) zeroFn emptyProducer
        collectOutputCallback () [] =
      ClownResampler_HighLevel_Resample 1 1
        (ClownResampler_HighLevel_Init zeroBuffer 1 2 3 4) zeroFn emptyProducer
        collectOutputCallback () [] :=
  C9_determinism 1 2 3 4 1 1 0 zeroFn zeroFn zeroFn emptyProducer emptyProducer
    collectOutputCallback [] () zeroBuffer (fun _ => rfl) (fun _ _ => rfl)

/-! Claim C8: termination of ClownResampler_HighLevel_ResampleEnd. -/

/-- With a zero increment the low-level loop never advances: when frames
    remain and the output callback keeps accepting, the loop runs forever
    (every fuel runs out). -/
lemma lowLevel_stuck {σ : Type} (fuel : Nat) (r : ClownResampler_LowLevel_State)
    (table : Nat → Int) (input_buffer : Nat → Int) (T : Nat)
    (cb : σ → List Int → Bool × σ) (s : σ)
    (hinc : r.increment = 0) (hpf : r.position_fractional = 0)
    (hpi : r.position_integer < T) (hcb : ∀ s x, (cb s x).1 = true) :
    ClownResampler_LowLevel_Resample fuel r table input_buffer T cb s = none := by
  induction fuel generalizing s with
  | zero => rfl
  | succ fuel ih =>
    obtain ⟨ch, pi, pf, inc, ns, skr, rad, dl, kss⟩ := r
    simp only at hinc hpf hpi
    subst hinc
    subst hpf
    rw [ClownResampler_LowLevel_Resample, if_neg (by exact Nat.not_le.mpr hpi)]
    dsimp only
    rcases hcbv : cb s (ClownResampler_ComputeFrame
        ⟨ch, pi, 0, 0, ns, skr, rad, dl, kss⟩ table input_buffer pi 0) with ⟨keep, s1⟩
    have hk : keep = true := by
      have := hcb s (ClownResampler_ComputeFrame
        ⟨ch, pi, 0, 0, ns, skr, rad, dl, kss⟩ table input_buffer pi 0)
      rw [hcbv] at this
      exact this
    subst hk
    have hst : (⟨ch, pi + toIntegerFromFixedFloor (0 + 0),
        (0 + 0) % CLOWNRESAMPLER_FIXED_POINT_FRACTIONAL_SIZE, 0, ns, skr, rad, dl, kss⟩ :
          ClownResampler_LowLevel_State) = ⟨ch, pi, 0, 0, ns, skr, rad, dl, kss⟩ := by
      norm_num [toIntegerFromFixedFloor, CLOWNRESAMPLER_FIXED_POINT_FRACTIONAL_SIZE]
    show ClownResampler_LowLevel_Resample fuel
      ⟨ch, pi + toIntegerFromFixedFloor (0 + 0),
        (0 + 0) % CLOWNRESAMPLER_FIXED_POINT_FRACTIONAL_SIZE, 0, ns, skr, rad, dl, kss⟩
      table input_buffer T cb s1 = none
    rw [hst]
    exact ih s1

/-- With an increment of at least one sub-sample step and an always-accepting
    output callback, the low-level loop reaches input exhaustion once the
    fuel covers the remaining 16.16 distance to the end of the input. -/
lemma lowLevel_terminates {σ : Type} (fuel : Nat) :
    ∀ (r : ClownResampler_LowLevel_State) (table : Nat → Int)
      (input_buffer : Nat → Int) (T : Nat) (cb : σ → List Int → Bool × σ) (s : σ),
    1 ≤ r.increment → r.position_fractional < 65536 →
    (∀ s x, (cb s x).1 = true) →
    T * 65536 ≤ fuel + (r.position_integer * 65536 + r.position_fractional) →
    ∃ r' s', ClownResampler_LowLevel_Resample (fuel + 1) r table input_buffer T cb s =
      some (r', 0, s', true) ∧ r'.position_fractional < 65536 := by
  induction fuel with
  | zero =>
    intro r table input_buffer T cb s hinc hpf hcb hfuel
    have hpi : T ≤ r.position_integer := by omega
    refine ⟨{ r with position_integer := r.position_integer - T }, s, ?_, hpf⟩
    rw [ClownResampler_LowLevel_Resample, if_pos hpi]
  | succ fuel ih =>
    intro r table input_buffer T cb s hinc hpf hcb hfuel
    by_cases hpi : T ≤ r.position_integer
    · refine ⟨{ r with position_integer := r.position_integer - T }, s, ?_, hpf⟩
      rw [ClownResampler_LowLevel_Resample, if_pos hpi]
    · rw [ClownResampler_LowLevel_Resample, if_neg hpi]
      simp only
      rcases hcbv : cb s (ClownResampler_ComputeFrame r table input_buffer
          r.position_integer r.position_fractional) with ⟨keep, s1⟩
      have hk : keep = true := by
        have := hcb s (ClownResampler_ComputeFrame r table input_buffer
          r.position_integer r.position_fractional)
        rw [hcbv] at this
        exact this
      subst hk
      have hstep := ih { r with
          position_integer := r.position_integer +
            toIntegerFromFixedFloor (r.position_fractional + r.increment)
          position_fractional := (r.position_fractional + r.increment) %
            CLOWNRESAMPLER_FIXED_POINT_FRACTIONAL_SIZE }
        table input_buffer T cb s1 hinc
        (by
          dsimp only
          simp only [CLOWNRESAMPLER_FIXED_POINT_FRACTIONAL_SIZE]
          omega)
        hcb
        (by
          dsimp only
          simp only [toIntegerFromFixedFloor, CLOWNRESAMPLER_FIXED_POINT_FRACTIONAL_SIZE]
          omega)
      obtain ⟨r', s', hrun, hpf'⟩ := hstep
      exact ⟨r', s', hrun, hpf'⟩

/-- C8 counterexample.  c8StuckState is an initialised high-level resampler
    (rates (1, 65537, 1), so the 16.16 increment is zero) after one
    output-limited HighLevel_Resample call left unconsumed frames in the
    buffer.  Draining it with ClownResampler_HighLevel_ResampleEnd and an
    always-accepting output callback never returns: the low-level engine can
    make no forward progress, so no amount of fuel yields a result. -/
theorem C8_counterexample :
    ¬ ∃ (f1 f2 : Nat) (res : ClownResampler_HighLevel_State × List (List Int) × Bool),
      ClownResampler_HighLevel_ResampleEnd f1 f2 c8StuckState zeroFn
        collectOutputCallback [] = some res := by
  rintro ⟨f1, f2, res, h⟩
  have hnone : ClownResampler_HighLevel_Resample f1 f2 c8StuckState zeroFn
      (fun trailing n =>
        ClownResampler_PaddingCallback c8StuckState.low_level.channels trailing n)
      collectOutputCallback c8StuckState.trailing_padding_frames_remaining [] = none := by
    cases f1 with
    | zero => rfl
    | succ f =>
      rw [ClownResampler_HighLevel_Resample]
      have hlead : highLevelLeadingLoop (f + 1) c8StuckState
          (fun trailing n =>
            ClownResampler_PaddingCallback c8StuckState.low_level.channels trailing n)
          c8StuckState.trailing_padding_frames_remaining =
          some (c8StuckState, c8StuckState.trailing_padding_frames_remaining, false) := by
        rw [highLevelLeadingLoop, if_pos (by decide)]
      rw [hlead]
      simp only [Bool.false_eq_true, if_false]
      rw [highLevelMainLoop, if_neg (by decide)]
      have hll : ClownResampler_LowLevel_Resample f2 c8StuckState.low_level zeroFn
          (fun idx => c8StuckState.input_buffer.getD (c8StuckState.input_buffer_start -
            c8StuckState.low_level.integer_stretched_kernel_radius *
              c8StuckState.low_level.channels + idx) 0)
          ((c8StuckState.input_buffer_end - c8StuckState.input_buffer_start) /
            c8StuckState.low_level.channels) collectOutputCallback [] = none :=
        lowLevel_stuck _ _ _ _ _ _ _ (by decide) (by decide) (by decide) (fun s x => rfl)
      simp only [highLevelMainStep]
      rw [hll]
  rw [ClownResampler_HighLevel_ResampleEnd, hnone] at h
  simp at h

/-- The state built by the main loop's refill step satisfies the window
    invariant whenever the producer honoured its contract. -/
lemma refill_invariant (r : ClownResampler_HighLevel_State) (frames : List (List Int))
    (hinv : highLevelBufferInvariant r)
    (hflat : frames.flatten.length = frames.length * r.low_level.channels)
    (hn : frames.length ≤ (inputBufferCapacity -
      r.maximum_integer_stretched_kernel_radius * r.low_level.channels * 2) /
        r.low_level.channels) :
    highLevelBufferInvariant
      { r with
        input_buffer := writeSamples (writeSamples r.input_buffer 0
          ((r.input_buffer.drop (r.input_buffer_end -
            r.maximum_integer_stretched_kernel_radius * r.low_level.channels)).take
              (r.maximum_integer_stretched_kernel_radius * r.low_level.channels * 2)))
          (r.maximum_integer_stretched_kernel_radius * r.low_level.channels * 2)
          frames.flatten
        input_buffer_start :=
          r.maximum_integer_stretched_kernel_radius * r.low_level.channels
        input_buffer_end :=
          r.maximum_integer_stretched_kernel_radius * r.low_level.channels +
            frames.length * r.low_level.channels } := by
  obtain ⟨h1, h2, h3, h4, h5, h6⟩ := hinv
  have hreqmul : frames.length * r.low_level.channels ≤
      inputBufferCapacity -
        r.maximum_integer_stretched_kernel_radius * r.low_level.channels * 2 := by
    calc frames.length * r.low_level.channels ≤
        (inputBufferCapacity -
          r.maximum_integer_stretched_kernel_radius * r.low_level.channels * 2) /
            r.low_level.channels * r.low_level.channels := Nat.mul_le_mul_right _ hn
      _ ≤ _ := Nat.div_mul_le_self _ _
  have hlen1 : (writeSamples r.input_buffer 0
      ((r.input_buffer.drop (r.input_buffer_end -
        r.maximum_integer_stretched_kernel_radius * r.low_level.channels)).take
          (r.maximum_integer_stretched_kernel_radius * r.low_level.channels * 2))).length =
      r.input_buffer.length := by
    rw [writeSamples_length]
    simp only [List.length_take, List.length_drop]
    omega
  refine ⟨?_, ?_, ?_, ?_, ?_, ?_⟩ <;> dsimp only
  · exact Nat.le_refl _
  · exact Nat.le_add_right _ _
  · omega
  · exact h4
  · exact h5
  · rw [writeSamples_length]
    · rw [hlen1]
      exact h6
    · rw [hlen1, hflat, h6]
      omega

/-- The state built after the low-level call of the main loop satisfies the
    window invariant. -/
lemma post_lowlevel_invariant {σ : Type} (llfuel : Nat)
    (r : ClownResampler_HighLevel_State) (table : Nat → Int)
    (outCb : σ → List Int → Bool × σ) (os : σ)
    (ll1 : ClownResampler_LowLevel_State) (remaining : Nat) (os1 : σ) (b : Bool)
    (hinv : highLevelBufferInvariant r)
    (hll : ClownResampler_LowLevel_Resample llfuel r.low_level table
      (fun idx => r.input_buffer.getD (r.input_buffer_start -
        r.low_level.integer_stretched_kernel_radius * r.low_level.channels + idx) 0)
      ((r.input_buffer_end - r.input_buffer_start) / r.low_level.channels) outCb os =
      some (ll1, remaining, os1, b)) :
    highLevelBufferInvariant
      { r with
        low_level := ll1
        input_buffer_start := r.input_buffer_end - remaining * r.low_level.channels } := by
  have hcfg := lowLevel_config_preserved _ _ _ _ _ _ _ _ _ _ _ hll
  have hrem := lowLevel_remaining_le _ _ _ _ _ _ _ _ _ _ _ hll
  obtain ⟨h1, h2, h3, h4, h5, h6⟩ := hinv
  have hmul : remaining * r.low_level.channels ≤
      (r.input_buffer_end - r.input_buffer_start) / r.low_level.channels *
        r.low_level.channels :=
    Nat.mul_le_mul_right _ hrem
  have hdm : (r.input_buffer_end - r.input_buffer_start) / r.low_level.channels *
      r.low_level.channels ≤ r.input_buffer_end - r.input_buffer_start :=
    Nat.div_mul_le_self _ _
  refine ⟨?_, ?_, ?_, ?_, ?_, ?_⟩ <;>
    dsimp only <;> (try simp only [hcfg.1, hcfg.2.2.2.2.1]) <;> omega

/-- With the internal padding callback the leading-padding loop always
    terminates: each round either delivers at least one frame (decreasing
    the needed count) or delivers none (returning early), and the trailing
    counter never increases. -/
lemma leadingLoop_padding_terminates (ch : Nat) (needed : Nat) :
    ∀ (fuel : Nat) (r : ClownResampler_HighLevel_State) (trailing : Nat),
    r.leading_padding_frames_needed = needed →
    needed + 1 ≤ fuel →
    ∃ r1 t1 stop, highLevelLeadingLoop fuel r
        (fun t n => ClownResampler_PaddingCallback ch t n) trailing =
      some (r1, t1, stop) ∧ t1 ≤ trailing := by
  induction needed using Nat.strong_induction_on with
  | _ needed ih =>
    intro fuel r trailing hn hf
    rcases fuel with _ | f
    · omega
    rw [highLevelLeadingLoop]
    by_cases h0 : r.leading_padding_frames_needed = 0
    · rw [if_pos h0]
      exact ⟨r, trailing, false, rfl, Nat.le_refl _⟩
    · rw [if_neg h0]
      simp only
      have hlen : (ClownResampler_PaddingCallback ch trailing
          r.leading_padding_frames_needed).1.length =
          min r.leading_padding_frames_needed trailing := by
        simp [ClownResampler_PaddingCallback]
      by_cases hz : (ClownResampler_PaddingCallback ch trailing
          r.leading_padding_frames_needed).1.length = 0
      · rw [if_pos hz]
        refine ⟨r, _, true, rfl, ?_⟩
        show trailing - min r.leading_padding_frames_needed trailing ≤ trailing
        omega
      · rw [if_neg hz]
        have hmin1 : 1 ≤ min r.leading_padding_frames_needed trailing := by omega
        have hrec := ih (needed - min r.leading_padding_frames_needed trailing)
          (by omega)
          f
          { r with
            input_buffer := writeSamples r.input_buffer
              (r.maximum_integer_stretched_kernel_radius * r.low_level.channels * 2 -
                r.leading_padding_frames_needed * r.low_level.channels)
              (ClownResampler_PaddingCallback ch trailing
                r.leading_padding_frames_needed).1.flatten
            leading_padding_frames_needed := r.leading_padding_frames_needed -
              (ClownResampler_PaddingCallback ch trailing
                r.leading_padding_frames_needed).1.length }
          (trailing - min r.leading_padding_frames_needed trailing)
          (by dsimp only; omega)
          (by omega)
        obtain ⟨r1, t1, stop, hrun, ht1⟩ := hrec
        refine ⟨r1, t1, stop, ?_, by omega⟩
        exact hrun

/-- With an always-accepting output callback, enough low-level fuel and a
    continuation that terminates successfully from any post-batch state, the
    main-loop body terminates successfully. -/
lemma mainStep_padding_terminates {ι σ : Type}
    (recur : ClownResampler_HighLevel_State → ι → σ →
      Option (ClownResampler_HighLevel_State × ι × σ × Bool)) (lf : Nat)
    (r : ClownResampler_HighLevel_State) (table : Nat → Int)
    (outCb : σ → List Int → Bool × σ) (is : ι) (os : σ)
    (hcb : ∀ s x, (outCb s x).1 = true)
    (hinc : 1 ≤ r.low_level.increment)
    (hpf : r.low_level.position_fractional < 65536)
    (hinv : highLevelBufferInvariant r)
    (hlf : 268435456 ≤ lf)
    (hrec : ∀ r2 os2, highLevelBufferInvariant r2 →
      r2.low_level.channels = r.low_level.channels →
      r2.low_level.increment = r.low_level.increment →
      r2.low_level.position_fractional < 65536 →
      r2.input_buffer_start = r2.input_buffer_end →
      ∃ res, recur r2 is os2 = some res ∧ res.2.2.2 = true) :
    ∃ res, highLevelMainStep recur (lf + 1) r table outCb is os = some res ∧
      res.2.2.2 = true := by
  have hT : (r.input_buffer_end - r.input_buffer_start) / r.low_level.channels ≤ 4096 := by
    obtain ⟨h1, h2, h3, h4, h5, h6⟩ := hinv
    have hcap : inputBufferCapacity = 4096 := rfl
    calc (r.input_buffer_end - r.input_buffer_start) / r.low_level.channels ≤
        r.input_buffer_end - r.input_buffer_start := Nat.div_le_self _ _
      _ ≤ 4096 := by omega
  obtain ⟨ll1, os1, hllrun, hpf1⟩ := lowLevel_terminates lf r.low_level table
    (fun idx => r.input_buffer.getD (r.input_buffer_start -
      r.low_level.integer_stretched_kernel_radius * r.low_level.channels + idx) 0)
    ((r.input_buffer_end - r.input_buffer_start) / r.low_level.channels)
    outCb os hinc hpf hcb
    (by
      have := Nat.mul_le_mul_right 65536 hT
      omega)
  have hcfg := lowLevel_config_preserved _ _ _ _ _ _ _ _ _ _ _ hllrun
  have hinv2 := post_lowlevel_invariant _ r table outCb os ll1 0 os1 true hinv hllrun
  simp only [highLevelMainStep]
  rw [hllrun]
  obtain ⟨res, hrecrun, hres⟩ := hrec
    { r with
      low_level := ll1
      input_buffer_start := r.input_buffer_end - 0 * r.low_level.channels }
    os1 hinv2 hcfg.1 hcfg.2.1 hpf1 (by dsimp only; omega)
  exact ⟨res, hrecrun, hres⟩

/-- With the internal padding producer, an always-accepting output callback
    and sufficient fuel, the main loop of the high-level resampler
    terminates with the input-exhausted result: every round either consumes
    trailing padding or ends the stream. -/
lemma mainLoopPadding_terminates {σ : Type} (ch : Nat) (ofuel : Nat) :
    ∀ (lf : Nat) (r : ClownResampler_HighLevel_State) (table : Nat → Int)
      (outCb : σ → List Int → Bool × σ) (trailing : Nat) (os : σ),
    (∀ s x, (outCb s x).1 = true) →
    r.low_level.channels = ch → 1 ≤ ch →
    1 ≤ r.low_level.increment →
    r.low_level.position_fractional < 65536 →
    highLevelBufferInvariant r →
    268435456 ≤ lf →
    trailing + 2 + (if r.input_buffer_start = r.input_buffer_end then 0 else 1) ≤ ofuel →
    ∃ r' t' os', highLevelMainLoop ofuel (lf + 1) r table
        (fun t n => ClownResampler_PaddingCallback ch t n) outCb trailing os =
      some (r', t', os', true) := by
  induction ofuel with
  | zero =>
    intro lf r table outCb trailing os hcb hch hch1 hinc hpf hinv hlf hof
    exfalso
    have := Nat.le_trans (Nat.le_add_right (trailing + 2) _) hof
    omega
  | succ of ih =>
    intro lf r table outCb trailing os hcb hch hch1 hinc hpf hinv hlf hof
    rw [highLevelMainLoop]
    by_cases hE : r.input_buffer_start = r.input_buffer_end
    · rw [if_pos hE] at hof ⊢
      by_cases hz : (ClownResampler_PaddingCallback ch trailing
          ((inputBufferCapacity -
            r.maximum_integer_stretched_kernel_radius * r.low_level.channels * 2) /
              r.low_level.channels)).1.length = 0
      · rw [if_pos hz]
        exact ⟨_, _, os, rfl⟩
      · rw [if_neg hz]
        have hfrlen : (ClownResampler_PaddingCallback ch trailing
            ((inputBufferCapacity -
              r.maximum_integer_stretched_kernel_radius * r.low_level.channels * 2) /
                r.low_level.channels)).1.length =
            min ((inputBufferCapacity -
              r.maximum_integer_stretched_kernel_radius * r.low_level.channels * 2) /
                r.low_level.channels) trailing := by
          simp [ClownResampler_PaddingCallback]
        have hforall : ∀ f ∈ (ClownResampler_PaddingCallback ch trailing
            ((inputBufferCapacity -
              r.maximum_integer_stretched_kernel_radius * r.low_level.channels * 2) /
                r.low_level.channels)).1, f.length = r.low_level.channels := by
          intro f hf
          simp only [ClownResampler_PaddingCallback] at hf
          rw [List.eq_of_mem_replicate hf]
          simp [hch]
        have hflat := flatten_length_of_forall _ _ hforall
        have hinvr1 := refill_invariant r _ hinv hflat (by rw [hfrlen]; omega)
        obtain ⟨res, hsteprun, hres⟩ := mainStep_padding_terminates _ lf _ table outCb _ os
          hcb (by dsimp only; exact hinc) (by dsimp only; exact hpf) hinvr1 hlf
          (fun r2 os2 hinv2 hch2 hinc2 hpf2 hE2 => by
            obtain ⟨r', t', os', hrun⟩ := ih lf r2 table outCb
              (trailing - min ((inputBufferCapacity -
                r.maximum_integer_stretched_kernel_radius * r.low_level.channels * 2) /
                  r.low_level.channels) trailing) os2 hcb
              (by rw [hch2]; dsimp only; exact hch) hch1
              (by rw [hinc2]; dsimp only; exact hinc) hpf2 hinv2 hlf
              (by rw [if_pos hE2]; omega)
            exact ⟨(r', t', os', true), hrun, rfl⟩)
        refine ⟨res.1, res.2.1, res.2.2.1, ?_⟩
        rw [← hres]
        exact hsteprun
    · rw [if_neg hE] at hof ⊢
      obtain ⟨res, hsteprun, hres⟩ := mainStep_padding_terminates _ lf r table outCb
        trailing os hcb hinc hpf hinv hlf
        (fun r2 os2 hinv2 hch2 hinc2 hpf2 hE2 => by
          obtain ⟨r', t', os', hrun⟩ := ih lf r2 table outCb trailing os2 hcb
            (hch2.trans hch) hch1 (by rw [hinc2]; exact hinc) hpf2 hinv2 hlf
            (by rw [if_pos hE2]; omega)
          exact ⟨(r', t', os', true), hrun, rfl⟩)
      refine ⟨res.1, res.2.1, res.2.2.1, ?_⟩
      rw [← hres]
      exact hsteprun

/-- C8 (amended): the internal padding callback delivers exactly
    min(requested, trailing) frames of silence and decrements the trailing
    counter by exactly that amount, so the counter never underflows; and for
    every state satisfying the buffer-window invariant whose 16.16 increment
    is at least one sub-sample step (it is zero when the output rate exceeds
    65536 times the input rate, in which case the engine cannot advance),
    with an always-accepting output callback,
    ClownResampler_HighLevel_ResampleEnd terminates with the drain complete
    once the fuel covers the padding counters. -/
theorem C8_resampleEnd_terminates {σ : Type}
    (r : ClownResampler_HighLevel_State) (table : Nat → Int)
    (outCb : σ → List Int → Bool × σ) (os : σ)
    (hcb : ∀ s x, (outCb s x).1 = true)
    (hch : 1 ≤ r.low_level.channels)
    (hinc : 1 ≤ r.low_level.increment)
    (hpf : r.low_level.position_fractional < 65536)
    (hinv : highLevelBufferInvariant r) :
    (∀ ch t n,
      (ClownResampler_PaddingCallback ch t n).1 =
        List.replicate (min n t) (List.replicate ch 0) ∧
      (ClownResampler_PaddingCallback ch t n).2 = t - min n t ∧
      (ClownResampler_PaddingCallback ch t n).2 ≤ t) ∧
    ∃ r' os', ClownResampler_HighLevel_ResampleEnd
        (r.trailing_padding_frames_remaining + r.leading_padding_frames_needed + 3)
        268435457 r table outCb os = some (r', os', true) := by
  refine ⟨fun ch t n => ⟨rfl, rfl, Nat.sub_le _ _⟩, ?_⟩
  obtain ⟨r1, t1, stop, hlead, ht1⟩ := leadingLoop_padding_terminates
    r.low_level.channels r.leading_padding_frames_needed
    (r.trailing_padding_frames_remaining + r.leading_padding_frames_needed + 3)
    r r.trailing_padding_frames_remaining rfl (by omega)
  have hl := leadingLoop_invariant _ r.low_level.channels r _
    r.trailing_padding_frames_remaining r1 t1 stop
    (fun st n => by simp [ClownResampler_PaddingCallback])
    (fun st n f hf => by
      simp only [ClownResampler_PaddingCallback] at hf
      rw [List.eq_of_mem_replicate hf, List.length_replicate])
    rfl hinv hlead
  rw [ClownResampler_HighLevel_ResampleEnd, ClownResampler_HighLevel_Resample, hlead]
  cases stop with
  | true =>
    exact ⟨{ r1 with trailing_padding_frames_remaining := t1 }, os, rfl⟩
  | false =>
    simp only [Bool.false_eq_true, if_false]
    have hifle : (if r1.input_buffer_start = r1.input_buffer_end then 0 else 1) ≤ 1 := by
      split <;> omega
    obtain ⟨r2, t2, os2, hmain⟩ := mainLoopPadding_terminates r.low_level.channels
      (r.trailing_padding_frames_remaining + r.leading_padding_frames_needed + 3)
      268435456 r1 table outCb t1 os hcb
      (by rw [hl.2.1]) hch (by rw [hl.2.1]; exact hinc)
      (by rw [hl.2.1]; exact hpf) hl.1 (Nat.le_refl _) (by omega)
    norm_num at hmain
    rw [hmain]
    exact ⟨{ r2 with trailing_padding_frames_remaining := t2 }, os2, rfl⟩

/-- C8 witness: the amended theorem at a freshly initialised mono resampler
    with unit rates, a zero kernel table and a collecting output callback. -/
theorem C8_witness :
    ∃ r' os', ClownResampler_HighLevel_ResampleEnd 9 268435457
        (ClownResampler_HighLevel_Init zeroBuffer 1 1 1 1) zeroFn
        collectOutputCallback [] = some (r', os', true) :=
  (C8_resampleEnd_terminates (ClownResampler_HighLevel_Init zeroBuffer 1 1 1 1)
    zeroFn collectOutputCallback [] (fun s x => rfl) (by decide) (by decide) (by decide)
    (by
      refine ⟨by decide, by decide, by decide, by decide, by decide, ?_⟩
      show (writeSamples zeroBuffer 0 (List.replicate 3 0)).length = inputBufferCapacity
      rw [writeSamples_length]
      · rw [zeroBuffer, List.length_replicate]
        rfl
      · rw [zeroBuffer, List.length_replicate, List.length_replicate]
        decide)).2

/-! Infrastructure for claim C7 (streaming equivalence): congruence and
    decomposition properties of the low-level engine. -/

/-- Folding two functions that agree on the list gives the same result. -/
lemma foldl_congr_mem {α β : Type} (f g : β → α → β) (l : List α)
    (h : ∀ x ∈ l, ∀ b, f b x = g b x) : ∀ a : β, l.foldl f a = l.foldl g a := by
  induction l with
  | nil => intro a; rfl
  | cons x xs ih =>
    intro a
    simp only [List.foldl_cons]
    rw [h x (by simp)]
    exact ih (fun y hy b => h y (by simp [hy]) b) _

/-- ClownResampler_ComputeFrame only reads the input inside its convolution
    window: two input functions that agree there give the same frame. -/
lemma computeFrame_congr (r : ClownResampler_LowLevel_State) (table : Nat → Int)
    (b g : Nat → Int) (pi pf : Nat)
    (hag : ∀ idx, convolutionMin r pi pf ≤ idx →
      idx < convolutionMin r pi pf + convolutionSteps r pf * r.channels →
      b idx = g idx) :
    ClownResampler_ComputeFrame r table b pi pf =
      ClownResampler_ComputeFrame r table g pi pf := by
  simp only [ClownResampler_ComputeFrame]
  refine List.map_congr_left (fun c hc => ?_)
  have hc' : c < r.channels := List.mem_range.mp hc
  congr 2
  refine foldl_congr_mem _ _ _ (fun j hj acc => ?_) 0
  have hj' : j < convolutionSteps r pf := List.mem_range.mp hj
  have hb : b (convolutionMin r pi pf + j * r.channels + c) =
      g (convolutionMin r pi pf + j * r.channels + c) := by
    apply hag
    · omega
    · have h1 : (j + 1) * r.channels ≤ convolutionSteps r pf * r.channels :=
        Nat.mul_le_mul_right _ hj'
      have h2 : (j + 1) * r.channels = j * r.channels + r.channels := by ring
      omega
  rw [hb]

/-- Shifting the input function by d frames is the same as shifting the
    position by d frames: the convolution window is affine in the position. -/
lemma computeFrame_shift (r : ClownResampler_LowLevel_State) (table : Nat → Int)
    (g : Nat → Int) (d pi pf : Nat) :
    ClownResampler_ComputeFrame r table g (d + pi) pf =
      ClownResampler_ComputeFrame r table (fun idx => g (d * r.channels + idx)) pi pf := by
  simp only [ClownResampler_ComputeFrame]
  refine List.map_congr_left (fun c hc => ?_)
  congr 2
  refine foldl_congr_mem _ _ _ (fun j hj acc => ?_) 0
  have hidx : convolutionMin r (d + pi) pf + j * r.channels + c =
      d * r.channels + (convolutionMin r pi pf + j * r.channels + c) := by
    simp only [convolutionMin]
    ring
  rw [hidx]

/-- The convolution window of a frame at a position inside the batch lies
    within the batch plus one radius on each side. -/
lemma convolution_window_bound (r : ClownResampler_LowLevel_State) (pi pf T : Nat)
    (hpf : pf < 65536)
    (hsr : r.stretched_kernel_radius ≤ toFixedFromInteger r.integer_stretched_kernel_radius)
    (hdelta : r.stretched_kernel_radius_delta =
      toFixedFromInteger r.integer_stretched_kernel_radius - r.stretched_kernel_radius)
    (hrad1 : 1 ≤ r.integer_stretched_kernel_radius)
    (hpiT : pi < T) :
    convolutionMin r pi pf + convolutionSteps r pf * r.channels ≤
      (T + 2 * r.integer_stretched_kernel_radius) * r.channels := by
  have hmaxrel : maxRelative r pf ≤ r.integer_stretched_kernel_radius := by
    simp only [maxRelative, toIntegerFromFixedFloor,
      CLOWNRESAMPLER_FIXED_POINT_FRACTIONAL_SIZE]
    simp only [toFixedFromInteger, CLOWNRESAMPLER_FIXED_POINT_FRACTIONAL_SIZE] at hsr
    omega
  have hminrel : minRelative r pf ≤ r.integer_stretched_kernel_radius + 1 := by
    simp only [minRelative, toIntegerFromFixedCeiling,
      CLOWNRESAMPLER_FIXED_POINT_FRACTIONAL_SIZE]
    have hd : r.stretched_kernel_radius_delta ≤
        r.integer_stretched_kernel_radius * 65536 := by
      simp only [toFixedFromInteger, CLOWNRESAMPLER_FIXED_POINT_FRACTIONAL_SIZE] at hdelta
      omega
    omega
  have hlin : pi + minRelative r pf + convolutionSteps r pf ≤
      T + 2 * r.integer_stretched_kernel_radius := by
    simp only [convolutionSteps]
    omega
  calc convolutionMin r pi pf + convolutionSteps r pf * r.channels =
      (pi + minRelative r pf + convolutionSteps r pf) * r.channels := by
        simp only [convolutionMin]; ring
    _ ≤ (T + 2 * r.integer_stretched_kernel_radius) * r.channels :=
        Nat.mul_le_mul_right _ hlin

/-- A successful low-level run gives the same result with any larger fuel. -/
lemma lowLevel_fuel_mono {σ : Type} (fuel : Nat) :
    ∀ (fuel2 : Nat) (r : ClownResampler_LowLevel_State) (table : Nat → Int)
      (b : Nat → Int) (T : Nat) (cb : σ → List Int → Bool × σ) (s : σ)
      (res : ClownResampler_LowLevel_State × Nat × σ × Bool),
    fuel ≤ fuel2 →
    ClownResampler_LowLevel_Resample fuel r table b T cb s = some res →
    ClownResampler_LowLevel_Resample fuel2 r table b T cb s = some res := by
  induction fuel with
  | zero =>
    intro fuel2 r table b T cb s res hle h
    simp [ClownResampler_LowLevel_Resample] at h
  | succ f ih =>
    intro fuel2 r table b T cb s res hle h
    rcases fuel2 with _ | f2
    · omega
    rw [ClownResampler_LowLevel_Resample] at h ⊢
    by_cases hT : T ≤ r.position_integer
    · rw [if_pos hT] at h ⊢
      exact h
    · rw [if_neg hT] at h ⊢
      simp only at h ⊢
      rcases hcb : cb s (ClownResampler_ComputeFrame r table b
          r.position_integer r.position_fractional) with ⟨keep, s1⟩
      rw [hcb] at h
      cases keep
      · exact h
      · exact ih f2 _ table b T cb s1 res (by omega) h

/-- Advancing the position by d frames and dropping d frames from the input
    budget is the same as shifting the input function by d frames: the
    low-level engine is translation-invariant. -/
lemma lowLevel_shift {σ : Type} (fuel : Nat) :
    ∀ (r : ClownResampler_LowLevel_State) (d : Nat) (table : Nat → Int)
      (g : Nat → Int) (T : Nat) (cb : σ → List Int → Bool × σ) (s : σ),
    ClownResampler_LowLevel_Resample fuel
        { r with position_integer := d + r.position_integer } table g (d + T) cb s =
      ClownResampler_LowLevel_Resample fuel r table
        (fun idx => g (d * r.channels + idx)) T cb s := by
  induction fuel with
  | zero => intro r d table g T cb s; rfl
  | succ f ih =>
    intro r d table g T cb s
    obtain ⟨ch, pi, pf, inc, ns, skr, rad, dl, kss⟩ := r
    rw [ClownResampler_LowLevel_Resample, ClownResampler_LowLevel_Resample]
    by_cases hT : T ≤ pi
    · rw [if_pos (show d + T ≤ d + pi by omega), if_pos hT]
      have hsub : d + pi - (d + T) = pi - T := by omega
      simp only [hsub]
    · rw [if_neg (show ¬ d + T ≤ d + pi by omega), if_neg hT]
      simp only
      have hframe : ClownResampler_ComputeFrame
          ⟨ch, d + pi, pf, inc, ns, skr, rad, dl, kss⟩ table g (d + pi) pf =
          ClownResampler_ComputeFrame ⟨ch, pi, pf, inc, ns, skr, rad, dl, kss⟩ table
            (fun idx => g (d * ch + idx)) pi pf :=
        computeFrame_shift ⟨ch, pi, pf, inc, ns, skr, rad, dl, kss⟩ table g d pi pf
      rw [hframe]
      rcases hcb : cb s (ClownResampler_ComputeFrame
          ⟨ch, pi, pf, inc, ns, skr, rad, dl, kss⟩ table
          (fun idx => g (d * ch + idx)) pi pf) with ⟨keep, s1⟩
      cases keep
      · have hsub : d + pi + toIntegerFromFixedFloor (pf + inc) =
            d + (pi + toIntegerFromFixedFloor (pf + inc)) := by omega
        simp only [hsub]
        have hmin : min (d + (pi + toIntegerFromFixedFloor (pf + inc))) (d + T) =
            d + min (pi + toIntegerFromFixedFloor (pf + inc)) T := by omega
        simp only [hmin]
        have hs2 : d + (pi + toIntegerFromFixedFloor (pf + inc)) -
            (d + min (pi + toIntegerFromFixedFloor (pf + inc)) T) =
            pi + toIntegerFromFixedFloor (pf + inc) -
              min (pi + toIntegerFromFixedFloor (pf + inc)) T := by omega
        simp only [hs2]
        have hs3 : d + T - (d + min (pi + toIntegerFromFixedFloor (pf + inc)) T) =
            T - min (pi + toIntegerFromFixedFloor (pf + inc)) T := by omega
        simp only [hs3]
      · have hsub : d + pi + toIntegerFromFixedFloor (pf + inc) =
            d + (pi + toIntegerFromFixedFloor (pf + inc)) := by omega
        simp only [hsub]
        exact ih ⟨ch, pi + toIntegerFromFixedFloor (pf + inc),
          (pf + inc) % CLOWNRESAMPLER_FIXED_POINT_FRACTIONAL_SIZE,
          inc, ns, skr, rad, dl, kss⟩ d table g T cb s1

/-- Two input functions that agree on the batch window (the batch plus one
    radius on each side) drive the low-level engine identically. -/
lemma lowLevel_run_congr {σ : Type} (fuel : Nat) :
    ∀ (r : ClownResampler_LowLevel_State) (table : Nat → Int) (b g : Nat → Int)
      (T : Nat) (cb : σ → List Int → Bool × σ) (s : σ),
    r.position_fractional < 65536 →
    r.stretched_kernel_radius ≤ toFixedFromInteger r.integer_stretched_kernel_radius →
    r.stretched_kernel_radius_delta =
      toFixedFromInteger r.integer_stretched_kernel_radius - r.stretched_kernel_radius →
    1 ≤ r.integer_stretched_kernel_radius →
    (∀ idx, idx < (T + 2 * r.integer_stretched_kernel_radius) * r.channels →
      b idx = g idx) →
    ClownResampler_LowLevel_Resample fuel r table b T cb s =
      ClownResampler_LowLevel_Resample fuel r table g T cb s := by
  induction fuel with
  | zero => intros; rfl
  | succ f ih =>
    intro r table b g T cb s hpf hsr hdelta hrad1 hag
    rw [ClownResampler_LowLevel_Resample, ClownResampler_LowLevel_Resample]
    by_cases hT : T ≤ r.position_integer
    · rw [if_pos hT, if_pos hT]
    · rw [if_neg hT, if_neg hT]
      simp only
      have hframe : ClownResampler_ComputeFrame r table b
          r.position_integer r.position_fractional =
          ClownResampler_ComputeFrame r table g
            r.position_integer r.position_fractional := by
        refine computeFrame_congr r table b g _ _ (fun idx hlo hhi => ?_)
        apply hag
        have := convolution_window_bound r r.position_integer
          r.position_fractional T hpf hsr hdelta hrad1 (by omega)
        omega
      rw [hframe]
      rcases hcb : cb s (ClownResampler_ComputeFrame r table g
          r.position_integer r.position_fractional) with ⟨keep, s1⟩
      cases keep
      · rfl
      · exact ih _ table b g T cb s1
          (by
            dsimp only
            simp only [CLOWNRESAMPLER_FIXED_POINT_FRACTIONAL_SIZE]
            omega)
          hsr hdelta hrad1 hag

/-- Splitting a low-level run at a batch boundary: if the engine exhausts a
    first batch of T1 frames, the rest of a longer run over T1 + T2 frames
    is the run over the remaining T2 frames with the input shifted by T1
    frames. -/
lemma lowLevel_split {σ : Type} (fuel1 : Nat) :
    ∀ (fuel : Nat) (r : ClownResampler_LowLevel_State) (table : Nat → Int)
      (g : Nat → Int) (T1 T2 : Nat) (cb : σ → List Int → Bool × σ) (s : σ)
      (ll1 : ClownResampler_LowLevel_State) (s1 : σ)
      (res : ClownResampler_LowLevel_State × Nat × σ × Bool),
    ClownResampler_LowLevel_Resample fuel1 r table g T1 cb s = some (ll1, 0, s1, true) →
    ClownResampler_LowLevel_Resample fuel r table g (T1 + T2) cb s = some res →
    ClownResampler_LowLevel_Resample fuel ll1 table
      (fun idx => g (T1 * r.channels + idx)) T2 cb s1 = some res := by
  induction fuel1 with
  | zero =>
    intro fuel r table g T1 T2 cb s ll1 s1 res h1 h
    simp [ClownResampler_LowLevel_Resample] at h1
  | succ f1 ih =>
    intro fuel r table g T1 T2 cb s ll1 s1 res h1 h
    obtain ⟨ch, pi, pf, inc, ns, skr, rad, dl, kss⟩ := r
    rw [ClownResampler_LowLevel_Resample] at h1
    by_cases hT : T1 ≤ pi
    · rw [if_pos hT] at h1
      simp only [Option.some.injEq, Prod.mk.injEq] at h1
      obtain ⟨hll1, -, rfl, -⟩ := h1
      subst hll1
      have hshift := lowLevel_shift fuel
        ⟨ch, pi - T1, pf, inc, ns, skr, rad, dl, kss⟩ T1 table g T2 cb s
      dsimp only at hshift ⊢
      have e : T1 + (pi - T1) = pi := by omega
      rw [e] at hshift
      rw [← hshift]
      exact h
    · rw [if_neg hT] at h1
      simp only at h1
      rcases fuel with _ | fl
      · simp [ClownResampler_LowLevel_Resample] at h
      rw [ClownResampler_LowLevel_Resample] at h
      rw [if_neg (show ¬ T1 + T2 ≤ pi by omega)] at h
      simp only at h
      rcases hcb : cb s (ClownResampler_ComputeFrame
          ⟨ch, pi, pf, inc, ns, skr, rad, dl, kss⟩ table g pi pf) with ⟨keep, s2⟩
      rw [hcb] at h1 h
      cases keep
      · simp only [Option.some.injEq, Prod.mk.injEq, Bool.false_eq_true,
          and_false, false_and, and_true, true_and] at h1
      · have hres := ih fl _ table g T1 T2 cb s2 ll1 s1 res h1 h
        exact lowLevel_fuel_mono fl (fl + 1) _ table _ T2 cb s1 res (by omega) hres

/-! List indexing and flattening helpers for the buffer-content invariant. -/

lemma getD_take (l : List Int) (n j : Nat) (h : j < n) :
    (l.take n).getD j 0 = l.getD j 0 := by
  simp [List.getD_eq_getElem?_getD, List.getElem?_take, h]

lemma getD_drop (l : List Int) (n j : Nat) :
    (l.drop n).getD j 0 = l.getD (n + j) 0 := by
  simp [List.getD_eq_getElem?_getD, List.getElem?_drop]

lemma getD_append_left (l1 l2 : List Int) (j : Nat) (h : j < l1.length) :
    (l1 ++ l2).getD j 0 = l1.getD j 0 := by
  simp [List.getD_eq_getElem?_getD, List.getElem?_append_left h]

lemma getD_append_right (l1 l2 : List Int) (j : Nat) (h : l1.length ≤ j) :
    (l1 ++ l2).getD j 0 = l2.getD (j - l1.length) 0 := by
  simp [List.getD_eq_getElem?_getD, List.getElem?_append_right h]

lemma writeSamples_getD_left (buf : List Int) (off : Nat) (data : List Int) (j : Nat)
    (hoff : off ≤ buf.length) (hj : j < off) :
    (writeSamples buf off data).getD j 0 = buf.getD j 0 := by
  have h1 : (buf.take off).length = off := by
    rw [List.length_take]; omega
  rw [writeSamples, List.append_assoc, getD_append_left _ _ _ (by omega),
    getD_take _ _ _ hj]

lemma writeSamples_getD_mid (buf : List Int) (off : Nat) (data : List Int) (j : Nat)
    (hoff : off ≤ buf.length) (hj1 : off ≤ j) (hj2 : j < off + data.length) :
    (writeSamples buf off data).getD j 0 = data.getD (j - off) 0 := by
  have h1 : (buf.take off).length = off := by
    rw [List.length_take]; omega
  rw [writeSamples, List.append_assoc, getD_append_right _ _ _ (by omega),
    getD_append_left _ _ _ (by omega), h1]

lemma writeSamples_getD_right (buf : List Int) (off : Nat) (data : List Int) (j : Nat)
    (hoff : off ≤ buf.length) (hj : off + data.length ≤ j) :
    (writeSamples buf off data).getD j 0 = buf.getD j 0 := by
  have h1 : (buf.take off).length = off := by
    rw [List.length_take]; omega
  rw [writeSamples, List.append_assoc, getD_append_right _ _ _ (by omega),
    getD_append_right _ _ _ (by rw [h1]; omega), getD_drop, h1]
  congr 1
  omega

lemma writeSamples_nil (buf : List Int) (off : Nat) :
    writeSamples buf off [] = buf := by
  simp [writeSamples]

lemma writeSamples_append (buf : List Int) (off : Nat) (A B : List Int)
    (hoff : off ≤ buf.length) :
    writeSamples (writeSamples buf off A) (off + A.length) B =
      writeSamples buf off (A ++ B) := by
  have h1 : (buf.take off).length = off := by
    rw [List.length_take]; omega
  simp only [writeSamples, List.append_assoc]
  rw [List.take_append_eq_append_take, List.drop_append_eq_append_drop, h1]
  rw [List.take_take]
  rw [show min (off + A.length) off = off by omega]
  rw [show off + A.length - off = A.length by omega]
  rw [List.take_append_eq_append_take, List.take_length, Nat.sub_self, List.take_zero,
    List.append_nil]
  rw [List.drop_eq_nil_of_le (by rw [h1]; omega), List.nil_append]
  rw [show off + A.length + B.length - off = A.length + B.length by omega]
  rw [List.drop_append_eq_append_drop, List.drop_eq_nil_of_le (by omega), List.nil_append]
  rw [show A.length + B.length - A.length = B.length by omega]
  rw [List.drop_drop]
  rw [List.length_append]
  rw [show off + A.length + B.length = off + (A.length + B.length) by omega]
  simp [List.append_assoc]

lemma flatten_take (F : List (List Int)) (ch : Nat)
    (h : ∀ f ∈ F, f.length = ch) : ∀ k, (F.take k).flatten = F.flatten.take (k * ch) := by
  induction F with
  | nil => intro k; simp
  | cons f fs ih =>
    intro k
    cases k with
    | zero => simp
    | succ k =>
      simp only [List.take_succ_cons, List.flatten_cons]
      rw [ih (fun g hg => h g (by simp [hg])) k]
      have hf : f.length = ch := h f (by simp)
      have h2 : (k + 1) * ch = k * ch + ch := by ring
      rw [List.take_append_eq_append_take, hf,
        show (k + 1) * ch - ch = k * ch from by omega,
        List.take_of_length_le (show f.length ≤ (k + 1) * ch from by omega)]

lemma flatten_drop (F : List (List Int)) (ch : Nat)
    (h : ∀ f ∈ F, f.length = ch) : ∀ k, (F.drop k).flatten = F.flatten.drop (k * ch) := by
  induction F with
  | nil => intro k; simp
  | cons f fs ih =>
    intro k
    cases k with
    | zero => simp
    | succ k =>
      simp only [List.drop_succ_cons, List.flatten_cons]
      rw [ih (fun g hg => h g (by simp [hg])) k]
      have hf : f.length = ch := h f (by simp)
      have h2 : (k + 1) * ch = k * ch + ch := by ring
      rw [List.drop_append_eq_append_drop, hf,
        show (k + 1) * ch - ch = k * ch from by omega,
        List.drop_eq_nil_of_le (show f.length ≤ (k + 1) * ch from by omega),
        List.nil_append]

lemma flatten_replicate_zero (n ch : Nat) :
    (List.replicate n (List.replicate ch (0:Int))).flatten = List.replicate (n * ch) 0 := by
  induction n with
  | zero => simp
  | succ n ih =>
    rw [List.replicate_succ, List.flatten_cons, ih]
    rw [show (n+1) * ch = ch + n * ch by ring]
    rw [List.replicate_add]

/-- With a conforming producer holding at least the needed frames, the
    leading-padding loop succeeds and its effect is chunking-independent:
    the delivered frames land contiguously just past the window start, and
    exactly the needed number of frames is consumed. -/
lemma leadingLoop_ref {ι : Type} (needed : Nat) :
    ∀ (fuel : Nat) (r : ClownResampler_HighLevel_State)
      (inCb : ι → Nat → List (List Int) × ι) (rep : ι → List (List Int)) (s : ι),
    conformingProducer inCb rep →
    r.leading_padding_frames_needed = needed →
    needed ≤ (rep s).length →
    needed + 1 ≤ fuel →
    highLevelBufferInvariant r →
    (∀ f ∈ rep s, f.length = r.low_level.channels) →
    ∃ s', highLevelLeadingLoop fuel r inCb s =
        some ({ r with
          input_buffer := writeSamples r.input_buffer
            (r.maximum_integer_stretched_kernel_radius * r.low_level.channels * 2 -
              needed * r.low_level.channels)
            ((rep s).take needed).flatten
          leading_padding_frames_needed := 0 }, s', false) ∧
      rep s' = (rep s).drop needed := by
  induction needed using Nat.strong_induction_on with
  | _ needed ih =>
    intro fuel r inCb rep s hconf hn hlen hfuel hinv hshape
    rcases fuel with _ | f
    · omega
    rw [highLevelLeadingLoop]
    by_cases h0 : r.leading_padding_frames_needed = 0
    · rw [if_pos h0]
      have hn0 : needed = 0 := by omega
      subst hn0
      refine ⟨s, ?_, by simp⟩
      obtain ⟨ll, buf, st, en, mx, lead, tr⟩ := r
      simp only at h0
      subst h0
      simp only [List.take_zero, List.flatten_nil, writeSamples_nil]
    · rw [if_neg h0]
      simp only
      obtain ⟨htake, hle, hdrop, hprog⟩ := hconf s r.leading_padding_frames_needed
      have hrepne : rep s ≠ [] := by
        intro hrep
        rw [hrep] at hlen
        simp at hlen
        omega
      have hne : (inCb s r.leading_padding_frames_needed).1 ≠ [] :=
        hprog (by omega) hrepne
      have hkpos : 1 ≤ (inCb s r.leading_padding_frames_needed).1.length :=
        List.length_pos.mpr hne
      have hkle : (inCb s r.leading_padding_frames_needed).1.length ≤ needed := by
        rw [← hn]
        exact hle
      have hz : ¬ (inCb s r.leading_padding_frames_needed).1.length = 0 := by omega
      rw [if_neg hz]
      have hshape1 : ∀ f ∈ (inCb s r.leading_padding_frames_needed).1,
          f.length = r.low_level.channels := by
        intro f hf
        rw [htake] at hf
        exact hshape f (List.mem_of_mem_take hf)
      have hflat1 : (inCb s r.leading_padding_frames_needed).1.flatten.length =
          (inCb s r.leading_padding_frames_needed).1.length * r.low_level.channels :=
        flatten_length_of_forall _ _ hshape1
      obtain ⟨hw1, hw2, hw3, hw4, hw5, hw6⟩ := hinv
      have hmul1 : r.leading_padding_frames_needed * r.low_level.channels ≤
          r.maximum_integer_stretched_kernel_radius * r.low_level.channels :=
        Nat.mul_le_mul_right _ hw5
      have hmul2 : (inCb s r.leading_padding_frames_needed).1.length *
          r.low_level.channels ≤
          r.leading_padding_frames_needed * r.low_level.channels :=
        Nat.mul_le_mul_right _ hle
      have hprodeq : r.leading_padding_frames_needed * r.low_level.channels =
          needed * r.low_level.channels := by rw [hn]
      have hcap : inputBufferCapacity = 4096 := rfl
      rw [hcap] at hw3
      have hrec := ih
        (needed - (inCb s r.leading_padding_frames_needed).1.length)
        (by omega) f
        { r with
          input_buffer := writeSamples r.input_buffer
            (r.maximum_integer_stretched_kernel_radius * r.low_level.channels * 2 -
              r.leading_padding_frames_needed * r.low_level.channels)
            (inCb s r.leading_padding_frames_needed).1.flatten
          leading_padding_frames_needed := r.leading_padding_frames_needed -
            (inCb s r.leading_padding_frames_needed).1.length }
        inCb rep (inCb s r.leading_padding_frames_needed).2
        hconf
        (by dsimp only; omega)
        (by rw [hdrop]; simp only [List.length_drop]; omega)
        (by omega)
        (by
          refine ⟨hw1, hw2, hw3, hw4, by dsimp only; omega, ?_⟩
          dsimp only
          rw [writeSamples_length]
          · exact hw6
          · rw [hflat1, hw6, hcap]
            omega)
        (by
          intro fr hfr
          rw [hdrop] at hfr
          exact hshape fr (List.mem_of_mem_drop hfr))
      obtain ⟨s', hrun, hrep'⟩ := hrec
      have hoff12 : r.maximum_integer_stretched_kernel_radius * r.low_level.channels * 2 -
          r.leading_padding_frames_needed * r.low_level.channels =
          r.maximum_integer_stretched_kernel_radius * r.low_level.channels * 2 -
            needed * r.low_level.channels := by omega
      have hoffeq2 : r.maximum_integer_stretched_kernel_radius * r.low_level.channels * 2 -
          (needed - (inCb s r.leading_padding_frames_needed).1.length) *
            r.low_level.channels =
          (r.maximum_integer_stretched_kernel_radius * r.low_level.channels * 2 -
            needed * r.low_level.channels) +
            (inCb s r.leading_padding_frames_needed).1.flatten.length := by
        rw [hflat1]
        have hd := Nat.sub_mul needed
          (inCb s r.leading_padding_frames_needed).1.length r.low_level.channels
        omega
      have hdata : (inCb s r.leading_padding_frames_needed).1 ++
          (rep (inCb s r.leading_padding_frames_needed).2).take
            (needed - (inCb s r.leading_padding_frames_needed).1.length) =
          (rep s).take needed := by
        rw [hdrop]
        nth_rewrite 1 [htake]
        rw [← List.take_add]
        congr 1
        omega
      refine ⟨s', ?_, ?_⟩
      · rw [hrun]
        have hbuf : writeSamples (writeSamples r.input_buffer
            (r.maximum_integer_stretched_kernel_radius * r.low_level.channels * 2 -
              r.leading_padding_frames_needed * r.low_level.channels)
            (inCb s r.leading_padding_frames_needed).1.flatten)
            (r.maximum_integer_stretched_kernel_radius * r.low_level.channels * 2 -
              (needed - (inCb s r.leading_padding_frames_needed).1.length) *
                r.low_level.channels)
            ((rep (inCb s r.leading_padding_frames_needed).2).take
              (needed - (inCb s r.leading_padding_frames_needed).1.length)).flatten =
            writeSamples r.input_buffer
              (r.maximum_integer_stretched_kernel_radius * r.low_level.channels * 2 -
                needed * r.low_level.channels)
              ((rep s).take needed).flatten := by
          rw [hoff12, hoffeq2,
            writeSamples_append _ _ _ _ (by rw [hw6, hcap]; omega)]
          rw [← List.flatten_append, hdata]
        dsimp only
        rw [hbuf]
      · rw [hrep', hdrop, List.drop_drop]
        congr 1
        omega

/-- The leading-padding loop when the producer runs out before the deadzone
    is full: every remaining frame of the stream is written into the deadzone
    in one combined write, the loop reports end of input, the unfilled count
    stays in the state and the producer is left exhausted. -/
lemma leadingLoop_exhaust {ι : Type} (F : Nat) :
    ∀ (fuel : Nat) (r : ClownResampler_HighLevel_State)
      (inCb : ι → Nat → List (List Int) × ι) (rep : ι → List (List Int)) (s : ι),
    conformingProducer inCb rep →
    (rep s).length = F →
    F < r.leading_padding_frames_needed →
    F + 2 ≤ fuel →
    highLevelBufferInvariant r →
    (∀ f ∈ rep s, f.length = r.low_level.channels) →
    ∃ s', highLevelLeadingLoop fuel r inCb s =
        some ({ r with
          input_buffer := writeSamples r.input_buffer
            (r.maximum_integer_stretched_kernel_radius * r.low_level.channels * 2 -
              r.leading_padding_frames_needed * r.low_level.channels)
            (rep s).flatten
          leading_padding_frames_needed :=
            r.leading_padding_frames_needed - F }, s', true) ∧
      rep s' = [] := by
  induction F using Nat.strong_induction_on with
  | _ F ih =>
    intro fuel r inCb rep s hconf hF hFlt hfuel hinv hshape
    rcases fuel with _ | f
    · omega
    rw [highLevelLeadingLoop]
    have h0 : ¬ r.leading_padding_frames_needed = 0 := by omega
    rw [if_neg h0]
    simp only
    obtain ⟨htake, hle, hdrop, hprog⟩ := hconf s r.leading_padding_frames_needed
    by_cases hFnil : rep s = []
    · have hfr : (inCb s r.leading_padding_frames_needed).1 = [] := by
        rw [htake, hFnil, List.take_nil]
      have hz : (inCb s r.leading_padding_frames_needed).1.length = 0 := by
        rw [hfr]
        rfl
      rw [if_pos hz]
      have hF0 : F = 0 := by rw [← hF, hFnil]; rfl
      refine ⟨(inCb s r.leading_padding_frames_needed).2, ?_,
        by rw [hdrop, hz, List.drop_zero]; exact hFnil⟩
      rw [hFnil, hF0]
      simp only [List.flatten_nil, writeSamples_nil, Nat.sub_zero]
    · have hne : (inCb s r.leading_padding_frames_needed).1 ≠ [] :=
        hprog (by omega) hFnil
      have hkpos : 1 ≤ (inCb s r.leading_padding_frames_needed).1.length :=
        List.length_pos.mpr hne
      have hkleF : (inCb s r.leading_padding_frames_needed).1.length ≤ F := by
        have := congrArg List.length htake
        rw [List.length_take, hF] at this
        omega
      have hz : ¬ (inCb s r.leading_padding_frames_needed).1.length = 0 := by omega
      rw [if_neg hz]
      have hshape1 : ∀ f ∈ (inCb s r.leading_padding_frames_needed).1,
          f.length = r.low_level.channels := by
        intro f hf
        rw [htake] at hf
        exact hshape f (List.mem_of_mem_take hf)
      have hflat1 : (inCb s r.leading_padding_frames_needed).1.flatten.length =
          (inCb s r.leading_padding_frames_needed).1.length * r.low_level.channels :=
        flatten_length_of_forall _ _ hshape1
      obtain ⟨hw1, hw2, hw3, hw4, hw5, hw6⟩ := hinv
      have hmul1 : r.leading_padding_frames_needed * r.low_level.channels ≤
          r.maximum_integer_stretched_kernel_radius * r.low_level.channels :=
        Nat.mul_le_mul_right _ hw5
      have hmul2 : (inCb s r.leading_padding_frames_needed).1.length *
          r.low_level.channels ≤
          r.leading_padding_frames_needed * r.low_level.channels :=
        Nat.mul_le_mul_right _ hle
      have hcap : inputBufferCapacity = 4096 := rfl
      rw [hcap] at hw3
      have hrec := ih
        (F - (inCb s r.leading_padding_frames_needed).1.length)
        (by omega) f
        { r with
          input_buffer := writeSamples r.input_buffer
            (r.maximum_integer_stretched_kernel_radius * r.low_level.channels * 2 -
              r.leading_padding_frames_needed * r.low_level.channels)
            (inCb s r.leading_padding_frames_needed).1.flatten
          leading_padding_frames_needed := r.leading_padding_frames_needed -
            (inCb s r.leading_padding_frames_needed).1.length }
        inCb rep (inCb s r.leading_padding_frames_needed).2
        hconf
        (by rw [hdrop]; simp only [List.length_drop]; omega)
        (by dsimp only; omega)
        (by omega)
        (by
          refine ⟨hw1, hw2, hw3, hw4, by dsimp only; omega, ?_⟩
          dsimp only
          rw [writeSamples_length]
          · exact hw6
          · rw [hflat1, hw6, hcap]
            omega)
        (by
          intro fr hfr
          rw [hdrop] at hfr
          exact hshape fr (List.mem_of_mem_drop hfr))
      obtain ⟨s', hrun, hrep'⟩ := hrec
      refine ⟨s', ?_, hrep'⟩
      rw [hrun]
      have hleadeq : r.leading_padding_frames_needed -
          (inCb s r.leading_padding_frames_needed).1.length -
          (F - (inCb s r.leading_padding_frames_needed).1.length) =
          r.leading_padding_frames_needed - F := by omega
      have hoffeq2 : r.maximum_integer_stretched_kernel_radius * r.low_level.channels * 2 -
          (r.leading_padding_frames_needed -
            (inCb s r.leading_padding_frames_needed).1.length) * r.low_level.channels =
          (r.maximum_integer_stretched_kernel_radius * r.low_level.channels * 2 -
            r.leading_padding_frames_needed * r.low_level.channels) +
            (inCb s r.leading_padding_frames_needed).1.flatten.length := by
        rw [hflat1]
        have hd := Nat.sub_mul r.leading_padding_frames_needed
          (inCb s r.leading_padding_frames_needed).1.length r.low_level.channels
        omega
      have hdata : (inCb s r.leading_padding_frames_needed).1 ++
          rep (inCb s r.leading_padding_frames_needed).2 = rep s := by
        rw [hdrop]
        nth_rewrite 1 [htake]
        exact List.take_append_drop _ _
      have hbuf : writeSamples (writeSamples r.input_buffer
          (r.maximum_integer_stretched_kernel_radius * r.low_level.channels * 2 -
            r.leading_padding_frames_needed * r.low_level.channels)
          (inCb s r.leading_padding_frames_needed).1.flatten)
          (r.maximum_integer_stretched_kernel_radius * r.low_level.channels * 2 -
            (r.leading_padding_frames_needed -
              (inCb s r.leading_padding_frames_needed).1.length) * r.low_level.channels)
          (rep (inCb s r.leading_padding_frames_needed).2).flatten =
          writeSamples r.input_buffer
            (r.maximum_integer_stretched_kernel_radius * r.low_level.channels * 2 -
              r.leading_padding_frames_needed * r.low_level.channels)
            (rep s).flatten := by
        rw [hoffeq2, writeSamples_append _ _ _ _ (by rw [hw6, hcap]; omega)]
        rw [← List.flatten_append, hdata]
      dsimp only
      rw [hbuf, hleadeq]

/-- One round of the main loop body against the reference run: the batch in
    the window is exhausted, its trace is the prefix of the reference run,
    and the continuation takes over at the split reference run. -/
lemma mainStep_ref {ι σ : Type}
    (recur : ClownResampler_HighLevel_State → ι → σ →
      Option (ClownResampler_HighLevel_State × ι × σ × Bool))
    (lf : Nat) (r : ClownResampler_HighLevel_State) (table : Nat → Int)
    (outCb : σ → List Int → Bool × σ) (is : ι) (os : σ)
    (g : Nat → Int) (cf cfF Flen rfuel : Nat)
    (llR : ClownResampler_LowLevel_State) (osR : σ)
    (hcb : ∀ st x, (outCb st x).1 = true)
    (hcfg : llConfigOk r.low_level r.maximum_integer_stretched_kernel_radius)
    (hinv : highLevelBufferInvariant r)
    (hcont : bufContentInv r g cf)
    (hdvd : r.low_level.channels ∣ r.input_buffer_end - r.input_buffer_start)
    (hlf : 268435456 ≤ lf)
    (href : ClownResampler_LowLevel_Resample rfuel r.low_level table
      (fun idx => g (cf * r.low_level.channels + idx))
      ((r.input_buffer_end - r.input_buffer_start) / r.low_level.channels + Flen)
      outCb os = some (llR, 0, osR, true))
    (hrec : ∀ ll1 os1,
      llConfigOk ll1 r.maximum_integer_stretched_kernel_radius →
      ll1.channels = r.low_level.channels →
      ll1.increment = r.low_level.increment →
      ClownResampler_LowLevel_Resample rfuel ll1 table
        (fun idx => g ((cf + (r.input_buffer_end - r.input_buffer_start) /
          r.low_level.channels) * r.low_level.channels + idx)) Flen outCb os1 =
        some (llR, 0, osR, true) →
      highLevelBufferInvariant { r with
        low_level := ll1
        input_buffer_start := r.input_buffer_end - 0 * r.low_level.channels } →
      bufContentInv { r with
        low_level := ll1
        input_buffer_start := r.input_buffer_end - 0 * r.low_level.channels } g
        (cf + (r.input_buffer_end - r.input_buffer_start) / r.low_level.channels) →
      ∃ r' s', recur { r with
        low_level := ll1
        input_buffer_start := r.input_buffer_end - 0 * r.low_level.channels } is os1 =
        some (r', s', osR, true) ∧ mainRefPost r g cfF llR r') :
    ∃ r' s', highLevelMainStep recur (lf + 1) r table outCb is os =
      some (r', s', osR, true) ∧ mainRefPost r g cfF llR r' := by
  obtain ⟨hch1, hinc1, hpf0, hradmax, hmax1, hsr, hdelta⟩ := hcfg
  obtain ⟨hw1, hw2, hw3, hw4, hw5, hw6⟩ := hinv
  have hcap : inputBufferCapacity = 4096 := rfl
  have hT : (r.input_buffer_end - r.input_buffer_start) / r.low_level.channels ≤ 4096 := by
    calc (r.input_buffer_end - r.input_buffer_start) / r.low_level.channels ≤
        r.input_buffer_end - r.input_buffer_start := Nat.div_le_self _ _
      _ ≤ 4096 := by rw [hcap] at hw3; omega
  obtain ⟨ll1, os1, hbatch, hpf1⟩ := lowLevel_terminates lf r.low_level table
    (fun idx => r.input_buffer.getD (r.input_buffer_start -
      r.low_level.integer_stretched_kernel_radius * r.low_level.channels + idx) 0)
    ((r.input_buffer_end - r.input_buffer_start) / r.low_level.channels)
    outCb os hinc1 hpf0 hcb
    (by
      have := Nat.mul_le_mul_right 65536 hT
      omega)
  have hcfgs := lowLevel_config_preserved _ _ _ _ _ _ _ _ _ _ _ hbatch
  have hTch : (r.input_buffer_end - r.input_buffer_start) / r.low_level.channels *
      r.low_level.channels = r.input_buffer_end - r.input_buffer_start :=
    Nat.div_mul_cancel hdvd
  have hagree : ∀ idx, idx < ((r.input_buffer_end - r.input_buffer_start) /
      r.low_level.channels + 2 * r.low_level.integer_stretched_kernel_radius) *
        r.low_level.channels →
      (fun idx => r.input_buffer.getD (r.input_buffer_start -
        r.low_level.integer_stretched_kernel_radius * r.low_level.channels + idx) 0) idx =
      (fun idx => g (cf * r.low_level.channels + idx)) idx := by
    intro idx hidx
    have hMeq : r.low_level.integer_stretched_kernel_radius * r.low_level.channels =
        r.maximum_integer_stretched_kernel_radius * r.low_level.channels := by
      rw [hradmax]
    have hexp : ((r.input_buffer_end - r.input_buffer_start) / r.low_level.channels +
        2 * r.low_level.integer_stretched_kernel_radius) * r.low_level.channels =
        (r.input_buffer_end - r.input_buffer_start) / r.low_level.channels *
          r.low_level.channels +
        2 * (r.low_level.integer_stretched_kernel_radius * r.low_level.channels) := by
      ring
    have hbound : idx < (r.input_buffer_end - r.input_buffer_start) +
        2 * (r.maximum_integer_stretched_kernel_radius * r.low_level.channels) := by
      rw [hexp, hTch, hMeq] at hidx
      exact hidx
    have := hcont idx hbound
    simp only
    rw [hMeq]
    exact this
  have hbatchG : ClownResampler_LowLevel_Resample (lf + 1) r.low_level table
      (fun idx => g (cf * r.low_level.channels + idx))
      ((r.input_buffer_end - r.input_buffer_start) / r.low_level.channels)
      outCb os = some (ll1, 0, os1, true) := by
    rw [← lowLevel_run_congr (lf + 1) r.low_level table _ _ _ outCb os hpf0 hsr hdelta
      (by omega) hagree]
    exact hbatch
  have hrest := lowLevel_split (lf + 1) rfuel r.low_level table
    (fun idx => g (cf * r.low_level.channels + idx))
    ((r.input_buffer_end - r.input_buffer_start) / r.low_level.channels) Flen
    outCb os ll1 os1 (llR, 0, osR, true) hbatchG href
  have hfneq : (fun idx => g (cf * r.low_level.channels +
      ((r.input_buffer_end - r.input_buffer_start) / r.low_level.channels *
        r.low_level.channels + idx))) =
      (fun idx => g ((cf + (r.input_buffer_end - r.input_buffer_start) /
        r.low_level.channels) * r.low_level.channels + idx)) := by
    funext idx
    congr 1
    ring
  rw [hfneq] at hrest
  have hinv2 := post_lowlevel_invariant (lf + 1) r table outCb os ll1 0 os1 true
    ⟨hw1, hw2, hw3, hw4, hw5, hw6⟩ hbatch
  have hcont2 : bufContentInv { r with
      low_level := ll1
      input_buffer_start := r.input_buffer_end - 0 * r.low_level.channels } g
      (cf + (r.input_buffer_end - r.input_buffer_start) / r.low_level.channels) := by
    intro k hk
    simp only [bufContentInv] at hk ⊢
    rw [hcfgs.1] at hk ⊢
    have hidx : r.input_buffer_end - 0 * r.low_level.channels -
        r.maximum_integer_stretched_kernel_radius * r.low_level.channels + k =
        r.input_buffer_start -
          r.maximum_integer_stretched_kernel_radius * r.low_level.channels +
          ((r.input_buffer_end - r.input_buffer_start) + k) := by
      omega
    have hk2 : (r.input_buffer_end - r.input_buffer_start) + k <
        (r.input_buffer_end - r.input_buffer_start) +
        2 * (r.maximum_integer_stretched_kernel_radius * r.low_level.channels) := by
      omega
    have := hcont _ hk2
    rw [hidx]
    rw [this]
    congr 1
    have : (cf + (r.input_buffer_end - r.input_buffer_start) / r.low_level.channels) *
        r.low_level.channels = cf * r.low_level.channels +
        (r.input_buffer_end - r.input_buffer_start) / r.low_level.channels *
          r.low_level.channels := by ring
    rw [this, hTch]
    omega
  obtain ⟨r', s', hrecrun, hpost⟩ := hrec ll1 os1
    ⟨by rw [hcfgs.1]; exact hch1, by rw [hcfgs.2.1]; exact hinc1, hpf1,
      by rw [hcfgs.2.2.2.2.1]; exact hradmax, hmax1,
      by rw [hcfgs.2.2.2.1, hcfgs.2.2.2.2.1]; exact hsr,
      by rw [hcfgs.2.2.2.2.2.1, hcfgs.2.2.2.2.1, hcfgs.2.2.2.1]; exact hdelta⟩
    hcfgs.1 hcfgs.2.1 hrest hinv2 hcont2
  refine ⟨r', s', ?_, hpost⟩
  simp only [highLevelMainStep]
  rw [hbatch]
  exact hrecrun

/-- Cancellation of a whole number of frames against the channel count. -/
lemma mul_div_cancel_ch (K ch : Nat) (h : 0 < ch) : K * ch / ch = K := by
  rw [Nat.mul_div_assoc K (dvd_refl ch), Nat.div_self h, Nat.mul_one]

/-- The main loop of ClownResampler_HighLevel_Resample, fed by any conforming
    producer, reproduces exactly the reference low-level run over the global
    stream: same output trace, same final engine state. -/
lemma mainLoop_ref {ι σ : Type} (ofuel : Nat) :
    ∀ (lf : Nat) (F : List (List Int)) (rep : ι → List (List Int))
      (inCb : ι → Nat → List (List Int) × ι) (r : ClownResampler_HighLevel_State)
      (table : Nat → Int) (outCb : σ → List Int → Bool × σ) (s : ι) (os : σ)
      (g : Nat → Int) (cf rfuel : Nat) (llR : ClownResampler_LowLevel_State) (osR : σ),
    conformingProducer inCb rep →
    rep s = F →
    (∀ f ∈ F, f.length = r.low_level.channels) →
    (∀ st x, (outCb st x).1 = true) →
    llConfigOk r.low_level r.maximum_integer_stretched_kernel_radius →
    highLevelBufferInvariant r →
    bufContentInv r g cf →
    r.low_level.channels ∣ r.input_buffer_end - r.input_buffer_start →
    (∀ i, i < F.flatten.length → F.flatten.getD i 0 =
      g (cf * r.low_level.channels + (r.input_buffer_end - r.input_buffer_start) +
        2 * (r.maximum_integer_stretched_kernel_radius * r.low_level.channels) + i)) →
    2 * (r.maximum_integer_stretched_kernel_radius * r.low_level.channels) +
      r.low_level.channels ≤ inputBufferCapacity →
    268435456 ≤ lf →
    ClownResampler_LowLevel_Resample rfuel r.low_level table
      (fun idx => g (cf * r.low_level.channels + idx))
      ((r.input_buffer_end - r.input_buffer_start) / r.low_level.channels + F.length)
      outCb os = some (llR, 0, osR, true) →
    F.length + 2 + (if r.input_buffer_start = r.input_buffer_end then 0 else 1) ≤ ofuel →
    ∃ r' s', highLevelMainLoop ofuel (lf + 1) r table inCb outCb s os =
      some (r', s', osR, true) ∧
      mainRefPost r g (cf + ((r.input_buffer_end - r.input_buffer_start) /
        r.low_level.channels + F.length)) llR r' := by
  induction ofuel with
  | zero =>
    intro lf F rep inCb r table outCb s os g cf rfuel llR osR
      hconf hrep hshape hcb hcfg hinv hcont hdvd hfut hroom hlf href hof
    exfalso
    have := Nat.le_trans (Nat.le_add_right (F.length + 2) _) hof
    omega
  | succ of ih =>
    intro lf F rep inCb r table outCb s os g cf rfuel llR osR
      hconf hrep hshape hcb hcfg hinv hcont hdvd hfut hroom hlf href hof
    obtain ⟨hch1, hinc1, hpf0, hradmax, hmax1, hsr, hdelta⟩ := hcfg
    have hchpos : 0 < r.low_level.channels := hch1
    obtain ⟨hw1, hw2, hw3, hw4, hw5, hw6⟩ := hinv
    have hcap : inputBufferCapacity = 4096 := rfl
    have hTch : (r.input_buffer_end - r.input_buffer_start) / r.low_level.channels *
        r.low_level.channels = r.input_buffer_end - r.input_buffer_start :=
      Nat.div_mul_cancel hdvd
    rw [highLevelMainLoop]
    by_cases hE : r.input_buffer_start = r.input_buffer_end
    · rw [if_pos hE] at hof ⊢
      have h0 : r.input_buffer_end - r.input_buffer_start = 0 := by omega
      have hdiv0 : (r.input_buffer_end - r.input_buffer_start) / r.low_level.channels
          = 0 := by rw [h0, Nat.zero_div]
      obtain ⟨htake, hle, hdrop, hprog⟩ := hconf s
        ((inputBufferCapacity - r.maximum_integer_stretched_kernel_radius *
          r.low_level.channels * 2) / r.low_level.channels)
      have hklenF : (inCb s ((inputBufferCapacity -
          r.maximum_integer_stretched_kernel_radius * r.low_level.channels * 2) /
            r.low_level.channels)).1.length ≤ F.length := by
        have := congrArg List.length htake
        rw [List.length_take, hrep] at this
        omega
      by_cases hFnil : F = []
      · have hfr1nil : (inCb s ((inputBufferCapacity -
            r.maximum_integer_stretched_kernel_radius * r.low_level.channels * 2) /
              r.low_level.channels)).1 = [] := by
          rw [htake, hrep, hFnil, List.take_nil]
        have hlen0 : (inCb s ((inputBufferCapacity -
            r.maximum_integer_stretched_kernel_radius * r.low_level.channels * 2) /
              r.low_level.channels)).1.length = 0 := by
          rw [hfr1nil]
          rfl
        rw [if_pos hlen0]
        subst hFnil
        have hT0 : (r.input_buffer_end - r.input_buffer_start) / r.low_level.channels
            + ([] : List (List Int)).length = 0 := by
          rw [hdiv0]
          rfl
        rw [hT0] at href
        rcases rfuel with _ | rf
        · simp [ClownResampler_LowLevel_Resample] at href
        rw [ClownResampler_LowLevel_Resample, if_pos (Nat.zero_le _)] at href
        simp only [Option.some.injEq, Prod.mk.injEq, true_and, and_true] at href
        obtain ⟨hllR, hosR⟩ := href
        have hfl0 : (inCb s ((inputBufferCapacity -
            r.maximum_integer_stretched_kernel_radius * r.low_level.channels * 2) /
              r.low_level.channels)).1.flatten = [] := by
          rw [hfr1nil]
          rfl
        have hllRe : llR = r.low_level := by
          rw [← hllR, Nat.sub_zero]
        refine ⟨_, (inCb s ((inputBufferCapacity -
          r.maximum_integer_stretched_kernel_radius * r.low_level.channels * 2) /
            r.low_level.channels)).2, by rw [hosR], ?_, ?_, ?_, ?_, ?_, ?_, ?_⟩
        · dsimp only
          rw [hllRe]
        · dsimp only
          rw [hlen0]
          omega
        · rfl
        · rfl
        · rfl
        · exact refill_invariant r _ ⟨hw1, hw2, hw3, hw4, hw5, hw6⟩
            (by rw [hfl0, hlen0]; simp) (by rw [hlen0]; exact Nat.zero_le _)
        · intro k hk
          dsimp only at hk ⊢
          rw [hlen0] at hk
          rw [hfl0, writeSamples_nil]
          have hk2 : k < r.maximum_integer_stretched_kernel_radius *
              r.low_level.channels * 2 := by omega
          have hblen : r.input_buffer.length = 4096 := by rw [hw6, hcap]
          have hmoved : ((r.input_buffer.drop (r.input_buffer_end -
              r.maximum_integer_stretched_kernel_radius * r.low_level.channels)).take
                (r.maximum_integer_stretched_kernel_radius * r.low_level.channels * 2)).length =
              r.maximum_integer_stretched_kernel_radius * r.low_level.channels * 2 := by
            rw [List.length_take, List.length_drop, hblen]
            rw [hcap] at hw3
            omega
          have hidx0 : r.maximum_integer_stretched_kernel_radius * r.low_level.channels -
              r.maximum_integer_stretched_kernel_radius * r.low_level.channels + k = k := by
            omega
          rw [hidx0]
          rw [writeSamples_getD_mid _ _ _ _ (Nat.zero_le _) (Nat.zero_le _)
            (by rw [hmoved]; omega)]
          rw [Nat.sub_zero, getD_take _ _ _ hk2, getD_drop]
          have hidx1 : r.input_buffer_end - r.maximum_integer_stretched_kernel_radius *
              r.low_level.channels + k =
              r.input_buffer_start - r.maximum_integer_stretched_kernel_radius *
                r.low_level.channels +
              ((r.input_buffer_end - r.input_buffer_start) + k) := by
            omega
          rw [hidx1, hcont _ (by omega)]
          congr 1
          rw [hdiv0]
          simp only [List.length_nil, Nat.add_zero]
          omega
      · have hreq1 : 1 ≤ (inputBufferCapacity -
            r.maximum_integer_stretched_kernel_radius * r.low_level.channels * 2) /
              r.low_level.channels := by
          rw [Nat.one_le_div_iff hchpos, hcap]
          omega
        have hfr1ne : (inCb s ((inputBufferCapacity -
            r.maximum_integer_stretched_kernel_radius * r.low_level.channels * 2) /
              r.low_level.channels)).1 ≠ [] :=
          hprog hreq1 (by rw [hrep]; exact hFnil)
        have hklpos : 1 ≤ (inCb s ((inputBufferCapacity -
            r.maximum_integer_stretched_kernel_radius * r.low_level.channels * 2) /
              r.low_level.channels)).1.length :=
          List.length_pos.mpr hfr1ne
        rw [if_neg (by omega)]
        rcases hfr : inCb s ((inputBufferCapacity -
          r.maximum_integer_stretched_kernel_radius * r.low_level.channels * 2) /
            r.low_level.channels) with ⟨fr1, s2⟩
        rw [hfr] at htake hle hdrop hklenF hklpos
        dsimp only at htake hle hdrop hklenF hklpos ⊢
        have hshape1 : ∀ f ∈ fr1, f.length = r.low_level.channels := by
          intro f hf
          rw [htake] at hf
          refine hshape f ?_
          rw [← hrep]
          exact List.mem_of_mem_take hf
        have hflat1 : fr1.flatten.length = fr1.length * r.low_level.channels :=
          flatten_length_of_forall _ _ hshape1
        have hflatF : F.flatten.length = F.length * r.low_level.channels :=
          flatten_length_of_forall _ _ hshape
        have hKchF : fr1.length * r.low_level.channels ≤
            F.length * r.low_level.channels :=
          Nat.mul_le_mul_right _ hklenF
        have hblen : r.input_buffer.length = 4096 := by rw [hw6, hcap]
        have hcap3 : r.maximum_integer_stretched_kernel_radius * r.low_level.channels *
            2 ≤ 4096 := by
          rw [hcap] at hw3
          omega
        have hmoved : ((r.input_buffer.drop (r.input_buffer_end -
            r.maximum_integer_stretched_kernel_radius * r.low_level.channels)).take
              (r.maximum_integer_stretched_kernel_radius * r.low_level.channels * 2)).length =
            r.maximum_integer_stretched_kernel_radius * r.low_level.channels * 2 := by
          rw [List.length_take, List.length_drop, hblen]
          rw [hcap] at hw3
          omega
        have hb1len : (writeSamples r.input_buffer 0
            ((r.input_buffer.drop (r.input_buffer_end -
              r.maximum_integer_stretched_kernel_radius * r.low_level.channels)).take
                (r.maximum_integer_stretched_kernel_radius * r.low_level.channels * 2))).length =
            r.input_buffer.length := by
          rw [writeSamples_length]
          rw [hmoved, hblen]
          omega
        have hdivK : (r.maximum_integer_stretched_kernel_radius * r.low_level.channels +
            fr1.length * r.low_level.channels -
            r.maximum_integer_stretched_kernel_radius * r.low_level.channels) /
              r.low_level.channels = fr1.length := by
          have h1 : r.maximum_integer_stretched_kernel_radius * r.low_level.channels +
              fr1.length * r.low_level.channels -
              r.maximum_integer_stretched_kernel_radius * r.low_level.channels =
              fr1.length * r.low_level.channels := by omega
          rw [h1, mul_div_cancel_ch _ _ hchpos]
        have HINV := refill_invariant r fr1 ⟨hw1, hw2, hw3, hw4, hw5, hw6⟩ hflat1 hle
        have HCONT : bufContentInv { r with
            input_buffer := writeSamples (writeSamples r.input_buffer 0
              ((r.input_buffer.drop (r.input_buffer_end -
                r.maximum_integer_stretched_kernel_radius * r.low_level.channels)).take
                  (r.maximum_integer_stretched_kernel_radius * r.low_level.channels * 2)))
              (r.maximum_integer_stretched_kernel_radius * r.low_level.channels * 2)
              fr1.flatten
            input_buffer_start :=
              r.maximum_integer_stretched_kernel_radius * r.low_level.channels
            input_buffer_end :=
              r.maximum_integer_stretched_kernel_radius * r.low_level.channels +
                fr1.length * r.low_level.channels } g cf := by
          intro k hk
          dsimp only at hk ⊢
          have hidx0 : r.maximum_integer_stretched_kernel_radius * r.low_level.channels -
              r.maximum_integer_stretched_kernel_radius * r.low_level.channels + k = k := by
            omega
          rw [hidx0]
          have hklt : k < fr1.length * r.low_level.channels +
              2 * (r.maximum_integer_stretched_kernel_radius * r.low_level.channels) := by
            omega
          by_cases hksm : k < r.maximum_integer_stretched_kernel_radius *
              r.low_level.channels * 2
          · rw [writeSamples_getD_left _ _ _ _ (by rw [hb1len, hblen]; omega) hksm]
            rw [writeSamples_getD_mid _ _ _ _ (by rw [hblen]; omega) (Nat.zero_le _)
              (by rw [hmoved]; omega)]
            rw [Nat.sub_zero, getD_take _ _ _ hksm, getD_drop]
            have hidx1 : r.input_buffer_end - r.maximum_integer_stretched_kernel_radius *
                r.low_level.channels + k =
                r.input_buffer_start - r.maximum_integer_stretched_kernel_radius *
                  r.low_level.channels +
                ((r.input_buffer_end - r.input_buffer_start) + k) := by
              omega
            rw [hidx1, hcont _ (by omega)]
            congr 1
            omega
          · rw [writeSamples_getD_mid _ _ _ _ (by rw [hb1len, hblen]; omega)
              (by omega) (by rw [hflat1]; omega)]
            have htakeF := htake
            rw [hrep] at htakeF
            have hflatEq : fr1.flatten =
                F.flatten.take (fr1.length * r.low_level.channels) := by
              conv_lhs => rw [htakeF]
              rw [flatten_take F _ hshape fr1.length]
            rw [hflatEq]
            rw [getD_take _ _ _ (by omega :
              k - r.maximum_integer_stretched_kernel_radius * r.low_level.channels * 2 <
                fr1.length * r.low_level.channels)]
            rw [hfut (k - r.maximum_integer_stretched_kernel_radius *
              r.low_level.channels * 2) (by rw [hflatF]; omega)]
            congr 1
            omega
        have hTeq : (r.maximum_integer_stretched_kernel_radius * r.low_level.channels +
            fr1.length * r.low_level.channels -
            r.maximum_integer_stretched_kernel_radius * r.low_level.channels) /
              r.low_level.channels + (F.length - fr1.length) =
            (r.input_buffer_end - r.input_buffer_start) / r.low_level.channels +
              F.length := by
          rw [hdivK, hdiv0]
          omega
        have HREF : ClownResampler_LowLevel_Resample rfuel r.low_level table
            (fun idx => g (cf * r.low_level.channels + idx))
            ((r.maximum_integer_stretched_kernel_radius * r.low_level.channels +
              fr1.length * r.low_level.channels -
              r.maximum_integer_stretched_kernel_radius * r.low_level.channels) /
                r.low_level.channels + (F.length - fr1.length)) outCb os =
            some (llR, 0, osR, true) := by
          rw [hTeq]
          exact href
        obtain ⟨r', s', hstep, hpost⟩ := mainStep_ref
          (fun r2 is2 os2 => highLevelMainLoop of (lf + 1) r2 table inCb outCb is2 os2)
          lf
          { r with
            input_buffer := writeSamples (writeSamples r.input_buffer 0
              ((r.input_buffer.drop (r.input_buffer_end -
                r.maximum_integer_stretched_kernel_radius * r.low_level.channels)).take
                  (r.maximum_integer_stretched_kernel_radius * r.low_level.channels * 2)))
              (r.maximum_integer_stretched_kernel_radius * r.low_level.channels * 2)
              fr1.flatten
            input_buffer_start :=
              r.maximum_integer_stretched_kernel_radius * r.low_level.channels
            input_buffer_end :=
              r.maximum_integer_stretched_kernel_radius * r.low_level.channels +
                fr1.length * r.low_level.channels }
          table outCb s2 os g cf
          (cf + ((r.input_buffer_end - r.input_buffer_start) / r.low_level.channels +
            F.length))
          (F.length - fr1.length) rfuel llR osR hcb
          ⟨hch1, hinc1, hpf0, hradmax, hmax1, hsr, hdelta⟩
          HINV HCONT
          (by
            dsimp only
            have h1 : r.maximum_integer_stretched_kernel_radius * r.low_level.channels +
                fr1.length * r.low_level.channels -
                r.maximum_integer_stretched_kernel_radius * r.low_level.channels =
                fr1.length * r.low_level.channels := by omega
            rw [h1]
            exact dvd_mul_left _ _)
          hlf HREF
          (by
            intro ll1 os1 hcfg1 hcheq hinceq hrun hinv1 hcont1
            dsimp only at hrun hcont1 hcheq hinceq ⊢
            rw [hdivK] at hrun hcont1
            have hrefIH : ClownResampler_LowLevel_Resample rfuel ll1 table
                (fun idx => g ((cf + fr1.length) * ll1.channels + idx))
                ((r.maximum_integer_stretched_kernel_radius * r.low_level.channels +
                  fr1.length * r.low_level.channels -
                  (r.maximum_integer_stretched_kernel_radius * r.low_level.channels +
                    fr1.length * r.low_level.channels - 0 * r.low_level.channels)) /
                    ll1.channels + (F.drop fr1.length).length) outCb os1 =
                some (llR, 0, osR, true) := by
              have hz2 : (r.maximum_integer_stretched_kernel_radius *
                  r.low_level.channels + fr1.length * r.low_level.channels -
                  (r.maximum_integer_stretched_kernel_radius * r.low_level.channels +
                    fr1.length * r.low_level.channels - 0 * r.low_level.channels)) /
                    ll1.channels = 0 := by
                rw [Nat.zero_mul, Nat.sub_zero, Nat.sub_self, Nat.zero_div]
              rw [hz2, List.length_drop, Nat.zero_add, hcheq]
              exact hrun
            obtain ⟨r', s', hml, hpost2⟩ := ih lf (F.drop fr1.length) rep inCb
              { low_level := ll1
                input_buffer := writeSamples (writeSamples r.input_buffer 0
                  ((r.input_buffer.drop (r.input_buffer_end -
                    r.maximum_integer_stretched_kernel_radius * r.low_level.channels)).take
                      (r.maximum_integer_stretched_kernel_radius * r.low_level.channels * 2)))
                  (r.maximum_integer_stretched_kernel_radius * r.low_level.channels * 2)
                  fr1.flatten
                input_buffer_start :=
                  r.maximum_integer_stretched_kernel_radius * r.low_level.channels +
                    fr1.length * r.low_level.channels - 0 * r.low_level.channels
                input_buffer_end :=
                  r.maximum_integer_stretched_kernel_radius * r.low_level.channels +
                    fr1.length * r.low_level.channels
                maximum_integer_stretched_kernel_radius :=
                  r.maximum_integer_stretched_kernel_radius
                leading_padding_frames_needed := r.leading_padding_frames_needed
                trailing_padding_frames_remaining :=
                  r.trailing_padding_frames_remaining }
              table outCb s2 os1 g (cf + fr1.length) rfuel llR osR hconf
              (by rw [hdrop, hrep])
              (by
                intro f hf
                dsimp only
                rw [hcheq]
                exact hshape f (List.mem_of_mem_drop hf))
              hcb hcfg1 hinv1 hcont1
              (by
                dsimp only
                rw [Nat.zero_mul, Nat.sub_zero, Nat.sub_self]
                exact dvd_zero _)
              (by
                intro i hi
                dsimp only at hi ⊢
                rw [flatten_drop F _ hshape fr1.length] at hi ⊢
                rw [getD_drop]
                rw [List.length_drop] at hi
                rw [hfut (fr1.length * r.low_level.channels + i) (by omega)]
                congr 1
                rw [hcheq]
                have hadd := Nat.add_mul cf fr1.length r.low_level.channels
                omega)
              (by
                dsimp only
                rw [hcheq]
                exact hroom)
              hlf hrefIH
              (by
                dsimp only
                rw [List.length_drop, if_pos (show
                  r.maximum_integer_stretched_kernel_radius * r.low_level.channels +
                    fr1.length * r.low_level.channels - 0 * r.low_level.channels =
                  r.maximum_integer_stretched_kernel_radius * r.low_level.channels +
                    fr1.length * r.low_level.channels from by omega)]
                omega)
            obtain ⟨p1, p2, p3, p4, p5, p6, p7⟩ := hpost2
            refine ⟨r', s', hml, p1, p2, p3, p4, p5, p6, ?_⟩
            dsimp only at p7
            rw [Nat.zero_mul, Nat.sub_zero, Nat.sub_self, Nat.zero_div,
              List.length_drop, Nat.zero_add] at p7
            rw [hdiv0, Nat.zero_add]
            have hfin : cf + fr1.length + (F.length - fr1.length) =
                cf + F.length := by omega
            rw [hfin] at p7
            exact p7)
        exact ⟨r', s', hstep, hpost⟩
    · rw [if_neg hE] at hof ⊢
      obtain ⟨r', s', hstep, hpost⟩ := mainStep_ref
        (fun r2 is2 os2 => highLevelMainLoop of (lf + 1) r2 table inCb outCb is2 os2)
        lf r table outCb s os g cf
        (cf + ((r.input_buffer_end - r.input_buffer_start) / r.low_level.channels +
          F.length))
        F.length rfuel llR osR hcb
        ⟨hch1, hinc1, hpf0, hradmax, hmax1, hsr, hdelta⟩
        ⟨hw1, hw2, hw3, hw4, hw5, hw6⟩ hcont hdvd hlf href
        (by
          intro ll1 os1 hcfg1 hcheq hinceq hrun hinv1 hcont1
          dsimp only at hrun hcont1 hcheq hinceq ⊢
          have hrefIH : ClownResampler_LowLevel_Resample rfuel ll1 table
              (fun idx => g ((cf + (r.input_buffer_end - r.input_buffer_start) /
                r.low_level.channels) * ll1.channels + idx))
              ((r.input_buffer_end - (r.input_buffer_end - 0 * r.low_level.channels)) /
                ll1.channels + F.length) outCb os1 =
              some (llR, 0, osR, true) := by
            have hz2 : (r.input_buffer_end - (r.input_buffer_end -
                0 * r.low_level.channels)) / ll1.channels = 0 := by
              rw [Nat.zero_mul, Nat.sub_zero, Nat.sub_self, Nat.zero_div]
            rw [hz2, Nat.zero_add, hcheq]
            exact hrun
          obtain ⟨r', s', hml, hpost2⟩ := ih lf F rep inCb
            { low_level := ll1
              input_buffer := r.input_buffer
              input_buffer_start := r.input_buffer_end - 0 * r.low_level.channels
              input_buffer_end := r.input_buffer_end
              maximum_integer_stretched_kernel_radius :=
                r.maximum_integer_stretched_kernel_radius
              leading_padding_frames_needed := r.leading_padding_frames_needed
              trailing_padding_frames_remaining :=
                r.trailing_padding_frames_remaining }
            table outCb s os1 g
            (cf + (r.input_buffer_end - r.input_buffer_start) / r.low_level.channels)
            rfuel llR osR hconf hrep
            (by
              intro f hf
              dsimp only
              rw [hcheq]
              exact hshape f hf)
            hcb hcfg1 hinv1 hcont1
            (by
              dsimp only
              rw [Nat.zero_mul, Nat.sub_zero, Nat.sub_self]
              exact dvd_zero _)
            (by
              intro i hi
              dsimp only at hi ⊢
              rw [hfut i hi]
              congr 1
              rw [hcheq]
              have hadd := Nat.add_mul cf
                ((r.input_buffer_end - r.input_buffer_start) / r.low_level.channels)
                r.low_level.channels
              omega)
            (by
              dsimp only
              rw [hcheq]
              exact hroom)
            hlf hrefIH
            (by
              dsimp only
              rw [if_pos (show r.input_buffer_end - 0 * r.low_level.channels =
                r.input_buffer_end from by omega)]
              omega)
          obtain ⟨p1, p2, p3, p4, p5, p6, p7⟩ := hpost2
          refine ⟨r', s', hml, p1, p2, p3, p4, p5, p6, ?_⟩
          dsimp only at p7
          rw [Nat.zero_mul, Nat.sub_zero, Nat.sub_self, Nat.zero_div,
            Nat.zero_add] at p7
          have hfin : cf + ((r.input_buffer_end - r.input_buffer_start) /
              r.low_level.channels + F.length) =
              cf + (r.input_buffer_end - r.input_buffer_start) /
                r.low_level.channels + F.length := by omega
          rw [hfin]
          exact p7)
      exact ⟨r', s', hstep, hpost⟩

/-- Any producer that answers each request with a take of its remaining
    frames, of positive size while frames remain, conforms. -/
lemma takeProducer_conforming (frames : List (List Int)) (f : Nat → Nat)
    (hf : ∀ n, f n ≤ n) (hf1 : ∀ n, 1 ≤ n → 1 ≤ f n) :
    conformingProducer
      (fun d n => ((frames.drop d).take (f n),
        d + ((frames.drop d).take (f n)).length))
      (fun d => frames.drop d) := by
  intro d n
  refine ⟨?_, ?_, ?_, ?_⟩
  · show (frames.drop d).take (f n) =
      (frames.drop d).take ((frames.drop d).take (f n)).length
    rw [List.length_take]
    rcases Nat.le_total (f n) (frames.drop d).length with h | h
    · rw [Nat.min_eq_left h]
    · rw [Nat.min_eq_right h, List.take_of_length_le h, List.take_length]
  · show ((frames.drop d).take (f n)).length ≤ n
    rw [List.length_take]
    have := hf n
    omega
  · show frames.drop (d + ((frames.drop d).take (f n)).length) =
      (frames.drop d).drop ((frames.drop d).take (f n)).length
    rw [List.drop_drop]
  · intro hn hne hcontra
    dsimp only at hcontra hne
    have h1 := hf1 n hn
    have h2 : (frames.drop d).length ≠ 0 := by
      intro h
      exact hne (List.eq_nil_of_length_eq_zero h)
    have h3 := congrArg List.length hcontra
    rw [List.length_take, List.length_nil] at h3
    omega

/-- The one-shot producer conforms. -/
lemma oneShot_conforming (frames : List (List Int)) :
    conformingProducer (oneShotProducer frames) (fun d => frames.drop d) :=
  takeProducer_conforming frames (fun n => n) (fun _ => Nat.le_refl _)
    (fun _ h => h)

/-- The one-frame-at-a-time producer conforms. -/
lemma singleFrame_conforming (frames : List (List Int)) :
    conformingProducer (singleFrameProducer frames) (fun d => frames.drop d) :=
  takeProducer_conforming frames (fun n => min n 1) (fun n => Nat.min_le_left _ _)
    (fun n h => by show 1 ≤ min n 1; omega)

/-- The internal padding callback conforms, with the trailing counter as its
    state representing that many remaining frames of silence. -/
lemma padding_conforming (chn : Nat) :
    conformingProducer (fun t n => ClownResampler_PaddingCallback chn t n)
      (fun t => List.replicate t (List.replicate chn 0)) := by
  intro t n
  refine ⟨?_, ?_, ?_, ?_⟩
  · show List.replicate (min n t) (List.replicate chn 0) =
      (List.replicate t (List.replicate chn 0)).take
        (List.replicate (min n t) (List.replicate chn 0)).length
    rw [List.length_replicate, List.take_replicate]
    congr 1
    omega
  · show (List.replicate (min n t) (List.replicate chn 0)).length ≤ n
    rw [List.length_replicate]
    omega
  · show List.replicate (t - min n t) (List.replicate chn 0) =
      (List.replicate t (List.replicate chn 0)).drop
        (List.replicate (min n t) (List.replicate chn 0)).length
    rw [List.length_replicate, List.drop_replicate]
  · intro hn hne hcontra
    simp only [ClownResampler_PaddingCallback] at hcontra
    have h2 : t ≠ 0 := by
      intro h
      rw [h] at hne
      exact hne rfl
    have h3 := congrArg List.length hcontra
    rw [List.length_replicate, List.length_nil] at h3
    omega

/-- A fixed-point value never exceeds the fixed-point form of its integer
    ceiling. -/
lemma ceil_fixed_ge (x : Nat) : x ≤ toFixedFromInteger (toIntegerFromFixedCeiling x) := by
  simp only [toFixedFromInteger, toIntegerFromFixedCeiling,
    CLOWNRESAMPLER_FIXED_POINT_FRACTIONAL_SIZE]
  omega

/-- The ceiling relationship the low-level Adjust establishes between the
    stretched kernel radius and its integer form. -/
lemma lowLevel_init_ceil (channels i o l : Nat) :
    (ClownResampler_LowLevel_Init channels i o l).stretched_kernel_radius ≤
      toFixedFromInteger
        (ClownResampler_LowLevel_Init channels i o l).integer_stretched_kernel_radius ∧
    (ClownResampler_LowLevel_Init channels i o l).stretched_kernel_radius_delta =
      toFixedFromInteger
        (ClownResampler_LowLevel_Init channels i o l).integer_stretched_kernel_radius -
        (ClownResampler_LowLevel_Init channels i o l).stretched_kernel_radius :=
  ⟨ceil_fixed_ge _, rfl⟩

/-- getD of a replicate inside its range. -/
lemma getD_replicate (n j : Nat) (a d : Int) (h : j < n) :
    (List.replicate n a).getD j d = a := by
  simp [List.getD_eq_getElem?_getD, List.getElem?_replicate, h]

/-- getD past the end of a list yields the default. -/
lemma getD_of_le (l : List Int) (n : Nat) (d : Int) (h : l.length ≤ n) :
    l.getD n d = d := by
  simp [List.getD_eq_getElem?_getD, List.getElem?_eq_none h]

/-- The full high-level pipeline (one input-exhausting Resample call followed
    by ResampleEnd) on a freshly initialised state, driven by any conforming
    producer, returns exactly the trace of the single reference low-level run
    over the zero-padded stream. -/
lemma pipeline_ref {ι σ : Type}
    (r0 : ClownResampler_HighLevel_State) (frames : List (List Int))
    (rep : ι → List (List Int)) (inCb : ι → Nat → List (List Int) × ι)
    (table : Nat → Int) (outCb : σ → List Int → Bool × σ) (s0 : ι) (os0 : σ)
    (rfuel : Nat) (llR : ClownResampler_LowLevel_State) (osR : σ)
    (hconf : conformingProducer inCb rep)
    (hrep : rep s0 = frames)
    (hshape : ∀ f ∈ frames, f.length = r0.low_level.channels)
    (hcb : ∀ st x, (outCb st x).1 = true)
    (hcfg : llConfigOk r0.low_level r0.maximum_integer_stretched_kernel_radius)
    (hinv : highLevelBufferInvariant r0)
    (hlead : r0.leading_padding_frames_needed =
      r0.maximum_integer_stretched_kernel_radius)
    (htrail : r0.trailing_padding_frames_remaining =
      r0.maximum_integer_stretched_kernel_radius)
    (hstart : r0.input_buffer_start =
      r0.maximum_integer_stretched_kernel_radius * r0.low_level.channels)
    (hend : r0.input_buffer_end =
      r0.maximum_integer_stretched_kernel_radius * r0.low_level.channels)
    (hzero : ∀ k, k < r0.maximum_integer_stretched_kernel_radius *
        r0.low_level.channels → r0.input_buffer.getD k 0 = 0)
    (hroom : 2 * (r0.maximum_integer_stretched_kernel_radius *
      r0.low_level.channels) + r0.low_level.channels ≤ inputBufferCapacity)
    (hlen : r0.maximum_integer_stretched_kernel_radius ≤ frames.length)
    (href : ClownResampler_LowLevel_Resample rfuel r0.low_level table
      (refFn frames.flatten (r0.maximum_integer_stretched_kernel_radius *
        r0.low_level.channels)) frames.length outCb os0 =
      some (llR, 0, osR, true)) :
    ∃ r1 s1 os1 r2,
      ClownResampler_HighLevel_Resample (frames.length + r0.maximum_integer_stretched_kernel_radius + 2) 268435457 r0 table
        inCb outCb s0 os0 = some (r1, s1, os1, true) ∧
      ClownResampler_HighLevel_ResampleEnd (frames.length + r0.maximum_integer_stretched_kernel_radius + 2) 268435457 r1 table
        outCb os1 = some (r2, osR, true) := by
  obtain ⟨hch1, hinc1, hpf0, hradmax, hmax1, hsr, hdelta⟩ := hcfg
  obtain ⟨hw1, hw2, hw3, hw4, hw5, hw6⟩ := hinv
  have hcap : inputBufferCapacity = 4096 := rfl
  have hchpos : 0 < r0.low_level.channels := hch1
  obtain ⟨sA, hleadrun, hrepA⟩ := leadingLoop_ref r0.leading_padding_frames_needed
    (frames.length + r0.maximum_integer_stretched_kernel_radius + 2) r0 inCb rep s0 hconf rfl
    (by rw [hrep, hlead]; exact hlen)
    (by rw [hlead]; omega)
    ⟨hw1, hw2, hw3, hw4, hw5, hw6⟩
    (by rw [hrep]; exact hshape)
  rw [hrep, hlead] at hrepA
  obtain ⟨llR1, osR1, hrun1, hpfR1⟩ := lowLevel_terminates (frames.length * 65536)
    r0.low_level table
    (fun idx => refFn frames.flatten (r0.maximum_integer_stretched_kernel_radius *
      r0.low_level.channels) (0 * r0.low_level.channels + idx))
    (frames.length - r0.maximum_integer_stretched_kernel_radius) outCb os0
    hinc1 hpf0 hcb
    (by
      have h1 := Nat.mul_le_mul_right 65536
        (Nat.sub_le frames.length r0.maximum_integer_stretched_kernel_radius)
      omega)
  have hcfgB := lowLevel_config_preserved _ _ _ _ _ _ _ _ _ _ _ hrun1
  have hfn0 : (fun idx => refFn frames.flatten
      (r0.maximum_integer_stretched_kernel_radius * r0.low_level.channels)
      (0 * r0.low_level.channels + idx)) =
      refFn frames.flatten (r0.maximum_integer_stretched_kernel_radius *
        r0.low_level.channels) := by
    funext idx
    rw [Nat.zero_mul, Nat.zero_add]
  have hrefG : ClownResampler_LowLevel_Resample rfuel r0.low_level table
      (fun idx => refFn frames.flatten (r0.maximum_integer_stretched_kernel_radius *
        r0.low_level.channels) (0 * r0.low_level.channels + idx))
      ((frames.length - r0.maximum_integer_stretched_kernel_radius) +
        r0.maximum_integer_stretched_kernel_radius) outCb os0 =
      some (llR, 0, osR, true) := by
    rw [hfn0, show (frames.length - r0.maximum_integer_stretched_kernel_radius) +
      r0.maximum_integer_stretched_kernel_radius = frames.length from by omega]
    exact href
  have hrest := lowLevel_split (frames.length * 65536 + 1) rfuel r0.low_level table
    (fun idx => refFn frames.flatten (r0.maximum_integer_stretched_kernel_radius *
      r0.low_level.channels) (0 * r0.low_level.channels + idx))
    (frames.length - r0.maximum_integer_stretched_kernel_radius)
    r0.maximum_integer_stretched_kernel_radius outCb os0 llR1 osR1
    (llR, 0, osR, true) hrun1 hrefG
  have hshapeTake : ∀ f ∈ frames.take r0.maximum_integer_stretched_kernel_radius,
      f.length = r0.low_level.channels :=
    fun f hf => hshape f (List.mem_of_mem_take hf)
  have hdataAlen : ((frames.take r0.maximum_integer_stretched_kernel_radius).flatten).length =
      r0.maximum_integer_stretched_kernel_radius * r0.low_level.channels := by
    rw [flatten_length_of_forall _ _ hshapeTake, List.length_take,
      Nat.min_eq_left hlen]
  have hb0len : r0.input_buffer.length = 4096 := by rw [hw6, hcap]
  obtain ⟨rB, sB, hmain1, hpostB⟩ := mainLoop_ref (frames.length + r0.maximum_integer_stretched_kernel_radius + 2) 268435456
    (frames.drop r0.maximum_integer_stretched_kernel_radius) rep inCb
    { r0 with
      input_buffer := writeSamples r0.input_buffer
        (r0.maximum_integer_stretched_kernel_radius * r0.low_level.channels * 2 -
          r0.leading_padding_frames_needed * r0.low_level.channels)
        ((rep s0).take r0.leading_padding_frames_needed).flatten
      leading_padding_frames_needed := 0 }
    table outCb sA os0
    (refFn frames.flatten (r0.maximum_integer_stretched_kernel_radius *
      r0.low_level.channels))
    0 (frames.length * 65536 + 1) llR1 osR1
    hconf hrepA
    (by
      intro f hf
      exact hshape f (List.mem_of_mem_drop hf))
    hcb
    ⟨hch1, hinc1, hpf0, hradmax, hmax1, hsr, hdelta⟩
    (by
      refine ⟨hw1, hw2, hw3, hw4, by dsimp only; omega, ?_⟩
      dsimp only
      rw [writeSamples_length]
      · exact hw6
      · rw [hrep, hlead, hdataAlen, hb0len]
        omega)
    (by
      intro k hk
      dsimp only at hk ⊢
      rw [hend, hstart, Nat.sub_self, Nat.zero_add] at hk
      rw [hstart, Nat.sub_self, Nat.zero_mul, Nat.zero_add]
      rw [hrep, hlead]
      have hoffA : r0.maximum_integer_stretched_kernel_radius *
          r0.low_level.channels * 2 -
          r0.maximum_integer_stretched_kernel_radius * r0.low_level.channels =
          r0.maximum_integer_stretched_kernel_radius * r0.low_level.channels := by
        omega
      rw [hoffA]
      by_cases hkM : k < r0.maximum_integer_stretched_kernel_radius *
          r0.low_level.channels
      · rw [writeSamples_getD_left _ _ _ _ (by rw [hb0len]; rw [hcap] at hw3; omega) hkM]
        rw [hzero k hkM]
        simp only [refFn]
        rw [if_pos hkM]
      · rw [writeSamples_getD_mid _ _ _ _ (by rw [hb0len]; rw [hcap] at hw3; omega)
          (by omega) (by rw [hdataAlen]; omega)]
        rw [flatten_take frames _ hshape r0.maximum_integer_stretched_kernel_radius]
        rw [getD_take _ _ _ (by omega)]
        simp only [refFn]
        rw [if_neg (by omega)])
    (by
      dsimp only
      rw [hend, hstart, Nat.sub_self]
      exact dvd_zero _)
    (by
      intro i hi
      dsimp only at hi ⊢
      rw [flatten_drop frames _ hshape r0.maximum_integer_stretched_kernel_radius] at hi ⊢
      rw [getD_drop]
      rw [hend, hstart, Nat.sub_self, Nat.zero_mul]
      simp only [refFn]
      rw [if_neg (by omega)]
      congr 1
      omega)
    (by dsimp only; exact hroom)
    (Nat.le_refl _)
    (by
      dsimp only
      rw [hend, hstart, Nat.sub_self, Nat.zero_div, Nat.zero_add, List.length_drop]
      exact hrun1)
    (by
      dsimp only
      rw [List.length_drop, if_pos (by rw [hend, hstart])]
      omega)
  obtain ⟨pB1, pB2, pB3, pB4, pB5, pB6, pB7⟩ := hpostB
  dsimp only at pB3 pB4 pB5 pB7
  rw [hend, hstart, Nat.sub_self, Nat.zero_div, Nat.zero_add, Nat.zero_add,
    List.length_drop] at pB7
  have hcall1 : ClownResampler_HighLevel_Resample (frames.length + r0.maximum_integer_stretched_kernel_radius + 2) 268435457
      r0 table inCb outCb s0 os0 = some (rB, sB, osR1, true) := by
    rw [ClownResampler_HighLevel_Resample, hleadrun]
    simp only [Bool.false_eq_true, if_false]
    rw [show (268435457 : Nat) = 268435456 + 1 from rfl]
    exact hmain1
  have hchB : rB.low_level.channels = r0.low_level.channels := by
    rw [pB1, hcfgB.1]
  have hMB : rB.maximum_integer_stretched_kernel_radius * rB.low_level.channels =
      r0.maximum_integer_stretched_kernel_radius * r0.low_level.channels := by
    rw [pB3, hchB]
  have hflatF : frames.flatten.length = frames.length * r0.low_level.channels :=
    flatten_length_of_forall _ _ hshape
  have hfutB : ∀ i, frames.length * r0.low_level.channels ≤
      (frames.length - r0.maximum_integer_stretched_kernel_radius) *
        r0.low_level.channels +
      r0.maximum_integer_stretched_kernel_radius * r0.low_level.channels + i := by
    intro i
    have hsm := Nat.sub_mul frames.length r0.maximum_integer_stretched_kernel_radius
      r0.low_level.channels
    have hmm := Nat.mul_le_mul_right r0.low_level.channels hlen
    omega
  obtain ⟨rC, tC, hmain2, hpostC⟩ := mainLoop_ref (frames.length + r0.maximum_integer_stretched_kernel_radius + 2) 268435456
    (List.replicate rB.trailing_padding_frames_remaining
      (List.replicate rB.low_level.channels 0))
    (fun t => List.replicate t (List.replicate rB.low_level.channels 0))
    (fun t n => ClownResampler_PaddingCallback rB.low_level.channels t n)
    rB table outCb rB.trailing_padding_frames_remaining osR1
    (refFn frames.flatten (r0.maximum_integer_stretched_kernel_radius *
      r0.low_level.channels))
    (frames.length - r0.maximum_integer_stretched_kernel_radius)
    rfuel llR osR
    (padding_conforming rB.low_level.channels)
    rfl
    (by
      intro f hf
      rw [List.eq_of_mem_replicate hf, List.length_replicate])
    hcb
    (by
      refine ⟨?_, ?_, ?_, ?_, ?_, ?_, ?_⟩
      · rw [hchB]; exact hch1
      · rw [pB1, hcfgB.2.1]; exact hinc1
      · rw [pB1]; exact hpfR1
      · rw [pB1, hcfgB.2.2.2.2.1, pB3]; exact hradmax
      · rw [pB3]; exact hmax1
      · rw [pB1, hcfgB.2.2.2.1, hcfgB.2.2.2.2.1]; exact hsr
      · rw [pB1, hcfgB.2.2.2.2.2.1, hcfgB.2.2.2.2.1, hcfgB.2.2.2.1]; exact hdelta)
    pB6 pB7
    (by rw [pB2, Nat.sub_self]; exact dvd_zero _)
    (by
      intro i hi
      rw [flatten_replicate_zero] at hi ⊢
      rw [List.length_replicate] at hi
      rw [getD_replicate _ _ _ _ hi]
      rw [hchB, pB3, pB2, Nat.sub_self, Nat.add_zero]
      simp only [refFn]
      rw [if_neg (by omega)]
      rw [getD_of_le]
      rw [hflatF]
      have := hfutB i
      omega)
    (by rw [hMB, hchB]; exact hroom)
    (Nat.le_refl _)
    (by
      rw [pB2, Nat.sub_self, Nat.zero_div, Nat.zero_add, List.length_replicate,
        pB5, htrail, pB1]
      have hfneq : (fun idx => (fun idx => refFn frames.flatten
          (r0.maximum_integer_stretched_kernel_radius * r0.low_level.channels)
          (0 * r0.low_level.channels + idx))
          ((frames.length - r0.maximum_integer_stretched_kernel_radius) *
            r0.low_level.channels + idx)) =
          (fun idx => refFn frames.flatten
            (r0.maximum_integer_stretched_kernel_radius * r0.low_level.channels)
            ((frames.length - r0.maximum_integer_stretched_kernel_radius) *
              llR1.channels + idx)) := by
        funext idx
        dsimp only
        rw [Nat.zero_mul, Nat.zero_add, hcfgB.1]
      rw [← hfneq]
      exact hrest)
    (by
      rw [List.length_replicate, if_pos pB2, pB5, htrail]
      omega)
  have hcall2 : ClownResampler_HighLevel_ResampleEnd (frames.length + r0.maximum_integer_stretched_kernel_radius + 2) 268435457
      rB table outCb osR1 =
      some ({ rC with trailing_padding_frames_remaining := tC }, osR, true) := by
    rw [ClownResampler_HighLevel_ResampleEnd, ClownResampler_HighLevel_Resample]
    have hlead2 : highLevelLeadingLoop (frames.length + r0.maximum_integer_stretched_kernel_radius + 2) rB
        (fun t n => ClownResampler_PaddingCallback rB.low_level.channels t n)
        rB.trailing_padding_frames_remaining =
        some (rB, rB.trailing_padding_frames_remaining, false) := by
      rw [show frames.length + r0.maximum_integer_stretched_kernel_radius + 2 =
        (frames.length + r0.maximum_integer_stretched_kernel_radius + 1) + 1 from rfl]
      rw [highLevelLeadingLoop, if_pos pB4]
    rw [hlead2]
    simp only [Bool.false_eq_true, if_false]
    rw [show (268435457 : Nat) = 268435456 + 1 from rfl]
    rw [hmain2]
  exact ⟨rB, sB, osR1, { rC with trailing_padding_frames_remaining := tC },
    hcall1, hcall2⟩

/-- The full high-level pipeline on a freshly initialised state when the
    stream is shorter than the kernel radius: the first Resample call is
    exhausted inside the leading loop, ResampleEnd completes the deadzone
    with silence and drains, and the trace is again that of the single
    reference low-level run over the zero-padded stream. -/
lemma pipeline_ref_short {ι σ : Type}
    (r0 : ClownResampler_HighLevel_State) (frames : List (List Int))
    (rep : ι → List (List Int)) (inCb : ι → Nat → List (List Int) × ι)
    (table : Nat → Int) (outCb : σ → List Int → Bool × σ) (s0 : ι) (os0 : σ)
    (rfuel : Nat) (llR : ClownResampler_LowLevel_State) (osR : σ)
    (hconf : conformingProducer inCb rep)
    (hrep : rep s0 = frames)
    (hshape : ∀ f ∈ frames, f.length = r0.low_level.channels)
    (hcb : ∀ st x, (outCb st x).1 = true)
    (hcfg : llConfigOk r0.low_level r0.maximum_integer_stretched_kernel_radius)
    (hinv : highLevelBufferInvariant r0)
    (hlead : r0.leading_padding_frames_needed =
      r0.maximum_integer_stretched_kernel_radius)
    (htrail : r0.trailing_padding_frames_remaining =
      r0.maximum_integer_stretched_kernel_radius)
    (hstart : r0.input_buffer_start =
      r0.maximum_integer_stretched_kernel_radius * r0.low_level.channels)
    (hend : r0.input_buffer_end =
      r0.maximum_integer_stretched_kernel_radius * r0.low_level.channels)
    (hzero : ∀ k, k < r0.maximum_integer_stretched_kernel_radius *
        r0.low_level.channels → r0.input_buffer.getD k 0 = 0)
    (hroom : 2 * (r0.maximum_integer_stretched_kernel_radius *
      r0.low_level.channels) + r0.low_level.channels ≤ inputBufferCapacity)
    (hshort : frames.length < r0.maximum_integer_stretched_kernel_radius)
    (href : ClownResampler_LowLevel_Resample rfuel r0.low_level table
      (refFn frames.flatten (r0.maximum_integer_stretched_kernel_radius *
        r0.low_level.channels)) frames.length outCb os0 =
      some (llR, 0, osR, true)) :
    ∃ r1 s1 os1 r2,
      ClownResampler_HighLevel_Resample
        (frames.length + r0.maximum_integer_stretched_kernel_radius + 2) 268435457
        r0 table inCb outCb s0 os0 = some (r1, s1, os1, true) ∧
      ClownResampler_HighLevel_ResampleEnd
        (frames.length + r0.maximum_integer_stretched_kernel_radius + 2) 268435457
        r1 table outCb os1 = some (r2, osR, true) := by
  obtain ⟨hch1, hinc1, hpf0, hradmax, hmax1, hsr, hdelta⟩ := hcfg
  obtain ⟨hw1, hw2, hw3, hw4, hw5, hw6⟩ := hinv
  have hcap : inputBufferCapacity = 4096 := rfl
  rw [hcap] at hw3
  have hb0len : r0.input_buffer.length = 4096 := by rw [hw6, hcap]
  have hflatF : frames.flatten.length = frames.length * r0.low_level.channels :=
    flatten_length_of_forall _ _ hshape
  have hFle : frames.length * r0.low_level.channels ≤
      r0.maximum_integer_stretched_kernel_radius * r0.low_level.channels :=
    Nat.mul_le_mul_right _ (Nat.le_of_lt hshort)
  have hsubmul := Nat.sub_mul r0.maximum_integer_stretched_kernel_radius
    frames.length r0.low_level.channels
  obtain ⟨sA, hleadrun, hrepA⟩ := leadingLoop_exhaust frames.length
    (frames.length + r0.maximum_integer_stretched_kernel_radius + 2) r0 inCb rep s0
    hconf (by rw [hrep]) (by rw [hlead]; exact hshort) (by omega)
    ⟨hw1, hw2, by rw [hcap]; exact hw3, hw4, hw5, hw6⟩ (by rw [hrep]; exact hshape)
  rw [hrep, hlead] at hleadrun
  have hoff1 : r0.maximum_integer_stretched_kernel_radius * r0.low_level.channels * 2 -
      r0.maximum_integer_stretched_kernel_radius * r0.low_level.channels =
      r0.maximum_integer_stretched_kernel_radius * r0.low_level.channels := by omega
  rw [hoff1] at hleadrun
  have hcall1 : ClownResampler_HighLevel_Resample
      (frames.length + r0.maximum_integer_stretched_kernel_radius + 2) 268435457
      r0 table inCb outCb s0 os0 =
      some ({ r0 with
        input_buffer := writeSamples r0.input_buffer
          (r0.maximum_integer_stretched_kernel_radius * r0.low_level.channels)
          frames.flatten
        leading_padding_frames_needed :=
          r0.maximum_integer_stretched_kernel_radius - frames.length },
        sA, os0, true) := by
    rw [ClownResampler_HighLevel_Resample, hleadrun]
    rfl
  obtain ⟨tA, hlead2run, hrepT⟩ := leadingLoop_ref
    (r0.maximum_integer_stretched_kernel_radius - frames.length)
    (frames.length + r0.maximum_integer_stretched_kernel_radius + 2)
    { r0 with
      input_buffer := writeSamples r0.input_buffer
        (r0.maximum_integer_stretched_kernel_radius * r0.low_level.channels)
        frames.flatten
      leading_padding_frames_needed :=
        r0.maximum_integer_stretched_kernel_radius - frames.length }
    (fun t n => ClownResampler_PaddingCallback r0.low_level.channels t n)
    (fun t => List.replicate t (List.replicate r0.low_level.channels 0))
    r0.trailing_padding_frames_remaining
    (padding_conforming r0.low_level.channels)
    rfl
    (by simp only [List.length_replicate]; rw [htrail]; omega)
    (by omega)
    (by
      refine ⟨hw1, hw2, by rw [hcap]; exact hw3, hw4, by dsimp only; omega, ?_⟩
      dsimp only
      rw [writeSamples_length]
      · exact hw6
      · rw [hflatF, hb0len]
        omega)
    (by
      intro f hf
      simp only at hf
      rw [List.eq_of_mem_replicate hf, List.length_replicate])
  dsimp only at hlead2run
  have hdata2 : ((List.replicate r0.trailing_padding_frames_remaining
      (List.replicate r0.low_level.channels (0:Int))).take
        (r0.maximum_integer_stretched_kernel_radius - frames.length)).flatten =
      List.replicate ((r0.maximum_integer_stretched_kernel_radius - frames.length) *
        r0.low_level.channels) (0:Int) := by
    rw [List.take_replicate,
      show min (r0.maximum_integer_stretched_kernel_radius - frames.length)
        r0.trailing_padding_frames_remaining =
        r0.maximum_integer_stretched_kernel_radius - frames.length from by
          rw [htrail]; omega,
      flatten_replicate_zero]
  have hoff2 : r0.maximum_integer_stretched_kernel_radius * r0.low_level.channels * 2 -
      (r0.maximum_integer_stretched_kernel_radius - frames.length) *
        r0.low_level.channels =
      r0.maximum_integer_stretched_kernel_radius * r0.low_level.channels +
        frames.length * r0.low_level.channels := by omega
  rw [hdata2, hoff2] at hlead2run
  have hrefG : ClownResampler_LowLevel_Resample rfuel r0.low_level table
      (fun idx => refFn frames.flatten (r0.maximum_integer_stretched_kernel_radius *
        r0.low_level.channels) (0 * r0.low_level.channels + idx))
      frames.length outCb os0 = some (llR, 0, osR, true) := by
    have hfn0 : (fun idx => refFn frames.flatten
        (r0.maximum_integer_stretched_kernel_radius * r0.low_level.channels)
        (0 * r0.low_level.channels + idx)) =
        refFn frames.flatten (r0.maximum_integer_stretched_kernel_radius *
          r0.low_level.channels) := by
      funext idx
      rw [Nat.zero_mul, Nat.zero_add]
    rw [hfn0]
    exact href
  obtain ⟨r3, t3, hmain2, -⟩ := mainLoop_ref
    (frames.length + r0.maximum_integer_stretched_kernel_radius + 2) 268435456
    (List.replicate frames.length (List.replicate r0.low_level.channels 0))
    (fun t => List.replicate t (List.replicate r0.low_level.channels 0))
    (fun t n => ClownResampler_PaddingCallback r0.low_level.channels t n)
    { r0 with
      input_buffer := writeSamples (writeSamples r0.input_buffer
          (r0.maximum_integer_stretched_kernel_radius * r0.low_level.channels)
          frames.flatten)
        (r0.maximum_integer_stretched_kernel_radius * r0.low_level.channels +
          frames.length * r0.low_level.channels)
        (List.replicate ((r0.maximum_integer_stretched_kernel_radius -
          frames.length) * r0.low_level.channels) 0)
      leading_padding_frames_needed := 0 }
    table outCb tA os0
    (refFn frames.flatten (r0.maximum_integer_stretched_kernel_radius *
      r0.low_level.channels))
    0 rfuel llR osR
    (padding_conforming r0.low_level.channels)
    (by
      dsimp only
      rw [hrepT, htrail, List.drop_replicate]
      congr 1
      omega)
    (by
      intro f hf
      rw [List.eq_of_mem_replicate hf, List.length_replicate])
    hcb
    ⟨hch1, hinc1, hpf0, hradmax, hmax1, hsr, hdelta⟩
    (by
      refine ⟨hw1, hw2, by rw [hcap]; exact hw3, hw4, by dsimp only; omega, ?_⟩
      dsimp only
      rw [writeSamples_length, writeSamples_length]
      · exact hw6
      · rw [hflatF, hb0len]
        omega
      · rw [List.length_replicate, writeSamples_length]
        · rw [hb0len]
          omega
        · rw [hflatF, hb0len]
          omega)
    (by
      intro k hk
      dsimp only at hk ⊢
      rw [hstart, hend, Nat.sub_self, Nat.zero_add] at hk
      rw [hstart, Nat.sub_self, Nat.zero_mul, Nat.zero_add]
      have hlen1 : (writeSamples r0.input_buffer
          (r0.maximum_integer_stretched_kernel_radius * r0.low_level.channels)
          frames.flatten).length = 4096 := by
        rw [writeSamples_length]
        · exact hb0len
        · rw [hflatF, hb0len]
          omega
      by_cases hk1 : k < r0.maximum_integer_stretched_kernel_radius *
          r0.low_level.channels
      · rw [writeSamples_getD_left _ _ _ _ (by rw [hlen1]; omega) (by omega)]
        rw [writeSamples_getD_left _ _ _ _ (by rw [hb0len]; omega) hk1]
        rw [hzero k hk1]
        simp only [refFn]
        rw [if_pos hk1]
      · by_cases hk2 : k < r0.maximum_integer_stretched_kernel_radius *
            r0.low_level.channels + frames.length * r0.low_level.channels
        · rw [writeSamples_getD_left _ _ _ _ (by rw [hlen1]; omega) (by omega)]
          rw [writeSamples_getD_mid _ _ _ _ (by rw [hb0len]; omega) (by omega)
            (by rw [hflatF]; omega)]
          simp only [refFn]
          rw [if_neg hk1]
        · rw [writeSamples_getD_mid _ _ _ _ (by rw [hlen1]; omega) (by omega)
            (by rw [List.length_replicate]; omega)]
          rw [getD_replicate _ _ _ _ (by omega)]
          simp only [refFn]
          rw [if_neg hk1]
          rw [getD_of_le _ _ _ (by rw [hflatF]; omega)])
    (by
      dsimp only
      rw [hstart, hend, Nat.sub_self]
      exact dvd_zero _)
    (by
      intro i hi
      rw [flatten_replicate_zero] at hi ⊢
      rw [List.length_replicate] at hi
      rw [getD_replicate _ _ _ _ hi]
      dsimp only
      rw [Nat.zero_mul, Nat.zero_add, hstart, hend, Nat.sub_self, Nat.zero_add]
      simp only [refFn]
      rw [if_neg (by omega)]
      rw [getD_of_le _ _ _ (by rw [hflatF]; omega)])
    (by dsimp only; exact hroom)
    (Nat.le_refl _)
    (by
      dsimp only
      rw [hstart, hend, Nat.sub_self, Nat.zero_div, List.length_replicate,
        Nat.zero_add]
      exact hrefG)
    (by
      dsimp only
      rw [List.length_replicate, if_pos (hstart.trans hend.symm)]
      omega)
  have hcall2 : ClownResampler_HighLevel_ResampleEnd
      (frames.length + r0.maximum_integer_stretched_kernel_radius + 2) 268435457
      { r0 with
        input_buffer := writeSamples r0.input_buffer
          (r0.maximum_integer_stretched_kernel_radius * r0.low_level.channels)
          frames.flatten
        leading_padding_frames_needed :=
          r0.maximum_integer_stretched_kernel_radius - frames.length }
      table outCb os0 =
      some ({ r3 with trailing_padding_frames_remaining := t3 }, osR, true) := by
    rw [ClownResampler_HighLevel_ResampleEnd, ClownResampler_HighLevel_Resample]
    dsimp only
    rw [hlead2run]
    simp only [Bool.false_eq_true, if_false]
    rw [show (268435457 : Nat) = 268435456 + 1 from rfl]
    rw [hmain2]
  exact ⟨_, sA, os0, { r3 with trailing_padding_frames_remaining := t3 },
    hcall1, hcall2⟩

/-- The main-loop body returns none when the low-level engine cannot make
    forward progress (a zero increment at a zero fractional position with
    unconsumed frames in the window): no fuel makes the inner call return. -/
lemma mainStep_stuck {ι σ : Type}
    (recur : ClownResampler_HighLevel_State → ι → σ →
      Option (ClownResampler_HighLevel_State × ι × σ × Bool))
    (llfuel : Nat) (r : ClownResampler_HighLevel_State) (table : Nat → Int)
    (outCb : σ → List Int → Bool × σ) (is : ι) (os : σ)
    (hinc : r.low_level.increment = 0)
    (hpf : r.low_level.position_fractional = 0)
    (hpi : r.low_level.position_integer <
      (r.input_buffer_end - r.input_buffer_start) / r.low_level.channels)
    (hcb : ∀ s x, (outCb s x).1 = true) :
    highLevelMainStep recur llfuel r table outCb is os = none := by
  have hll := lowLevel_stuck llfuel r.low_level table
    (fun idx => r.input_buffer.getD (r.input_buffer_start -
      r.low_level.integer_stretched_kernel_radius * r.low_level.channels + idx) 0)
    ((r.input_buffer_end - r.input_buffer_start) / r.low_level.channels)
    outCb os hinc hpf hpi hcb
  simp only [highLevelMainStep]
  rw [hll]

/-- C7 counterexample.  The claim quantifies over every configuration, but a
    configuration whose 16.16 resampling increment truncates to zero - rates
    (1, 65537), where 1 * 65536 / 65537 = 0 - leaves the low-level engine
    unable to make forward progress.  With the four-frame stream delivered in
    one shot and an always-accepting output callback, the first
    ClownResampler_HighLevel_Resample call of the pipeline never returns at
    any fuel: the pipeline produces no output sequence at all, so the claimed
    identity of output sequences is unattainable at this configuration. -/
theorem C7_counterexample :
    ¬ ∃ (f1 f2 : Nat)
        (res : ClownResampler_HighLevel_State × Nat × List (List Int) × Bool),
      ClownResampler_HighLevel_Resample f1 f2
        (ClownResampler_HighLevel_Init zeroBuffer 1 1 65537 1) zeroFn
        (oneShotProducer c7Frames) collectOutputCallback 0 [] = some res := by
  rintro ⟨f1, f2, res, h⟩
  rcases f1 with _ | f
  · exact Option.noConfusion h
  rcases f with _ | g
  · exact Option.noConfusion h
  rw [ClownResampler_HighLevel_Resample] at h
  rw [highLevelLeadingLoop, if_neg (by decide)] at h
  simp only at h
  rw [if_neg (by decide)] at h
  rw [highLevelLeadingLoop] at h
  rw [if_pos (by decide)] at h
  dsimp only at h
  simp only [Bool.false_eq_true, if_false] at h
  rw [highLevelMainLoop] at h
  rw [if_pos (by decide)] at h
  rw [if_neg (by decide)] at h
  rw [mainStep_stuck] at h
  · exact Option.noConfusion h
  · decide
  · decide
  · decide
  · exact fun s x => rfl

/-- C7 (amended): streaming equivalence.  For every configuration - any
    buffer, channel count and nonzero rates whose ratios fit the 16.16 type,
    whose increment does not truncate to zero (the counterexample's
    configuration) and whose kernel radius fits the buffer (claim C10's
    overrun) - and every finite input stream, delivering the stream in one
    shot or in any other chunking through any two conforming producers,
    each followed by ClownResampler_HighLevel_ResampleEnd with an
    always-accepting consumer, produces identical output sequences: both
    pipelines return the trace osF of the single reference low-level run
    over the zero-padded stream. -/
theorem C7_streaming_equivalence {ι κ σ : Type}
    (buffer0 : List Int) (channels i o l : Nat) (frames : List (List Int))
    (rep1 : ι → List (List Int)) (inCb1 : ι → Nat → List (List Int) × ι)
    (rep2 : κ → List (List Int)) (inCb2 : κ → Nat → List (List Int) × κ)
    (table : Nat → Int) (outCb : σ → List Int → Bool × σ)
    (s1 : ι) (s2 : κ) (os0 : σ)
    (hconf1 : conformingProducer inCb1 rep1) (hrep1 : rep1 s1 = frames)
    (hconf2 : conformingProducer inCb2 rep2) (hrep2 : rep2 s2 = frames)
    (hshape : ∀ f ∈ frames, f.length = channels)
    (hcb : ∀ st x, (outCb st x).1 = true)
    (hbuf0 : buffer0.length = inputBufferCapacity)
    (hch : 1 ≤ channels)
    (hi : 0 < i) (ho : 0 < o) (hl : 0 < l) (hi32 : i < 2 ^ 32)
    (hfit : i < min i (min o l) * 65536)
    (hinc : 1 ≤ ClownResampler_CalculateRatio i o)
    (hcap : 2 * ((ClownResampler_HighLevel_Init buffer0 channels i o
        l).maximum_integer_stretched_kernel_radius * channels) + channels ≤
      inputBufferCapacity) :
    ∃ osF rA sA osA rB rC sC osC rD,
      ClownResampler_HighLevel_Resample
        (frames.length + (ClownResampler_HighLevel_Init buffer0 channels i o
          l).maximum_integer_stretched_kernel_radius + 2) 268435457
        (ClownResampler_HighLevel_Init buffer0 channels i o l) table
        inCb1 outCb s1 os0 = some (rA, sA, osA, true) ∧
      ClownResampler_HighLevel_ResampleEnd
        (frames.length + (ClownResampler_HighLevel_Init buffer0 channels i o
          l).maximum_integer_stretched_kernel_radius + 2) 268435457
        rA table outCb osA = some (rB, osF, true) ∧
      ClownResampler_HighLevel_Resample
        (frames.length + (ClownResampler_HighLevel_Init buffer0 channels i o
          l).maximum_integer_stretched_kernel_radius + 2) 268435457
        (ClownResampler_HighLevel_Init buffer0 channels i o l) table
        inCb2 outCb s2 os0 = some (rC, sC, osC, true) ∧
      ClownResampler_HighLevel_ResampleEnd
        (frames.length + (ClownResampler_HighLevel_Init buffer0 channels i o
          l).maximum_integer_stretched_kernel_radius + 2) 268435457
        rC table outCb osC = some (rD, osF, true) := by
  have hchannels : (ClownResampler_HighLevel_Init buffer0 channels i o
      l).low_level.channels = channels := rfl
  have hminpos : 0 < min i (min o l) := by omega
  have hminle : min i (min o l) ≤ i := Nat.min_le_left _ _
  have hscale : 65536 ≤ ClownResampler_CalculateRatio i (min i (min o l)) :=
    calculateRatio_ge i (min i (min o l)) hminpos hminle hi32 hfit
  have hceil := ceil_fixed_ge (CLOWNRESAMPLER_KERNEL_RADIUS *
    ClownResampler_CalculateRatio i (min i (min o l)))
  have hmax1 : 1 ≤ (ClownResampler_HighLevel_Init buffer0 channels i o
      l).maximum_integer_stretched_kernel_radius := by
    show 1 ≤ toIntegerFromFixedCeiling (CLOWNRESAMPLER_KERNEL_RADIUS *
      ClownResampler_CalculateRatio i (min i (min o l)))
    simp only [toFixedFromInteger, toIntegerFromFixedCeiling,
      CLOWNRESAMPLER_FIXED_POINT_FRACTIONAL_SIZE, CLOWNRESAMPLER_KERNEL_RADIUS]
      at hceil ⊢
    omega
  have hcfg : llConfigOk (ClownResampler_HighLevel_Init buffer0 channels i o
      l).low_level (ClownResampler_HighLevel_Init buffer0 channels i o
      l).maximum_integer_stretched_kernel_radius :=
    ⟨hch, hinc, by show (0:Nat) < 65536; decide, rfl, hmax1,
      (lowLevel_init_ceil channels i o l).1,
      (lowLevel_init_ceil channels i o l).2⟩
  have hinv : highLevelBufferInvariant
      (ClownResampler_HighLevel_Init buffer0 channels i o l) := by
    refine ⟨Nat.le_refl _, Nat.le_refl _, ?_, Nat.le_refl _, Nat.le_refl _, ?_⟩
    · have hte : (ClownResampler_HighLevel_Init buffer0 channels i o
          l).input_buffer_end = (ClownResampler_HighLevel_Init buffer0 channels
            i o l).maximum_integer_stretched_kernel_radius * channels := rfl
      rw [hchannels, hte]
      omega
    · show (writeSamples buffer0 0 (List.replicate
          ((ClownResampler_HighLevel_Init buffer0 channels i o
            l).maximum_integer_stretched_kernel_radius * channels) 0)).length =
        inputBufferCapacity
      rw [writeSamples_length]
      · exact hbuf0
      · rw [List.length_replicate, hbuf0]
        omega
  have hzero : ∀ k, k < (ClownResampler_HighLevel_Init buffer0 channels i o
      l).maximum_integer_stretched_kernel_radius *
      (ClownResampler_HighLevel_Init buffer0 channels i o
        l).low_level.channels →
      (ClownResampler_HighLevel_Init buffer0 channels i o
        l).input_buffer.getD k 0 = 0 := by
    intro k hk
    show (writeSamples buffer0 0 (List.replicate
        ((ClownResampler_HighLevel_Init buffer0 channels i o
          l).maximum_integer_stretched_kernel_radius *
          (ClownResampler_HighLevel_Init buffer0 channels i o
            l).low_level.channels) 0)).getD k 0 = 0
    rw [writeSamples_getD_mid _ _ _ _ (Nat.zero_le _) (Nat.zero_le _)
      (by rw [List.length_replicate]; omega)]
    rw [Nat.sub_zero]
    exact getD_replicate _ _ _ _ hk
  obtain ⟨llR, osR, href, hpfR⟩ := lowLevel_terminates (frames.length * 65536)
    (ClownResampler_HighLevel_Init buffer0 channels i o l).low_level table
    (refFn frames.flatten ((ClownResampler_HighLevel_Init buffer0 channels i o
      l).maximum_integer_stretched_kernel_radius *
      (ClownResampler_HighLevel_Init buffer0 channels i o
        l).low_level.channels))
    frames.length outCb os0 hinc (by show (0:Nat) < 65536; decide) hcb
    (Nat.le_add_right _ _)
  by_cases hlen : (ClownResampler_HighLevel_Init buffer0 channels i o
      l).maximum_integer_stretched_kernel_radius ≤ frames.length
  · obtain ⟨rA, sA, osA, rB, h1, h2⟩ := pipeline_ref
      (ClownResampler_HighLevel_Init buffer0 channels i o l) frames rep1 inCb1
      table outCb s1 os0 (frames.length * 65536 + 1) llR osR hconf1 hrep1 hshape
      hcb hcfg hinv rfl rfl rfl rfl hzero hcap hlen href
    obtain ⟨rC, sC, osC, rD, h3, h4⟩ := pipeline_ref
      (ClownResampler_HighLevel_Init buffer0 channels i o l) frames rep2 inCb2
      table outCb s2 os0 (frames.length * 65536 + 1) llR osR hconf2 hrep2 hshape
      hcb hcfg hinv rfl rfl rfl rfl hzero hcap hlen href
    exact ⟨osR, rA, sA, osA, rB, rC, sC, osC, rD, h1, h2, h3, h4⟩
  · have hshort := Nat.lt_of_not_le (fun hc => hlen hc)
    obtain ⟨rA, sA, osA, rB, h1, h2⟩ := pipeline_ref_short
      (ClownResampler_HighLevel_Init buffer0 channels i o l) frames rep1 inCb1
      table outCb s1 os0 (frames.length * 65536 + 1) llR osR hconf1 hrep1 hshape
      hcb hcfg hinv rfl rfl rfl rfl hzero hcap hshort href
    obtain ⟨rC, sC, osC, rD, h3, h4⟩ := pipeline_ref_short
      (ClownResampler_HighLevel_Init buffer0 channels i o l) frames rep2 inCb2
      table outCb s2 os0 (frames.length * 65536 + 1) llR osR hconf2 hrep2 hshape
      hcb hcfg hinv rfl rfl rfl rfl hzero hcap hshort href
    exact ⟨osR, rA, sA, osA, rB, rC, sC, osC, rD, h1, h2, h3, h4⟩

/-- C7 witness: the amended streaming equivalence theorem at a concrete mono
    resampler with unit rates and four input frames, delivered in one shot
    versus one frame at a time. -/
theorem C7_witness :
    ∃ osF rA sA osA rB rC sC osC rD,
      ClownResampler_HighLevel_Resample 9 268435457
        (ClownResampler_HighLevel_Init zeroBuffer 1 1 1 1) zeroFn
        (oneShotProducer c7Frames) collectOutputCallback 0 [] =
        some (rA, sA, osA, true) ∧
      ClownResampler_HighLevel_ResampleEnd 9 268435457 rA zeroFn
        collectOutputCallback osA = some (rB, osF, true) ∧
      ClownResampler_HighLevel_Resample 9 268435457
        (ClownResampler_HighLevel_Init zeroBuffer 1 1 1 1) zeroFn
        (singleFrameProducer c7Frames) collectOutputCallback 0 [] =
        some (rC, sC, osC, true) ∧
      ClownResampler_HighLevel_ResampleEnd 9 268435457 rC zeroFn
        collectOutputCallback osC = some (rD, osF, true) :=
  C7_streaming_equivalence zeroBuffer 1 1 1 1 c7Frames
    (fun d => c7Frames.drop d) (oneShotProducer c7Frames)
    (fun d => c7Frames.drop d) (singleFrameProducer c7Frames)
    zeroFn collectOutputCallback 0 0 []
    (oneShot_conforming c7Frames) rfl
    (singleFrame_conforming c7Frames) rfl
    (by decide)
    (fun s x => rfl)
    (by rw [zeroBuffer, List.length_replicate]; rfl)
    (by decide) (by decide) (by decide) (by decide) (by decide) (by decide)
    (by decide) (by decide)
